import Mathlib

/-!
# SkillSwap frontend: the message timeline of `MessagesPage`

A shallow embedding of the chat logic of `src/pages/MessagesPage.js`, of
`src/services/socketService.js`, and of the reducers of `src/store/slices/messageSlice.js` and
`src/store/slices/notificationSlice.js` that maintain the conversation list, the typing users
and the unread count.

* React state (`messages`, `newMessage`, `selectedMatch`) is an explicit record and every
  `setMessages(prev => ...)` updater is a pure function on the timeline.  The updaters queued by
  one handler run in the order they were queued, so a handler is the composition of its updaters.
* `new Date(x.createdAt)` is the number of milliseconds since the epoch, an integer; a message
  whose `createdAt` does not parse (an `Invalid Date`) is outside the model, since
  `Array.prototype.sort` leaves the order implementation-defined for an inconsistent comparator.
* `Array.prototype.sort` is stable and the comparator `(a, b) => a.createdAt - b.createdAt` is
  consistent, so its result is the stable sort by `createdAt`; insertion sort computes it.
* The two clock readings of `sendMessage` (`Date.now()` for the temporary id and `new Date()` for
  `createdAt`) are parameters.
-/

namespace SkillSwap

/-! ## Data model -/

/-- The `sender` sub-object of a chat message. -/
structure Sender where
  _id : String
  firstName : String
  lastName : String
deriving DecidableEq, Repr

/-- A chat message as held in the `messages` state of `MessagesPage`.  The optional fields
`isOptimistic` and `failed` are `false` when absent (they are only tested for truthiness). -/
structure Message where
  _id : String
  content : String
  sender : Sender
  createdAt : Int
  type : String
  isOptimistic : Bool
  failed : Bool
deriving DecidableEq, Repr

/-- The logged-in user (`state.auth.user`). -/
structure User where
  id : String
  firstName : String
  lastName : String
deriving DecidableEq, Repr

/-- A conversation (`match`); only its id is read by the chat logic. -/
structure Match where
  _id : String
deriving DecidableEq, Repr

/-- Payload of a `new_message` socket event. -/
structure NewMessageData where
  matchId : String
  message : Message
deriving DecidableEq, Repr

/-! ## `Array.prototype.sort` by creation time -/

/-- The order induced by the comparator `(a, b) => new Date(a.createdAt) - new Date(b.createdAt)`:
`a` may stay before `b`. -/
def createdAtLE (a b : Message) : Prop := a.createdAt ≤ b.createdAt

instance createdAtLE_decidable : DecidableRel createdAtLE :=
  fun a b => inferInstanceAs (Decidable (a.createdAt ≤ b.createdAt))

instance createdAtLE_total : IsTotal Message createdAtLE :=
  ⟨fun a b => Int.le_total a.createdAt b.createdAt⟩

instance createdAtLE_trans : IsTrans Message createdAtLE :=
  ⟨fun _ _ _ hab hbc => Int.le_trans hab hbc⟩

/-- The call `xs.sort((a, b) => new Date(a.createdAt) - new Date(b.createdAt))`: the stable sort
of `xs` by `createdAt`. -/
def sortByCreatedAt (xs : List Message) : List Message :=
  xs.insertionSort createdAtLE

/-! ## `String.prototype.trim` -/

/-- The code points `String.prototype.trim` strips: ECMAScript `WhiteSpace` (TAB, VT, FF, SP,
NBSP, ZWNBSP and the Unicode category Zs) and `LineTerminator` (LF, CR, LS, PS). -/
def isWhiteSpace (c : Char) : Bool :=
  let n := c.toNat
  n == 0x09 || n == 0x0A || n == 0x0B || n == 0x0C || n == 0x0D || n == 0x20 || n == 0xA0 ||
  n == 0x1680 || (0x2000 ≤ n && n ≤ 0x200A) || n == 0x2028 || n == 0x2029 || n == 0x202F ||
  n == 0x205F || n == 0x3000 || n == 0xFEFF

/-- The method `String.prototype.trim`: drop the leading and the trailing white space. -/
def jsTrim (s : String) : String :=
  ⟨((s.data.dropWhile isWhiteSpace).reverse.dropWhile isWhiteSpace).reverse⟩

/-! ## `socketService.js` -/

/-- An event emitted on the socket (`socket.emit(name, payload)`). -/
inductive Emission where
  | join_match (matchId : String)
  | leave_match (matchId : String)
  | send_message (matchId content type : String)
  | typing_start (matchId : String)
  | typing_stop (matchId : String)
  | user_active
deriving DecidableEq, Repr

/-- The socket object held by the service: the log of what was emitted on it. -/
structure Socket where
  emitted : List Emission
deriving DecidableEq, Repr

/-- The singleton `SocketService`: `socket` is `none` for `null`. -/
structure SocketService where
  socket : Option Socket
  isConnected : Bool
deriving DecidableEq, Repr

namespace SocketService

/-- The method `getConnectionStatus()`. -/
def getConnectionStatus (s : SocketService) : Bool := s.isConnected

/-- The call `this.socket.emit(...)` guarded by `this.socket && this.isConnected`: the service
after the emission, or `none` when the guard fails. -/
def emitWhenReady (s : SocketService) (e : Emission) : Option SocketService :=
  match s.socket with
  | some sock =>
    if s.isConnected then some { s with socket := some { sock with emitted := sock.emitted ++ [e] } }
    else none
  | none => none

/-- The method `sendMessage(matchId, content, type)`: emits `send_message` and returns `true` when
the socket exists and is connected, otherwise emits nothing and returns `false`. -/
def sendMessage (s : SocketService) (matchId content type : String) : SocketService × Bool :=
  match s.emitWhenReady (.send_message matchId content type) with
  | some s' => (s', true)
  | none => (s, false)

/-- The method `stopTyping(matchId)`. -/
def stopTyping (s : SocketService) (matchId : String) : SocketService :=
  (s.emitWhenReady (.typing_stop matchId)).getD s

/-- Everything emitted so far (nothing when there is no socket). -/
def emissions (s : SocketService) : List Emission :=
  match s.socket with
  | some sock => sock.emitted
  | none => []

end SocketService

/-! ## `MessagesPage.js`: timeline updaters -/

/-- The filter predicate of `handleNewMessage`: `msg` is an optimistic message with the content
and the sender of the incoming message `m`. -/
def isOptimisticTwin (m msg : Message) : Bool :=
  msg.isOptimistic && msg.content == m.content && msg.sender._id == m.sender._id

/-- The updater `setMessages(prev => ...)` of `handleNewMessage` (lines 76-92). -/
def receiveMessage (m : Message) (prev : List Message) : List Message :=
  let filteredMessages := prev.filter (fun msg => !isOptimisticTwin m msg)
  let messageExists := filteredMessages.any (fun msg => msg._id == m._id)
  if !messageExists then
    let updatedMessages := filteredMessages ++ [m]
    sortByCreatedAt updatedMessages
  else
    filteredMessages

/-- The handler `handleNewMessage(data)`: the updater runs only when the event is for the selected
conversation (`data.matchId === selectedMatch?._id`). -/
def handleNewMessage (selectedMatch : Option Match) (data : NewMessageData)
    (prev : List Message) : List Message :=
  if some data.matchId = selectedMatch.map (fun m => m._id) then
    receiveMessage data.message prev
  else
    prev

/-- The provisional message built by `sendMessage` (lines 186-193); `idNow` is `Date.now()` and
`createdNow` is `new Date()`. -/
def optimisticMessage (user : User) (messageText : String) (idNow createdNow : Int) : Message :=
  { _id := "temp_" ++ toString idNow
    content := messageText
    sender := { _id := user.id, firstName := user.firstName, lastName := user.lastName }
    createdAt := createdNow
    type := "text"
    isOptimistic := true
    failed := false }

/-- The updater of lines 196-199: append the provisional message and sort. -/
def insertOptimistic (optimistic : Message) (prev : List Message) : List Message :=
  let updatedMessages := prev ++ [optimistic]
  sortByCreatedAt updatedMessages

/-- The updater of line 206: drop the provisional message after a failed emission. -/
def removeOptimistic (optimistic : Message) (prev : List Message) : List Message :=
  prev.filter (fun msg => msg._id != optimistic._id)

/-- The test `hasRealMessage` of the watchdog (lines 216-220): some entry is not optimistic and
has the content and the sender of the provisional message. -/
def hasRealMessage (optimistic : Message) (prev : List Message) : Bool :=
  prev.any (fun msg =>
    !msg.isOptimistic && msg.content == optimistic.content &&
      msg.sender._id == optimistic.sender._id)

/-- The object `{ ...msg, failed: true, isOptimistic: false }` of line 229. -/
def markFailed (msg : Message) : Message :=
  { msg with failed := true, isOptimistic := false }

/-- The updater run by the 10 second timer of `sendMessage` (lines 214-232). -/
def cleanup (optimistic : Message) (prev : List Message) : List Message :=
  if hasRealMessage optimistic prev then
    prev.filter (fun msg => msg._id != optimistic._id)
  else
    prev.map (fun msg => if msg._id == optimistic._id then markFailed msg else msg)

/-! ## `MessagesPage.js`: the submit handler -/

/-- The state `sendMessage` reads and writes: the component state, the socket service, the
`toast.error` notices shown so far and the pending `setTimeout` callbacks (delay in milliseconds
and the provisional message the callback captured). -/
structure World where
  user : User
  selectedMatch : Option Match
  messages : List Message
  newMessage : String
  socketService : SocketService
  toasts : List String
  timers : List (Nat × Message)
deriving DecidableEq, Repr

/-- The handler `sendMessage(e)` (lines 170-243); `e.preventDefault()` only touches the DOM event
and nothing in the body throws, so the `catch` branch is not reached. -/
def sendMessage (idNow createdNow : Int) (w : World) : World :=
  match w.selectedMatch with
  | none => w
  | some selectedMatch =>
    if jsTrim w.newMessage = "" then w
    else
      let messageText := jsTrim w.newMessage
      if !w.socketService.getConnectionStatus then
        { w with
          toasts := w.toasts ++ ["Connection lost. Please refresh the page."]
          newMessage := messageText }
      else
        let optimistic := optimisticMessage w.user messageText idNow createdNow
        let shown := insertOptimistic optimistic w.messages
        let sent := w.socketService.sendMessage selectedMatch._id messageText "text"
        if !sent.2 then
          { w with
            socketService := sent.1
            toasts := w.toasts ++ ["Failed to send message. Please check your connection."]
            newMessage := messageText
            messages := removeOptimistic optimistic shown }
        else
          { w with
            socketService := sent.1.stopTyping selectedMatch._id
            newMessage := ""
            messages := shown
            timers := w.timers ++ [(10000, optimistic)] }

/-! ## Runs of timeline events -/

/-- What can change the timeline of the open conversation: the optimistic insert of a send that
passed the guards of `sendMessage`, a `new_message` event, and the expiry of the timer of an
earlier send. -/
inductive TimelineEvent where
  | localSend (messageText : String) (idNow createdNow : Int)
  | incoming (data : NewMessageData)
  | watchdog (optimistic : Message)
deriving DecidableEq, Repr

/-- The timeline after one event. -/
def applyEvent (user : User) (selectedMatch : Option Match) (e : TimelineEvent)
    (prev : List Message) : List Message :=
  match e with
  | .localSend messageText idNow createdNow =>
    insertOptimistic (optimisticMessage user messageText idNow createdNow) prev
  | .incoming data => handleNewMessage selectedMatch data prev
  | .watchdog optimistic => cleanup optimistic prev

/-- The timeline after a sequence of events, oldest first. -/
def runEvents (user : User) (selectedMatch : Option Match) (start : List Message)
    (events : List TimelineEvent) : List Message :=
  events.foldl (fun prev e => applyEvent user selectedMatch e prev) start

/-! ## Vocabulary of the claims -/

/-- The preconditions under which `sendMessage` inserts the provisional message and emits it:
a conversation is selected, the input is not blank, and the socket exists and is connected. -/
def CanSend (w : World) (selected : Match) (sock : Socket) : Prop :=
  w.selectedMatch = some selected ∧ (∃ c ∈ w.newMessage.data, isWhiteSpace c = false) ∧
    w.socketService.socket = some sock ∧ w.socketService.isConnected = true

/-- The entries of a timeline created at time `k`, in timeline order. -/
def createdAtSlice (k : Int) (xs : List Message) : List Message :=
  xs.filter (fun x => x.createdAt == k)

/-- How often the id `id` occurs in a timeline. -/
def idCount (id : String) (xs : List Message) : Nat :=
  xs.countP (fun x => x._id == id)

/-- Feeding the messages `arrivals` one by one, in list order, through `handleNewMessage` as
`new_message` events of the open conversation `selected`, starting from the empty timeline. -/
def feed (user : User) (selected : Match) (arrivals : List Message) : List Message :=
  runEvents user (some selected) []
    (arrivals.map (fun m => TimelineEvent.incoming { matchId := selected._id, message := m }))

/-- The event is a local send or a `new_message` event of the open conversation `selected` that
carries a confirmed message. -/
def TimelineEvent.isSendOrConfirmed (selected : Match) : TimelineEvent → Bool
  | .localSend _ _ _ => true
  | .incoming data => data.matchId == selected._id && !data.message.isOptimistic
  | .watchdog _ => false

/-- The event is a local send by the author of `m` with the content of `m`. -/
def TimelineEvent.resends (user : User) (m : Message) : TimelineEvent → Bool
  | .localSend messageText _ _ => messageText == m.content && user.id == m.sender._id
  | _ => false

/-- The provisional messages inserted by the local sends among `events`. -/
def sendsOf (user : User) (events : List TimelineEvent) : List Message :=
  events.filterMap (fun e =>
    match e with
    | .localSend messageText idNow createdNow =>
      some (optimisticMessage user messageText idNow createdNow)
    | _ => none)

/-- The event is a local send or a `new_message` event whose message does not have the content
`messageText` together with the sender `user`: it confirms no send of `messageText`. -/
def TimelineEvent.isUnrelated (user : User) (messageText : String) : TimelineEvent → Bool
  | .localSend _ _ _ => true
  | .incoming data =>
    !(data.message.content == messageText && data.message.sender._id == user.id)
  | .watchdog _ => false

/-- The event neither inserts nor addresses an entry with the id `id`. -/
def TimelineEvent.avoidsId (id : String) : TimelineEvent → Bool
  | .localSend _ idNow _ => "temp_" ++ toString idNow != id
  | .incoming data => data.message._id != id
  | .watchdog optimistic => optimistic._id != id

/-- The timeline holds the provisional message `optimistic` and no entry the watchdog would take
for its confirmation. -/
def AwaitsConfirmation (optimistic : Message) (tl : List Message) : Prop :=
  optimistic ∈ tl ∧ hasRealMessage optimistic tl = false

/-- Every entry with the id of `optimistic` is `optimistic` itself. -/
def OnlyOwner (optimistic : Message) (tl : List Message) : Prop :=
  ∀ x ∈ tl, x._id = optimistic._id → x = optimistic

/-- No entry has the id `id`. -/
def IdAbsent (id : String) (tl : List Message) : Prop :=
  ∀ x ∈ tl, x._id ≠ id

/-! ## Sample data -/

/-- The local user of the examples. -/
def alice : User := { id := "A", firstName := "Ann", lastName := "Lee" }

/-- The local user as the sender of a message. -/
def aliceSender : Sender := { _id := "A", firstName := "Ann", lastName := "Lee" }

/-- The other participant of the examples. -/
def bobSender : Sender := { _id := "B", firstName := "Bob", lastName := "Ray" }

/-- The open conversation of the examples. -/
def c123 : Match := { _id := "C123" }

/-- The server's confirmation of "hello" sent by the local user. -/
def helloConfirmed : Message :=
  { _id := "m1", content := "hello", sender := aliceSender, createdAt := 2000, type := "text",
    isOptimistic := false, failed := false }

/-- A message of the other participant. -/
def replyConfirmed : Message :=
  { _id := "m2", content := "hi Ann", sender := bobSender, createdAt := 2500, type := "text",
    isOptimistic := false, failed := false }

/-- A later message of the other participant. -/
def laterConfirmed : Message :=
  { _id := "m3", content := "how are you?", sender := bobSender, createdAt := 4000,
    type := "text", isOptimistic := false, failed := false }

/-- A message of the other participant with the creation time of `helloConfirmed`. -/
def sameTimeConfirmed : Message :=
  { _id := "m4", content := "hi", sender := bobSender, createdAt := 2000, type := "text",
    isOptimistic := false, failed := false }

/-- A second entry that carries the id of `helloConfirmed`. -/
def helloDuplicate : Message :=
  { _id := "m1", content := "hello again", sender := aliceSender, createdAt := 2100,
    type := "text", isOptimistic := false, failed := false }

/-- A socket on which nothing was emitted yet. -/
def freshSocket : Socket := { emitted := [] }

/-- A page with `c123` open, a connected socket, an unsorted timeline and " hello " typed. -/
def connectedWorld : World :=
  { user := alice, selectedMatch := some c123, messages := [laterConfirmed, replyConfirmed],
    newMessage := " hello ",
    socketService := { socket := some freshSocket, isConnected := true },
    toasts := [], timers := [] }

/-- The same page while the socket service reports no connection. -/
def disconnectedWorld : World :=
  { connectedWorld with socketService := { socket := some freshSocket, isConnected := false } }

/-- The same page with only white space typed. -/
def blankWorld : World := { connectedWorld with newMessage := " \t\n" }

/-! ## `socketService.js`: room and typing emissions -/

/-- The method `joinMatch(matchId)`. -/
def SocketService.joinMatch (s : SocketService) (matchId : String) : SocketService :=
  (s.emitWhenReady (.join_match matchId)).getD s

/-- The method `leaveMatch(matchId)`. -/
def SocketService.leaveMatch (s : SocketService) (matchId : String) : SocketService :=
  (s.emitWhenReady (.leave_match matchId)).getD s

/-- The method `startTyping(matchId)`. -/
def SocketService.startTyping (s : SocketService) (matchId : String) : SocketService :=
  (s.emitWhenReady (.typing_start matchId)).getD s

/-! ## `MessagesPage.js`: conversations, typing and timers -/

/-- What a pending timer of `MessagesPage` runs when it fires: the expiry of the typing indicator
(`() => setTyping(null)`, line 106), the debounced stop of `handleTyping` (line 254), the callback
of the join poll (lines 58-63 and 319-324; `interval` is the id of the interval itself), and the
cut-off of the join poll (`() => clearInterval(interval)`, lines 66 and 327). -/
inductive Callback where
  | clearTyping
  | stopTyping (matchId : String)
  | pollJoin (matchId : String) (interval : Nat)
  | stopPolling (interval : Nat)
deriving DecidableEq, Repr

/-- A pending `setTimeout` (`period = none`) or `setInterval` (`period = some delay`): its id, the
time in milliseconds at which it fires next, and what it runs. -/
structure Timer where
  id : Nat
  due : Nat
  period : Option Nat
  callback : Callback
deriving DecidableEq, Repr

/-- Payload of a `user_typing` socket event. -/
structure UserTypingData where
  matchId : String
  userId : String
  userName : String
  isTyping : Bool
deriving DecidableEq, Repr

/-- A call `fetchMessages(matchId, shouldOverwrite)` whose request has not been answered yet. -/
structure FetchRequest where
  matchId : String
  shouldOverwrite : Bool
deriving DecidableEq, Repr

/-- The state of `MessagesPage` that selecting conversations, typing and timers read and write.
`acceptedMatches` is the state `matches`, `lastFetchedMatch` and `typingTimeoutRef` are the refs
of that name, `fetchLog` lists the
conversations of all `api.get` history requests issued so far, `inFlight` the requests that are
not answered yet, `now` is the time in milliseconds and `timers` the pending timers.  The order
in which two timers that are due in the same millisecond fire is not fixed by the platform for
timers of different delays; `reverseTies` selects it (creation order when `false`). -/
structure Session where
  user : User
  acceptedMatches : List Match
  selectedMatch : Option Match
  messages : List Message
  lastFetchedMatch : Option String
  fetchLog : List String
  inFlight : List FetchRequest
  socketService : SocketService
  toasts : List String
  typing : Option String
  typingTimeoutRef : Option Nat
  now : Nat
  nextTimerId : Nat
  timers : List Timer
  reverseTies : Bool
deriving DecidableEq, Repr

namespace Session

/-- The call `setTimeout(callback, delay)`; the id it returns is the old `nextTimerId`. -/
def setTimeout (callback : Callback) (delay : Nat) (s : Session) : Session :=
  { s with
    timers := s.timers ++
      [{ id := s.nextTimerId, due := s.now + delay, period := none, callback := callback }]
    nextTimerId := s.nextTimerId + 1 }

/-- The call `setInterval(callback, delay)`; the id it returns is the old `nextTimerId`. -/
def setInterval (callback : Callback) (delay : Nat) (s : Session) : Session :=
  { s with
    timers := s.timers ++
      [{ id := s.nextTimerId, due := s.now + delay, period := some delay, callback := callback }]
    nextTimerId := s.nextTimerId + 1 }

/-- The calls `clearTimeout(id)` and `clearInterval(id)`. -/
def clearTimer (id : Nat) (s : Session) : Session :=
  { s with timers := s.timers.filter (fun t => t.id != id) }

/-- The statement `if (typingTimeoutRef.current) clearTimeout(typingTimeoutRef.current)`; the ref
is falsy when it is `null` or holds `0`. -/
def clearTypingTimeout (s : Session) : Session :=
  match s.typingTimeoutRef with
  | some id => if id != 0 then s.clearTimer id else s
  | none => s

/-- The start of `fetchMessages(matchId, shouldOverwrite)`: the request is issued. -/
def fetchMessages (matchId : String) (shouldOverwrite : Bool) (s : Session) : Session :=
  { s with
    fetchLog := s.fetchLog ++ [matchId]
    inFlight := s.inFlight ++ [{ matchId := matchId, shouldOverwrite := shouldOverwrite }] }

/-- The rest of `fetchMessages` (lines 150-161) once the request `req` is answered with the
messages `fetched`. -/
def resolveFetch (req : FetchRequest) (fetched : List Message) (s : Session) : Session :=
  if req ∈ s.inFlight then
    if req.shouldOverwrite then
      { s with inFlight := s.inFlight.erase req, messages := fetched }
    else
      let newMessages := fetched.filter (fun msg => !s.messages.any (fun old => old._id == msg._id))
      { s with
        inFlight := s.inFlight.erase req
        messages := sortByCreatedAt (s.messages ++ newMessages) }
  else s

/-- The `catch` branch of `fetchMessages` (lines 162-165) when the request `req` fails. -/
def failFetch (req : FetchRequest) (s : Session) : Session :=
  if req ∈ s.inFlight then
    { s with inFlight := s.inFlight.erase req, toasts := s.toasts ++ ["Failed to load messages"] }
  else s

/-- The join of lines 53-67 and 315-328: emit `join_match` when the service reports a connection,
otherwise start the 100 ms poll and its 5000 ms cut-off. -/
def joinOrPoll (matchId : String) (s : Session) : Session :=
  if s.socketService.getConnectionStatus then
    { s with socketService := s.socketService.joinMatch matchId }
  else
    (s.setInterval (.pollJoin matchId s.nextTimerId) 100).setTimeout
      (.stopPolling s.nextTimerId) 5000

/-- The part shared by the two ways of opening a conversation (lines 45-67 and 306-328): select
it, fetch its history unless it is the conversation fetched last, and join its room. -/
def openConversation (selected : Match) (s : Session) : Session :=
  let s1 := { s with selectedMatch := some selected }
  let s2 :=
    if s1.lastFetchedMatch ≠ some selected._id then
      { s1.fetchMessages selected._id true with lastFetchedMatch := some selected._id }
    else s1
  s2.joinOrPoll selected._id

/-- The `onClick` handler of an entry of the conversation list (lines 302-329). -/
def selectConversation (clicked : Match) (s : Session) : Session :=
  let s1 :=
    match s.selectedMatch with
    | some selected =>
      if selected._id ≠ clicked._id then
        { s with socketService := s.socketService.leaveMatch selected._id }
      else s
    | none => s
  s1.openConversation clicked

/-- The effect of lines 41-70 for the route parameter `matchId` (`none` on `/messages`). -/
def routeEffect (matchId : Option String) (s : Session) : Session :=
  match matchId with
  | none => s
  | some id =>
    if id ≠ "" ∧ s.acceptedMatches.length > 0 then
      match s.acceptedMatches.find? (fun m => m._id == id) with
      | none => s
      | some found =>
        match s.selectedMatch with
        | none => s.openConversation found
        | some selected => if selected._id ≠ id then s.openConversation found else s
    else s

/-- The listener `handleUserTyping(data)` (lines 96-110). -/
def handleUserTyping (data : UserTypingData) (s : Session) : Session :=
  if data.userId ≠ s.user.id ∧ some data.matchId = s.selectedMatch.map (fun m => m._id) then
    let s1 := { s with typing := if data.isTyping then some data.userName else none }
    if data.isTyping then
      let s2 := s1.clearTypingTimeout
      { s2.setTimeout .clearTyping 3000 with typingTimeoutRef := some s2.nextTimerId }
    else s1
  else s

/-- The handler `handleTyping()` of a local keystroke (lines 245-257). -/
def handleTyping (s : Session) : Session :=
  match s.selectedMatch with
  | none => s
  | some selected =>
    let s1 := { s with socketService := s.socketService.startTyping selected._id }
    let s2 := s1.clearTypingTimeout
    { s2.setTimeout (.stopTyping selected._id) 1000 with typingTimeoutRef := some s2.nextTimerId }

/-- The `connect` listener of the socket runs (`this.isConnected = true`). -/
def socketConnected (s : Session) : Session :=
  { s with socketService := { s.socketService with isConnected := true } }

/-- The `disconnect` or the `connect_error` listener of the socket runs
(`this.isConnected = false`). -/
def socketDisconnected (s : Session) : Session :=
  { s with socketService := { s.socketService with isConnected := false } }

/-- What a timer runs. -/
def runCallback (callback : Callback) (s : Session) : Session :=
  match callback with
  | .clearTyping => { s with typing := none }
  | .stopTyping matchId => { s with socketService := s.socketService.stopTyping matchId }
  | .pollJoin matchId interval =>
    if s.socketService.getConnectionStatus then
      { s with socketService := s.socketService.joinMatch matchId }.clearTimer interval
    else s
  | .stopPolling interval => s.clearTimer interval

/-- The timer `t` fires: a timeout leaves the pending timers, an interval is scheduled again one
period later, and the callback runs. -/
def fire (t : Timer) (s : Session) : Session :=
  match t.period with
  | none => runCallback t.callback (s.clearTimer t.id)
  | some delay =>
    runCallback t.callback
      { s with
        timers := s.timers.map (fun u => if u.id == t.id then { u with due := s.now + delay }
          else u) }

/-- The timers that are due fire one after the other; a timer that an earlier callback of the
same millisecond cleared does not fire. -/
def fireDue (s : Session) : Session :=
  let dueNow := s.timers.filter (fun t => t.due ≤ s.now)
  (if s.reverseTies then dueNow.reverse else dueNow).foldl
    (fun acc t => if acc.timers.any (fun u => u.id == t.id) then fire t acc else acc) s

/-- One millisecond passes. -/
def tick (s : Session) : Session :=
  fireDue { s with now := s.now + 1 }

/-- The session after `d` milliseconds in which nothing but timers happens. -/
def elapse : Nat → Session → Session
  | 0, s => s
  | d + 1, s => elapse d (tick s)

end Session

/-! ## `socketService.js`: sessions and listeners

The class `SocketService` together with the socket.io sockets it created.  Of socket.io the
model keeps what the service relies on: `io(url, options)` returns a new socket that is not yet
connected; `socket.on(event, listener)` appends the listener to the listeners of the event;
`socket.off(event)` removes all listeners of the event and `socket.removeAllListeners()` all
listeners; an event runs the listeners registered for it in the order of registration;
`socket.disconnect()` closes the socket for good and, if it was connected, first runs its
`disconnect` listeners. -/

/-- What a listener does when its event is dispatched: one of the three listeners registered by
`connect` (lines 23-36), or a callback passed by a caller, identified by a name. -/
inductive Listener where
  | markConnected
  | markDisconnected
  | markConnectError
  | callback (name : String)
deriving DecidableEq, Repr

/-- A socket created by `io(SOCKET_URL, { auth: { token }, ... })`: its token, whether it is
connected, whether `disconnect()` was called on it, its listeners by event name, and what was
emitted on it. -/
structure ClientSocket where
  token : String
  connected : Bool
  destroyed : Bool
  listeners : List (String × Listener)
  emitted : List Emission
deriving DecidableEq, Repr

/-- A call of the service into socket.io that opens or closes a session. -/
inductive LibraryCall where
  | createSocket (token : String)
  | closeSocket (token : String)
deriving DecidableEq, Repr

/-- The `SocketService` instance (`socket`, `isConnected`), the sockets it created earlier and no
longer refers to, the caller callbacks invoked so far as pairs of event and callback name, and
the session calls made so far. -/
structure ConnectionManager where
  socket : Option ClientSocket
  isConnected : Bool
  released : List ClientSocket
  invoked : List (String × String)
  calls : List LibraryCall
deriving DecidableEq, Repr

namespace ConnectionManager

/-- The service as constructed (lines 4-7). -/
def initial : ConnectionManager :=
  { socket := none, isConnected := false, released := [], invoked := [], calls := [] }

/-- One listener runs for the event `event`. -/
def runListener (event : String) (l : Listener) (m : ConnectionManager) : ConnectionManager :=
  match l with
  | .markConnected => { m with isConnected := true }
  | .markDisconnected => { m with isConnected := false }
  | .markConnectError => { m with isConnected := false }
  | .callback name => { m with invoked := m.invoked ++ [(event, name)] }

/-- The listeners registered for `event` among `listeners` run in the order of registration. -/
def dispatch (event : String) (listeners : List (String × Listener)) (m : ConnectionManager) :
    ConnectionManager :=
  (listeners.filter (fun l => l.1 == event)).foldl (fun acc l => runListener event l.2 acc) m

/-- The library call `sock.disconnect()`: the closed socket and the service after the
`disconnect` listeners ran, which they do only if the socket was connected. -/
def closeSocket (sock : ClientSocket) (m : ConnectionManager) :
    ClientSocket × ConnectionManager :=
  let m1 := { m with calls := m.calls ++ [.closeSocket sock.token] }
  ({ sock with connected := false, destroyed := true },
    if sock.connected then dispatch "disconnect" sock.listeners m1 else m1)

/-- The socket `connect` creates, with its three listeners. -/
def newSocket (token : String) : ClientSocket :=
  { token := token, connected := false, destroyed := false,
    listeners := [("connect", .markConnected), ("disconnect", .markDisconnected),
      ("connect_error", .markConnectError)],
    emitted := [] }

/-- The method `connect(token)` (lines 9-39). -/
def connect (token : String) (m : ConnectionManager) : ConnectionManager :=
  let m1 :=
    match m.socket with
    | some old =>
      let closed := closeSocket old m
      { closed.2 with released := closed.2.released ++ [closed.1] }
    | none => m
  { m1 with socket := some (newSocket token), calls := m1.calls ++ [.createSocket token] }

/-- The method `disconnect()` (lines 41-47). -/
def disconnect (m : ConnectionManager) : ConnectionManager :=
  match m.socket with
  | some old =>
    let closed := closeSocket old m
    { closed.2 with
      released := closed.2.released ++ [closed.1], socket := none, isConnected := false }
  | none => m

/-- The statement `if (this.socket) { this.socket.on(event, callback) }` shared by the `on...`
methods. -/
def register (event name : String) (m : ConnectionManager) : ConnectionManager :=
  match m.socket with
  | some sock =>
    { m with socket := some { sock with listeners := sock.listeners ++ [(event, .callback name)] } }
  | none => m

/-- The method `onNewMessage(callback)`. -/
def onNewMessage (name : String) (m : ConnectionManager) : ConnectionManager :=
  m.register "new_message" name

/-- The method `onUserTyping(callback)`. -/
def onUserTyping (name : String) (m : ConnectionManager) : ConnectionManager :=
  m.register "user_typing" name

/-- The method `onNewNotification(callback)`. -/
def onNewNotification (name : String) (m : ConnectionManager) : ConnectionManager :=
  m.register "new_notification" name

/-- The method `onMatchStatusChange(callback)`. -/
def onMatchStatusChange (name : String) (m : ConnectionManager) : ConnectionManager :=
  m.register "match_status_changed" name

/-- The method `onMessageNotification(callback)`. -/
def onMessageNotification (name : String) (m : ConnectionManager) : ConnectionManager :=
  m.register "message_notification" name

/-- The method `removeListener(event)`. -/
def removeListener (event : String) (m : ConnectionManager) : ConnectionManager :=
  match m.socket with
  | some sock =>
    { m with socket := some { sock with listeners := sock.listeners.filter (fun l => l.1 != event) } }
  | none => m

/-- The method `removeAllListeners()`. -/
def removeAllListeners (m : ConnectionManager) : ConnectionManager :=
  match m.socket with
  | some sock => { m with socket := some { sock with listeners := [] } }
  | none => m

/-- The guarded emission shared by `joinMatch`, `leaveMatch`, `sendMessage`, `startTyping`,
`stopTyping` and `userActive`: `if (this.socket && this.isConnected) this.socket.emit(...)`. -/
def emit (e : Emission) (m : ConnectionManager) : ConnectionManager :=
  match m.socket with
  | some sock =>
    if m.isConnected then { m with socket := some { sock with emitted := sock.emitted ++ [e] } }
    else m
  | none => m

/-- The method `getConnectionStatus()`. -/
def getConnectionStatus (m : ConnectionManager) : Bool := m.isConnected

/-- The session of the current socket is established: its `connect` event fires. -/
def socketConnects (m : ConnectionManager) : ConnectionManager :=
  match m.socket with
  | some sock =>
    dispatch "connect" sock.listeners { m with socket := some { sock with connected := true } }
  | none => m

/-- An attempt to establish the session of the current socket fails: its `connect_error` event
fires. -/
def socketConnectError (m : ConnectionManager) : ConnectionManager :=
  match m.socket with
  | some sock => dispatch "connect_error" sock.listeners m
  | none => m

/-- The session of the current socket is lost: its `disconnect` event fires. -/
def socketDrops (m : ConnectionManager) : ConnectionManager :=
  match m.socket with
  | some sock =>
    dispatch "disconnect" sock.listeners { m with socket := some { sock with connected := false } }
  | none => m

/-- The server sends the event `event` to the current socket. -/
def receive (event : String) (m : ConnectionManager) : ConnectionManager :=
  match m.socket with
  | some sock => dispatch event sock.listeners m
  | none => m

/-- The sockets created so far on which `disconnect()` was not called. -/
def liveSessions (m : ConnectionManager) : List ClientSocket :=
  (m.released ++ m.socket.toList).filter (fun sock => !sock.destroyed)

end ConnectionManager

/-- A method call on the service, or an event of its current socket. -/
inductive ManagerEvent where
  | connect (token : String)
  | disconnect
  | register (event name : String)
  | removeListener (event : String)
  | removeAllListeners
  | emit (e : Emission)
  | socketConnects
  | socketConnectError
  | socketDrops
  | receive (event : String)
deriving DecidableEq, Repr

namespace ConnectionManager

/-- The service after one call or event. -/
def step (m : ConnectionManager) (e : ManagerEvent) : ConnectionManager :=
  match e with
  | .connect token => m.connect token
  | .disconnect => m.disconnect
  | .register event name => m.register event name
  | .removeListener event => m.removeListener event
  | .removeAllListeners => m.removeAllListeners
  | .emit e => m.emit e
  | .socketConnects => m.socketConnects
  | .socketConnectError => m.socketConnectError
  | .socketDrops => m.socketDrops
  | .receive event => m.receive event

/-- The service after a sequence of calls and events, oldest first. -/
def run (m : ConnectionManager) (events : List ManagerEvent) : ConnectionManager :=
  events.foldl step m

/-- The states the service can be in: those reached from the constructed service. -/
def Reachable (m : ConnectionManager) : Prop :=
  ∃ events, m = initial.run events

end ConnectionManager

namespace ConnectionManager

/-- What holds in every reachable state: the sockets the service let go of are closed, the
socket it refers to is not, and `isConnected` is set only while it refers to a socket. -/
def Consistent (m : ConnectionManager) : Prop :=
  (∀ r ∈ m.released, r.destroyed = true) ∧
    (∀ sock, m.socket = some sock → sock.destroyed = false) ∧
    (m.isConnected = true → m.socket.isSome = true)

/-- The listeners of the socket are the three listeners of `connect` followed by caller
callbacks only. -/
def Wired (m : ConnectionManager) : Prop :=
  ∃ sock extra, m.socket = some sock ∧
    sock.listeners = (newSocket sock.token).listeners ++ extra ∧
    ∀ l ∈ extra, ∃ name, l.2 = Listener.callback name

end ConnectionManager

/-- The service as `MessagesPage` reads it: the fields `socket` and `isConnected`, and of the
socket what was emitted on it. -/
def ConnectionManager.service (m : ConnectionManager) : SocketService :=
  { socket := m.socket.map (fun sock => { emitted := sock.emitted }),
    isConnected := m.isConnected }

/-- The event neither removes listeners nor replaces or closes the socket. -/
def ManagerEvent.keepsListeners : ManagerEvent → Bool
  | .connect _ => false
  | .disconnect => false
  | .removeListener _ => false
  | .removeAllListeners => false
  | _ => true

/-- The event is one of the three session events of the socket. -/
def ManagerEvent.isStatusEvent : ManagerEvent → Bool
  | .socketConnects => true
  | .socketConnectError => true
  | .socketDrops => true
  | _ => false

/-! ## Sample data for the socket service -/

/-- The service after `connect("token-1")`, two registrations and the `connect` event. -/
def connectedManager : ConnectionManager :=
  ConnectionManager.initial.run
    [.connect "token-1", .register "new_notification" "logNotification",
      .register "new_message" "handleNewMessage", .socketConnects]

/-! ## Vocabulary of the claims on conversations, typing and timers -/

/-- The service holds a socket and counts as connected, so that a guarded emission is made. -/
def SocketService.Ready (s : SocketService) : Prop :=
  s.isConnected = true ∧ s.socket.isSome = true

/-- A burst of local keystrokes: a keystroke, then for each gap of the list that many
milliseconds of silence followed by another keystroke. -/
def Session.typeBurst : List Nat → Session → Session
  | [], s => s.handleTyping
  | gap :: gaps, s => Session.typeBurst gaps (s.handleTyping.elapse gap)

/-- The user composes in the conversation `selected` on a ready service, and the only timer that
may be pending is the stop timer of the last keystroke, held by `typingTimeoutRef`. -/
def Session.Composing (selected : Match) (s : Session) : Prop :=
  s.selectedMatch = some selected ∧ s.socketService.Ready ∧ 0 < s.nextTimerId ∧
    (s.timers = [] ∨
      ∃ t, s.timers = [t] ∧ s.typingTimeoutRef = some t.id ∧ t.id ≠ 0 ∧ t.period = none ∧
        t.callback = Callback.stopTyping selected._id ∧ s.now < t.due)

/-! ## Sample data for conversations and typing -/

/-- A second conversation. -/
def c456 : Match := { _id := "C456" }

/-- The page right after it was loaded: no conversation selected, no timer pending, the socket
still connecting. -/
def freshSession : Session :=
  { user := alice, acceptedMatches := [c123, c456], selectedMatch := none, messages := [],
    lastFetchedMatch := none, fetchLog := [], inFlight := [],
    socketService := { socket := some freshSocket, isConnected := false },
    toasts := [], typing := none, typingTimeoutRef := none, now := 0, nextTimerId := 1,
    timers := [], reverseTies := false }

/-- The same page once the socket is connected. -/
def onlineSession : Session :=
  { freshSession with socketService := { socket := some freshSocket, isConnected := true } }

/-- The connected page with the conversation `c123` open. -/
def chatSession : Session :=
  { onlineSession with selectedMatch := some c123, lastFetchedMatch := some "C123" }

/-- The other participant of `c123` starts typing. -/
def bobTyping : UserTypingData :=
  { matchId := "C123", userId := "B", userName := "Bob", isTyping := true }

/-- The echo of the local user's own typing. -/
def ownTyping : UserTypingData :=
  { matchId := "C123", userId := "A", userName := "Ann", isTyping := true }

/-- The page `chatSession` showing that Bob is typing, as `handleUserTyping` leaves it. -/
def typingShown : Session :=
  { chatSession with
    typing := some "Bob", typingTimeoutRef := some 1, nextTimerId := 2,
    timers := [{ id := 1, due := 3000, period := none, callback := .clearTyping }] }

/-- The page `typingShown` one second later, after a local keystroke. -/
def typingStuck : Session :=
  { typingShown with
    now := 1000, typingTimeoutRef := some 2, nextTimerId := 3,
    socketService :=
      { socket := some { emitted := [.typing_start "C123"] }, isConnected := true },
    timers := [{ id := 2, due := 2000, period := none, callback := .stopTyping "C123" }] }

/-- The session `o`, in which a join poll with the interval id `interval` was started at the time
`start`, after `d` further milliseconds without a connection and before the cut-off: the poll
is scheduled for the next multiple of 100 ms and the cut-off is pending. -/
def Session.polling (o : Session) (matchId : String) (interval start d : Nat) : Session :=
  { o with
    now := start + d
    timers :=
      [{ id := interval, due := start + 100 * (d / 100 + 1), period := some 100,
         callback := Callback.pollJoin matchId interval },
       { id := interval + 1, due := start + 5000, period := none,
         callback := Callback.stopPolling interval }] }

/-! ## `MessagesPage.js`: the effects around a selection -/

/-- The page around a `Session`: the route parameter `matchId` of `useParams()` (`none` on the
route `/messages`) and the ref `currentSocketMatch`. -/
structure Page where
  session : Session
  matchId : Option String
  currentSocketMatch : Option String
deriving DecidableEq, Repr

namespace Page

/-- The cleanup of the listener effect (lines 121-128): the room held by `currentSocketMatch` is
left and the ref is reset; the ref is falsy when it is `null` or holds the empty string.  The two
`removeListener` calls emit nothing. -/
def listenerCleanup (p : Page) : Page :=
  match p.currentSocketMatch with
  | some id =>
    if id ≠ "" then
      { p with
        session := { p.session with socketService := p.session.socketService.leaveMatch id }
        currentSocketMatch := none }
    else p
  | none => p

/-- The body of the listener effect (lines 113-119) of a render that shows `rendered` as
`selectedMatch`: the two registrations emit nothing, and the ref takes the id of the selected
conversation. -/
def listenerEffect (rendered : Option Match) (p : Page) : Page :=
  match rendered with
  | some selected => { p with currentSocketMatch := some selected._id }
  | none => p

/-- The effects of one commit after a render in which `selectedMatch` has changed: the cleanup of
the listener effect first, then the effect bodies in the order of declaration, the route effect
(lines 41-70) and the listener effect. -/
def commit (p : Page) : Page :=
  let rendered := p.session.selectedMatch
  let p1 := p.listenerCleanup
  let p2 := { p1 with session := p1.session.routeEffect p1.matchId }
  p2.listenerEffect rendered

/-- The renders that follow a change of `selectedMatch`: the effects run, and they run once more
if the route effect selected the conversation of the route; after that the route effect finds
its conversation selected. -/
def rerender (p : Page) : Page :=
  let p1 := p.commit
  if p1.session.selectedMatch = p.session.selectedMatch then p1 else p1.commit

/-- A click on an entry of the conversation list (lines 302-329) and the renders it causes; a
click that leaves `selectedMatch` as it is causes none. -/
def selectConversation (clicked : Match) (p : Page) : Page :=
  let p1 := { p with session := p.session.selectConversation clicked }
  if p1.session.selectedMatch = p.session.selectedMatch then p1 else p1.rerender

/-- The `connect` listener of the socket runs. -/
def socketConnected (p : Page) : Page :=
  { p with session := p.session.socketConnected }

/-- The page after `d` milliseconds in which nothing but timers happens. -/
def elapse (d : Nat) (p : Page) : Page :=
  { p with session := p.session.elapse d }

/-- Everything emitted on the socket so far. -/
def emissions (p : Page) : List Emission :=
  p.session.socketService.emissions

end Page

/-- The call `sendMessage(matchId, content, type)` of the service where `type` may be omitted
(`none`): the parameter then takes its default `'text'` (line 64). -/
def SocketService.sendMessageCall (s : SocketService) (matchId content : String)
    (type : Option String) : SocketService × Bool :=
  s.sendMessage matchId content (type.getD "text")

/-! ## `messageSlice.js` -/

/-- The method `Array.prototype.findIndex`: the index of the first element that satisfies `p`;
`none` stands for `-1`. -/
def findIndex {α : Type} (p : α → Bool) : List α → Option Nat
  | [] => none
  | x :: xs => if p x then some 0 else (findIndex p xs).map (fun i => i + 1)

/-- A message as dispatched to the `messages` slice; `match_` is its field `match`, the id of
the conversation, and `createdAt` the time stamp as received (it is only copied). -/
structure ChatMessage where
  _id : String
  match_ : String
  content : String
  createdAt : String
  sender : Sender
  type : String
deriving DecidableEq, Repr

/-- The `lastMessage` summary of a conversation. -/
structure LastMessage where
  content : String
  createdAt : String
  sender : Sender
  type : String
deriving DecidableEq, Repr

/-- An entry of `state.conversations`; `match_` is its field `match`. -/
structure Conversation where
  match_ : Match
  lastMessage : Option LastMessage
  unreadCount : Nat
deriving DecidableEq, Repr

/-- An entry of `state.typingUsers`. -/
structure TypingUser where
  userId : String
  userName : String
deriving DecidableEq, Repr

/-- Payload of the action `addTypingUser`. -/
structure TypingPayload where
  userId : String
  userName : String
  isTyping : Bool
deriving DecidableEq, Repr

/-- The `pagination` record of a slice. -/
structure Pagination where
  page : Nat
  pages : Nat
  total : Nat
  limit : Nat
deriving DecidableEq, Repr

/-- The state of the `messages` slice (lines 55-68). -/
structure MessagesState where
  conversations : List Conversation
  currentMessages : List ChatMessage
  currentMatchId : Option String
  isLoading : Bool
  error : Option String
  pagination : Pagination
  typingUsers : List TypingUser
deriving DecidableEq, Repr

namespace MessagesState

/-- The reducer `addMessage` (lines 77-99). -/
def addMessage (state : MessagesState) (message : ChatMessage) : MessagesState :=
  let state1 :=
    if state.currentMatchId = some message.match_ then
      { state with currentMessages := state.currentMessages ++ [message] }
    else state
  match findIndex (fun conv => conv.match_._id == message.match_) state1.conversations with
  | some conversationIndex =>
    match state1.conversations[conversationIndex]? with
    | some found =>
      let conversation :=
        { found with
          lastMessage := some
            { content := message.content, createdAt := message.createdAt,
              sender := message.sender, type := message.type } }
      { state1 with
        conversations := conversation :: state1.conversations.eraseIdx conversationIndex }
    | none => state1
  | none => state1

/-- The reducer `addTypingUser` (lines 103-112). -/
def addTypingUser (state : MessagesState) (payload : TypingPayload) : MessagesState :=
  if payload.isTyping then
    if (state.typingUsers.find? (fun user => user.userId == payload.userId)).isNone then
      { state with
        typingUsers := state.typingUsers ++
          [{ userId := payload.userId, userName := payload.userName }] }
    else state
  else
    { state with
      typingUsers := state.typingUsers.filter (fun user => user.userId != payload.userId) }

end MessagesState

/-! ## `notificationSlice.js` -/

/-- A notification; `readAt` is absent until it is read. -/
structure Notification where
  _id : String
  message : String
  isRead : Bool
  readAt : Option String
deriving DecidableEq, Repr

/-- The state of the `notifications` slice (lines 58-69); `unreadCount` is a JavaScript number,
here an integer. -/
structure NotificationsState where
  notifications : List Notification
  unreadCount : Int
  isLoading : Bool
  error : Option String
  pagination : Pagination
deriving DecidableEq, Repr

/-- The first element that satisfies `p`, as `Array.prototype.find` returns it, is replaced by
its image under `f`: an assignment to the fields of the found element. -/
def updateFound {α : Type} (p : α → Bool) (f : α → α) : List α → List α
  | [] => []
  | x :: xs => if p x then f x :: xs else x :: updateFound p f xs

/-- The assignments `notification.isRead = true; notification.readAt = new Date().toISOString()`;
`now` is the time stamp. -/
def Notification.markRead (now : String) (notification : Notification) : Notification :=
  { notification with isRead := true, readAt := some now }

namespace NotificationsState

/-- The reducer `addNotification` (lines 74-80). -/
def addNotification (state : NotificationsState) (notification : Notification) :
    NotificationsState :=
  let state1 := { state with notifications := notification :: state.notifications }
  if !notification.isRead then { state1 with unreadCount := state1.unreadCount + 1 } else state1

/-- The reducer `updateUnreadCount` (lines 81-83). -/
def updateUnreadCount (state : NotificationsState) (payload : Int) : NotificationsState :=
  { state with unreadCount := payload }

/-- The reducer `clearNotifications` (lines 84-87). -/
def clearNotifications (state : NotificationsState) : NotificationsState :=
  { state with notifications := [], unreadCount := 0 }

/-- The case `markNotificationAsRead.fulfilled` (lines 111-120); `now` is
`new Date().toISOString()`. -/
def markNotificationAsRead_fulfilled (state : NotificationsState) (notificationId now : String) :
    NotificationsState :=
  let state1 :=
    match state.notifications.find? (fun n => n._id == notificationId) with
    | some notification =>
      if !notification.isRead then
        { state with
          notifications :=
            updateFound (fun n => n._id == notificationId) (Notification.markRead now)
              state.notifications
          unreadCount := max 0 (state.unreadCount - 1) }
      else state
    | none => state
  { state1 with error := none }

/-- The case `markAllNotificationsAsRead.fulfilled` (lines 128-137). -/
def markAllNotificationsAsRead_fulfilled (state : NotificationsState) (now : String) :
    NotificationsState :=
  { state with
    notifications :=
      state.notifications.map (fun notification =>
        if !notification.isRead then notification.markRead now else notification)
    unreadCount := 0
    error := none }

/-- The case `deleteNotification.fulfilled` (lines 142-152). -/
def deleteNotification_fulfilled (state : NotificationsState) (notificationId : String) :
    NotificationsState :=
  match findIndex (fun n => n._id == notificationId) state.notifications with
  | some index =>
    match state.notifications[index]? with
    | some notification =>
      let state1 :=
        if !notification.isRead then { state with unreadCount := max 0 (state.unreadCount - 1) }
        else state
      { state1 with notifications := state1.notifications.eraseIdx index }
    | none => state
  | none => state

end NotificationsState

/-! ## Vocabulary of the claims on rooms, slices and notifications -/

/-- Room membership as read off the emissions: the conversation ids for which `join_match` was
emitted without a later `leave_match`, in the order of joining. -/
def roomMembership (emitted : List Emission) : List String :=
  emitted.foldl
    (fun rooms e =>
      match e with
      | .join_match matchId => if matchId ∈ rooms then rooms else rooms ++ [matchId]
      | .leave_match matchId => rooms.filter (fun room => room != matchId)
      | _ => rooms)
    []

/-- The conversation ids of a list of conversations. -/
def conversationIds (conversations : List Conversation) : List String :=
  conversations.map (fun conv => conv.match_._id)

/-- The user ids of a list of typing users. -/
def typingUserIds (users : List TypingUser) : List String :=
  users.map (fun user => user.userId)

/-- The ids of a timeline, in timeline order. -/
def messageIds (tl : List Message) : List String :=
  tl.map (fun msg => msg._id)

/-! ## Sample data for rooms, slices and notifications -/

/-- The page on the route `/messages` right after it was loaded, the socket still connecting. -/
def freshPage : Page :=
  { session := freshSession, matchId := none, currentSocketMatch := none }

/-- The same page once the socket is connected. -/
def onlinePage : Page :=
  { session := onlineSession, matchId := none, currentSocketMatch := none }

/-- The page `freshPage` after the conversations `c123` and `c456` were clicked one after the
other while the socket was still connecting: two join polls and their cut-offs are pending. -/
def twoPollsPage : Page :=
  { session :=
      { freshSession with
        selectedMatch := some c456, lastFetchedMatch := some "C456",
        fetchLog := ["C123", "C456"],
        inFlight := [{ matchId := "C123", shouldOverwrite := true },
          { matchId := "C456", shouldOverwrite := true }],
        nextTimerId := 5,
        timers :=
          [{ id := 1, due := 100, period := some 100, callback := .pollJoin "C123" 1 },
           { id := 2, due := 5000, period := none, callback := .stopPolling 1 },
           { id := 3, due := 100, period := some 100, callback := .pollJoin "C456" 3 },
           { id := 4, due := 5000, period := none, callback := .stopPolling 3 }] },
    matchId := none, currentSocketMatch := some "C456" }

/-- The page `twoPollsPage` 100 ms after the connection was established: both polls have emitted
their `join_match` and only the two cut-offs are pending. -/
def bothJoinedSession : Session :=
  { twoPollsPage.session with
    now := 100
    socketService :=
      { socket := some { emitted := [.join_match "C123", .join_match "C456"] },
        isConnected := true }
    timers :=
      [{ id := 2, due := 5000, period := none, callback := .stopPolling 1 },
       { id := 4, due := 5000, period := none, callback := .stopPolling 3 }] }

/-- A third conversation. -/
def c789 : Match := { _id := "C789" }

/-- The message "hello" of the conversation `c123` as the `messages` slice receives it. -/
def helloStored : ChatMessage :=
  { _id := "m1", match_ := "C123", content := "hello", createdAt := "2024-01-01T00:00:02.000Z",
    sender := aliceSender, type := "text" }

/-- A `messages` slice with three conversations, `c123` in the middle and open, while Bob is
typing. -/
def chatSlice : MessagesState :=
  { conversations :=
      [{ match_ := c456, lastMessage := none, unreadCount := 2 },
       { match_ := c123, lastMessage := none, unreadCount := 0 },
       { match_ := c789, lastMessage := none, unreadCount := 0 }],
    currentMessages := [], currentMatchId := some "C123", isLoading := false, error := none,
    pagination := { page := 1, pages := 1, total := 0, limit := 50 },
    typingUsers := [{ userId := "B", userName := "Bob" }] }

/-- An unread notification. -/
def matchNotice : Notification :=
  { _id := "n1", message := "New match request", isRead := false, readAt := none }

/-- A notification that was read. -/
def readNotice : Notification :=
  { _id := "n2", message := "Session confirmed", isRead := true,
    readAt := some "2024-01-01T00:00:00.000Z" }

/-- A `notifications` slice that holds one unread and one read notification. -/
def noticeSlice : NotificationsState :=
  { notifications := [matchNotice, readNotice], unreadCount := 1, isLoading := false,
    error := none, pagination := { page := 1, pages := 1, total := 2, limit := 20 } }

/-- The page is on the route `/messages` with a ready service, the ref `currentSocketMatch`
holds the open conversation, and the rooms joined and not left are the room of the open
conversation, or none when no conversation is open. -/
def Page.SingleRoom (p : Page) : Prop :=
  p.matchId = none ∧ p.session.socketService.Ready ∧
    p.currentSocketMatch = p.session.selectedMatch.map (fun m => m._id) ∧
    roomMembership p.emissions = (p.session.selectedMatch.map (fun m => m._id)).toList

/-- The page after the conversations `clicks` were clicked one after the other. -/
def Page.selectAll (clicks : List Match) (p : Page) : Page :=
  clicks.foldl (fun q clicked => q.selectConversation clicked) p

/-! ## Lemmas on sorting -/

theorem sorted_sortByCreatedAt (xs : List Message) : (sortByCreatedAt xs).Sorted createdAtLE :=
  List.sorted_insertionSort createdAtLE xs

theorem perm_sortByCreatedAt (xs : List Message) : (sortByCreatedAt xs).Perm xs :=
  List.perm_insertionSort createdAtLE xs

theorem mem_sortByCreatedAt {xs : List Message} {x : Message} :
    x ∈ sortByCreatedAt xs ↔ x ∈ xs :=
  (perm_sortByCreatedAt xs).mem_iff

theorem sortByCreatedAt_of_sorted {xs : List Message} (h : xs.Sorted createdAtLE) :
    sortByCreatedAt xs = xs :=
  List.Sorted.insertionSort_eq h

/-! ## Lemmas on trimming -/

theorem jsTrim_eq_empty_iff (s : String) :
    jsTrim s = "" ↔ ∀ c ∈ s.data, isWhiteSpace c = true := by
  unfold jsTrim
  constructor
  · intro h
    have h1 : ((s.data.dropWhile isWhiteSpace).reverse.dropWhile isWhiteSpace).reverse = [] := by
      have := congrArg String.data h
      simpa using this
    have h2 : (s.data.dropWhile isWhiteSpace).reverse.dropWhile isWhiteSpace = [] := by
      simpa using h1
    rw [List.dropWhile_eq_nil_iff] at h2
    by_contra hne
    push_neg at hne
    obtain ⟨c, hc, hw⟩ := hne
    have hne2 : s.data.dropWhile isWhiteSpace ≠ [] := by
      intro h3
      rw [List.dropWhile_eq_nil_iff] at h3
      exact hw (h3 c hc)
    have hhead := List.head_dropWhile_not isWhiteSpace s.data hne2
    have hmem : (s.data.dropWhile isWhiteSpace).head hne2 ∈ (s.data.dropWhile isWhiteSpace).reverse :=
      List.mem_reverse.mpr (List.head_mem hne2)
    have := h2 _ hmem
    simp [this] at hhead
  · intro h
    have h1 : s.data.dropWhile isWhiteSpace = [] := List.dropWhile_eq_nil_iff.mpr h
    simp [h1]

theorem jsTrim_ne_empty_iff (s : String) :
    jsTrim s ≠ "" ↔ ∃ c ∈ s.data, isWhiteSpace c = false := by
  rw [Ne, jsTrim_eq_empty_iff]
  push_neg
  simp

/-! ## Lemmas on the updaters -/

theorem sorted_insertOptimistic (optimistic : Message) (prev : List Message) :
    (insertOptimistic optimistic prev).Sorted createdAtLE :=
  sorted_sortByCreatedAt _

theorem receiveMessage_of_fresh (m : Message) (prev : List Message)
    (hfresh : ∀ x ∈ prev, x._id ≠ m._id) :
    receiveMessage m prev =
      sortByCreatedAt (prev.filter (fun msg => !isOptimisticTwin m msg) ++ [m]) := by
  unfold receiveMessage
  have hex : (prev.filter (fun msg => !isOptimisticTwin m msg)).any (fun msg => msg._id == m._id)
      = false := by
    rw [List.any_eq_false]
    intro x hx
    have hx' : x ∈ prev := (List.mem_filter.mp hx).1
    simpa using hfresh x hx'
  simp [hex]

theorem sendMessage_of_canSend (idNow createdNow : Int) (w : World) (selected : Match)
    (sock : Socket) (h : CanSend w selected sock) :
    (sendMessage idNow createdNow w).messages =
      insertOptimistic (optimisticMessage w.user (jsTrim w.newMessage) idNow createdNow)
        w.messages := by
  obtain ⟨hsel, htext, hsock, hconn⟩ := h
  have hne : jsTrim w.newMessage ≠ "" := (jsTrim_ne_empty_iff _).mpr htext
  simp [sendMessage, hsel, hne, SocketService.getConnectionStatus, hconn,
    SocketService.sendMessage, SocketService.emitWhenReady, hsock]

/-! ## The stable sort is determined by the entries of each creation time -/

theorem createdAtSlice_orderedInsert (k : Int) (x : Message) (xs : List Message) :
    createdAtSlice k (xs.orderedInsert createdAtLE x) = createdAtSlice k (x :: xs) := by
  induction xs with
  | nil => rfl
  | cons b t ih =>
    by_cases h : createdAtLE x b
    · simp [List.orderedInsert, h]
    · have hlt : b.createdAt < x.createdAt := by
        unfold createdAtLE at h
        omega
      simp only [List.orderedInsert, h, if_false]
      unfold createdAtSlice at ih ⊢
      by_cases hb : b.createdAt = k
      · have hx : ¬ x.createdAt = k := by omega
        simp [List.filter_cons, hb, hx] at ih ⊢
        exact ih
      · by_cases hx : x.createdAt = k
        · simp [List.filter_cons, hb, hx] at ih ⊢
          exact ih
        · simp [List.filter_cons, hb, hx] at ih ⊢
          exact ih

theorem createdAtSlice_sortByCreatedAt (k : Int) (xs : List Message) :
    createdAtSlice k (sortByCreatedAt xs) = createdAtSlice k xs := by
  induction xs with
  | nil => rfl
  | cons a t ih =>
    show createdAtSlice k ((sortByCreatedAt t).orderedInsert createdAtLE a) = _
    rw [createdAtSlice_orderedInsert]
    unfold createdAtSlice at ih ⊢
    simp [List.filter_cons, ih]

/-- Two timelines sorted by `createdAt` that agree on the entries of every creation time are
equal. -/
theorem sorted_ext : ∀ (s t : List Message), s.Sorted createdAtLE → t.Sorted createdAtLE →
    (∀ k, createdAtSlice k s = createdAtSlice k t) → s = t
  | [], [], _, _, _ => rfl
  | [], b :: t, _, _, h => by
    have := h b.createdAt
    simp [createdAtSlice] at this
  | a :: s, [], _, _, h => by
    have := h a.createdAt
    simp [createdAtSlice] at this
  | a :: s, b :: t, hs, ht, h => by
    have hs' := List.sorted_cons.mp hs
    have ht' := List.sorted_cons.mp ht
    have hab : a.createdAt = b.createdAt := by
      have ha : a ∈ createdAtSlice a.createdAt (b :: t) := by
        rw [← h]; simp [createdAtSlice]
      have hb : b ∈ createdAtSlice b.createdAt (a :: s) := by
        rw [h]; simp [createdAtSlice]
      have ha' : a ∈ b :: t := (List.mem_filter.mp ha).1
      have hb' : b ∈ a :: s := (List.mem_filter.mp hb).1
      have h1 : b.createdAt ≤ a.createdAt := by
        rcases List.mem_cons.mp ha' with e | e
        · rw [e]
        · exact ht'.1 a e
      have h2 : a.createdAt ≤ b.createdAt := by
        rcases List.mem_cons.mp hb' with e | e
        · rw [e]
        · exact hs'.1 b e
      omega
    have hhead := h a.createdAt
    simp only [createdAtSlice, List.filter_cons, beq_self_eq_true, if_true] at hhead
    rw [if_pos (by simp [hab])] at hhead
    have heq : a = b := (List.cons.inj hhead).1
    subst heq
    have htail : s = t := by
      apply sorted_ext s t hs'.2 ht'.2
      intro k
      have hk := h k
      unfold createdAtSlice at hk ⊢
      by_cases hak : a.createdAt = k
      · simp [List.filter_cons, hak] at hk
        exact hk
      · simp [List.filter_cons, hak] at hk
        exact hk
    rw [htail]

/-- A sorted timeline with the entries of `xs` at every creation time, in the order of `xs`, is
the stable sort of `xs`. -/
theorem sortByCreatedAt_eq {xs s : List Message} (hs : s.Sorted createdAtLE)
    (h : ∀ k, createdAtSlice k s = createdAtSlice k xs) : sortByCreatedAt xs = s :=
  sorted_ext _ _ (sorted_sortByCreatedAt xs) hs
    (fun k => (createdAtSlice_sortByCreatedAt k xs).trans (h k).symm)

theorem createdAtSlice_filter (k : Int) (p : Message → Bool) (xs : List Message) :
    createdAtSlice k (xs.filter p) = (createdAtSlice k xs).filter p := by
  unfold createdAtSlice
  rw [List.filter_filter, List.filter_filter]
  congr 1
  funext x
  exact Bool.and_comm _ _

/-- Filtering commutes with the stable sort. -/
theorem filter_sortByCreatedAt (p : Message → Bool) (xs : List Message) :
    (sortByCreatedAt xs).filter p = sortByCreatedAt (xs.filter p) := by
  symm
  apply sortByCreatedAt_eq ((sorted_sortByCreatedAt xs).filter p)
  intro k
  rw [createdAtSlice_filter, createdAtSlice_filter, createdAtSlice_sortByCreatedAt]

theorem sortByCreatedAt_sort_append (xs ys : List Message) :
    sortByCreatedAt (sortByCreatedAt xs ++ ys) = sortByCreatedAt (xs ++ ys) := by
  apply sortByCreatedAt_eq (sorted_sortByCreatedAt _)
  intro k
  rw [createdAtSlice_sortByCreatedAt]
  unfold createdAtSlice
  rw [List.filter_append, List.filter_append]
  congr 1
  exact (createdAtSlice_sortByCreatedAt k xs).symm

/-! ## Lemmas on `handleNewMessage` and `sendMessage` -/

theorem any_id_sortByCreatedAt (id : String) (xs : List Message) :
    (sortByCreatedAt xs).any (fun msg => msg._id == id) = xs.any (fun msg => msg._id == id) := by
  rw [Bool.eq_iff_iff]
  simp only [List.any_eq_true]
  constructor
  · rintro ⟨x, hx, h⟩
    exact ⟨x, mem_sortByCreatedAt.mp hx, h⟩
  · rintro ⟨x, hx, h⟩
    exact ⟨x, mem_sortByCreatedAt.mpr hx, h⟩

theorem receiveMessage_idem (m : Message) (prev : List Message) :
    receiveMessage m (receiveMessage m prev) = receiveMessage m prev := by
  unfold receiveMessage
  simp only []
  cases hex : (prev.filter (fun msg => !isOptimisticTwin m msg)).any (fun msg => msg._id == m._id)
  · simp only [Bool.not_false, if_true]
    rw [filter_sortByCreatedAt, List.filter_append, List.filter_filter]
    simp only [Bool.and_self]
    cases htwin : isOptimisticTwin m m
    · have h1 : [m].filter (fun msg => !isOptimisticTwin m msg) = [m] := by
        simp [List.filter_cons, htwin]
      rw [h1]
      have h2 : (sortByCreatedAt (prev.filter (fun msg => !isOptimisticTwin m msg) ++ [m])).any
          (fun msg => msg._id == m._id) = true := by
        rw [any_id_sortByCreatedAt]
        simp
      simp [h2]
    · have h1 : [m].filter (fun msg => !isOptimisticTwin m msg) = [] := by
        simp [List.filter_cons, htwin]
      rw [h1, List.append_nil, any_id_sortByCreatedAt, hex]
      simp only [Bool.not_false, if_true]
      exact sortByCreatedAt_sort_append _ _
  · simp only [Bool.not_true, Bool.false_eq_true, if_false]
    rw [List.filter_filter]
    simp only [Bool.and_self]
    simp [hex]

theorem one_le_idCount_receiveMessage (m : Message) (prev : List Message) :
    1 ≤ idCount m._id (receiveMessage m prev) := by
  unfold receiveMessage idCount
  simp only []
  cases hex : (prev.filter (fun msg => !isOptimisticTwin m msg)).any (fun msg => msg._id == m._id)
  · simp only [Bool.not_false, if_true]
    rw [(perm_sortByCreatedAt _).countP_eq, List.countP_append]
    simp [List.countP_cons]
  · simp only [Bool.not_true, Bool.false_eq_true, if_false]
    rw [List.any_eq_true] at hex
    obtain ⟨x, hx, hid⟩ := hex
    exact List.countP_pos_iff.mpr ⟨x, hx, hid⟩

theorem idCount_receiveMessage_le (m : Message) (prev : List Message) :
    idCount m._id (receiveMessage m prev) ≤ max 1 (idCount m._id prev) := by
  unfold receiveMessage idCount
  simp only []
  cases hex : (prev.filter (fun msg => !isOptimisticTwin m msg)).any (fun msg => msg._id == m._id)
  · simp only [Bool.not_false, if_true]
    rw [(perm_sortByCreatedAt _).countP_eq, List.countP_append]
    have h0 : (prev.filter (fun msg => !isOptimisticTwin m msg)).countP
        (fun x => x._id == m._id) = 0 := by
      rw [List.countP_eq_zero]
      intro x hx
      rw [List.any_eq_false] at hex
      exact hex x hx
    rw [h0]
    simp [List.countP_cons]
  · simp only [Bool.not_true, Bool.false_eq_true, if_false]
    have := (List.filter_sublist prev (p := fun msg => !isOptimisticTwin m msg)).countP_le
      (fun x => x._id == m._id)
    omega

theorem SocketService.sendMessage_false (s : SocketService) (matchId content type : String)
    (h : (s.sendMessage matchId content type).2 = false) :
    (s.sendMessage matchId content type).1 = s := by
  unfold SocketService.sendMessage at h ⊢
  cases he : s.emitWhenReady (Emission.send_message matchId content type) with
  | none => rfl
  | some s' => simp [he] at h

theorem removeOptimistic_insertOptimistic (optimistic : Message) (prev : List Message) :
    removeOptimistic optimistic (insertOptimistic optimistic prev) =
      (sortByCreatedAt prev).filter (fun msg => msg._id != optimistic._id) := by
  unfold removeOptimistic insertOptimistic
  simp only []
  rw [filter_sortByCreatedAt, filter_sortByCreatedAt, List.filter_append]
  simp

theorem filter_id_ne_of_absent (id : String) (xs : List Message) (h : ∀ x ∈ xs, x._id ≠ id) :
    xs.filter (fun msg => msg._id != id) = xs := by
  rw [List.filter_eq_self]
  intro x hx
  simpa using h x hx

theorem runEvents_append (user : User) (selectedMatch : Option Match) (start : List Message)
    (es fs : List TimelineEvent) :
    runEvents user selectedMatch start (es ++ fs) =
      runEvents user selectedMatch (runEvents user selectedMatch start es) fs := by
  unfold runEvents
  rw [List.foldl_append]

theorem runEvents_cons (user : User) (selectedMatch : Option Match) (start : List Message)
    (e : TimelineEvent) (es : List TimelineEvent) :
    runEvents user selectedMatch start (e :: es) =
      runEvents user selectedMatch (applyEvent user selectedMatch e start) es := rfl

theorem runEvents_nil (user : User) (selectedMatch : Option Match) (start : List Message) :
    runEvents user selectedMatch start [] = start := rfl

theorem handleNewMessage_open (selected : Match) (m : Message) (prev : List Message) :
    handleNewMessage (some selected) { matchId := selected._id, message := m } prev =
      receiveMessage m prev := by
  simp [handleNewMessage]

theorem feed_append_singleton (user : User) (selected : Match) (arrivals : List Message)
    (m : Message) :
    feed user selected (arrivals ++ [m]) = receiveMessage m (feed user selected arrivals) := by
  unfold feed
  rw [List.map_append, runEvents_append]
  simp [runEvents_cons, runEvents_nil, applyEvent, handleNewMessage_open]

theorem receiveMessage_confirmed_fresh (m : Message) (prev : List Message)
    (hprev : ∀ x ∈ prev, x.isOptimistic = false) (hfresh : ∀ x ∈ prev, x._id ≠ m._id) :
    receiveMessage m prev = sortByCreatedAt (prev ++ [m]) := by
  rw [receiveMessage_of_fresh m prev hfresh]
  congr 2
  rw [List.filter_eq_self]
  intro x hx
  simp [isOptimisticTwin, hprev x hx]

/-- Feeding confirmed messages with pairwise distinct ids keeps all of them, sorted. -/
theorem feed_perm_sorted (user : User) (selected : Match) (arrivals : List Message)
    (hconf : ∀ m ∈ arrivals, m.isOptimistic = false)
    (hids : (arrivals.map (fun m => m._id)).Nodup) :
    (feed user selected arrivals).Perm arrivals ∧
      (feed user selected arrivals).Sorted createdAtLE := by
  induction arrivals using List.reverseRecOn with
  | nil => exact ⟨List.Perm.refl _, List.sorted_nil⟩
  | append_singleton l m ih =>
    rw [List.map_append, List.nodup_append] at hids
    obtain ⟨hl, _, hdisj⟩ := hids
    have ihl := ih (fun x hx => hconf x (List.mem_append_left _ hx)) hl
    have hprev : ∀ x ∈ feed user selected l, x.isOptimistic = false := fun x hx =>
      hconf x (List.mem_append_left _ (ihl.1.mem_iff.mp hx))
    have hfresh : ∀ x ∈ feed user selected l, x._id ≠ m._id := by
      intro x hx heq
      have hxl : x ∈ l := ihl.1.mem_iff.mp hx
      exact hdisj (List.mem_map.mpr ⟨x, hxl, rfl⟩) (by simp [heq])
    rw [feed_append_singleton, receiveMessage_confirmed_fresh m _ hprev hfresh]
    exact ⟨(perm_sortByCreatedAt _).trans (ihl.1.append_right [m]), sorted_sortByCreatedAt _⟩

theorem perm_eq_of_length_le_one {s t : List Message} (h : s.Perm t) (hlen : s.length ≤ 1) :
    s = t := by
  match s, hlen with
  | [], _ => exact (List.nil_perm.mp h).symm
  | [a], _ => exact List.singleton_perm.mp h

theorem createdAtSlice_length_le_one (k : Int) (xs : List Message)
    (h : (xs.map (fun m => m.createdAt)).Nodup) : (createdAtSlice k xs).length ≤ 1 := by
  induction xs with
  | nil => simp [createdAtSlice]
  | cons a t ih =>
    rw [List.map_cons, List.nodup_cons] at h
    have iht := ih h.2
    unfold createdAtSlice at iht ⊢
    by_cases hak : a.createdAt = k
    · have hnone : t.filter (fun x => x.createdAt == k) = [] := by
        rw [List.filter_eq_nil_iff]
        intro x hx hxk
        apply h.1
        rw [hak]
        exact List.mem_map.mpr ⟨x, hx, by simpa using hxk⟩
      simp [List.filter_cons, hak, hnone]
    · simp [List.filter_cons, hak]
      simpa using iht

/-- Sorted timelines with the same entries, no two of them created at the same time, are
equal. -/
theorem sorted_perm_unique {s t : List Message} (hs : s.Sorted createdAtLE)
    (ht : t.Sorted createdAtLE) (hperm : s.Perm t)
    (htimes : (t.map (fun m => m.createdAt)).Nodup) : s = t := by
  apply sorted_ext s t hs ht
  intro k
  have hp : (createdAtSlice k s).Perm (createdAtSlice k t) := hperm.filter _
  apply perm_eq_of_length_le_one hp
  rw [hp.length_eq]
  exact createdAtSlice_length_le_one k t htimes

/-! ### The confirmed message replaces its optimistic twins -/

theorem mem_receiveMessage {m x : Message} {prev : List Message}
    (h : x ∈ receiveMessage m prev) : x = m ∨ (x ∈ prev ∧ isOptimisticTwin m x = false) := by
  unfold receiveMessage at h
  simp only [] at h
  split at h
  · rw [mem_sortByCreatedAt, List.mem_append] at h
    rcases h with h | h
    · right
      simpa using h
    · left
      simpa using h
  · right
    simpa using h

theorem no_twin_after_receiveMessage (m : Message) (prev : List Message)
    (hconf : m.isOptimistic = false) :
    ∀ x ∈ receiveMessage m prev, isOptimisticTwin m x = false := by
  intro x hx
  rcases mem_receiveMessage hx with h | h
  · subst h
    simp [isOptimisticTwin, hconf]
  · exact h.2

theorem sendsOf_cons (user : User) (e : TimelineEvent) (es : List TimelineEvent) :
    sendsOf user (e :: es) = sendsOf user [e] ++ sendsOf user es := by
  unfold sendsOf
  rw [← List.filterMap_append]
  rfl

theorem mem_sendsOf_resends {user : User} {m x : Message} {events : List TimelineEvent}
    (hx : x ∈ sendsOf user events) (htwin : isOptimisticTwin m x = true) :
    ∃ e ∈ events, e.resends user m = true := by
  unfold sendsOf at hx
  rw [List.mem_filterMap] at hx
  obtain ⟨e, he, hex⟩ := hx
  refine ⟨e, he, ?_⟩
  cases e with
  | localSend messageText idNow createdNow =>
    simp only [Option.some.injEq] at hex
    subst hex
    simpa [isOptimisticTwin, optimisticMessage, TimelineEvent.resends] using htwin
  | incoming data => simp at hex
  | watchdog optimistic => simp at hex

theorem twin_applyEvent (user : User) (selected : Match) (m : Message) (e : TimelineEvent)
    (prev : List Message) (P : Message → Prop) (he : e.isSendOrConfirmed selected = true)
    (hprev : ∀ x ∈ prev, isOptimisticTwin m x = true → P x) :
    ∀ x ∈ applyEvent user (some selected) e prev, isOptimisticTwin m x = true →
      P x ∨ x ∈ sendsOf user [e] := by
  intro x hx htwin
  cases e with
  | localSend messageText idNow createdNow =>
    simp only [applyEvent, insertOptimistic, mem_sortByCreatedAt, List.mem_append,
      List.mem_singleton] at hx
    rcases hx with hx | hx
    · exact Or.inl (hprev x hx htwin)
    · right
      subst hx
      simp [sendsOf]
  | incoming data =>
    simp only [TimelineEvent.isSendOrConfirmed, Bool.and_eq_true, beq_iff_eq,
      Bool.not_eq_true'] at he
    simp only [applyEvent, handleNewMessage, he.1, Option.map_some', if_true] at hx
    rcases mem_receiveMessage hx with h | h
    · subst h
      simp [isOptimisticTwin, he.2] at htwin
    · exact Or.inl (hprev x h.1 htwin)
  | watchdog optimistic => simp [TimelineEvent.isSendOrConfirmed] at he

theorem twin_runEvents (user : User) (selected : Match) (m : Message)
    (events : List TimelineEvent) :
    ∀ (prev : List Message) (P : Message → Prop),
      (∀ e ∈ events, e.isSendOrConfirmed selected = true) →
      (∀ x ∈ prev, isOptimisticTwin m x = true → P x) →
      ∀ x ∈ runEvents user (some selected) prev events, isOptimisticTwin m x = true →
        P x ∨ x ∈ sendsOf user events := by
  induction events with
  | nil =>
    intro prev P _ hprev x hx htwin
    exact Or.inl (hprev x hx htwin)
  | cons e es ih =>
    intro prev P hev hprev x hx htwin
    rw [runEvents_cons] at hx
    have hstep := twin_applyEvent user selected m e prev P (hev e (List.mem_cons_self _ _)) hprev
    have := ih _ (fun y => P y ∨ y ∈ sendsOf user [e])
      (fun e' he' => hev e' (List.mem_cons_of_mem _ he')) hstep x hx htwin
    rw [sendsOf_cons, List.mem_append]
    tauto

theorem count_receiveMessage_fresh (m : Message) (prev : List Message)
    (hfresh : ∀ x ∈ prev, x._id ≠ m._id) : (receiveMessage m prev).count m = 1 := by
  rw [receiveMessage_of_fresh m prev hfresh, (perm_sortByCreatedAt _).count_eq,
    List.count_append]
  have h0 : (prev.filter (fun msg => !isOptimisticTwin m msg)).count m = 0 := by
    rw [List.count_eq_zero]
    intro hm
    exact hfresh m (List.mem_filter.mp hm).1 rfl
  simp [h0]

theorem count_filter_not_twin (m m' : Message) (prev : List Message)
    (hconf : m.isOptimistic = false) :
    (prev.filter (fun msg => !isOptimisticTwin m' msg)).count m = prev.count m := by
  apply List.count_filter
  simp [isOptimisticTwin, hconf]

theorem count_applyEvent (user : User) (selected : Match) (m : Message) (e : TimelineEvent)
    (prev : List Message) (hconf : m.isOptimistic = false)
    (he : e.isSendOrConfirmed selected = true) (hprev : prev.count m = 1) :
    (applyEvent user (some selected) e prev).count m = 1 := by
  cases e with
  | localSend messageText idNow createdNow =>
    simp only [applyEvent, insertOptimistic]
    rw [(perm_sortByCreatedAt _).count_eq, List.count_append, hprev]
    have hne : optimisticMessage user messageText idNow createdNow ≠ m := by
      intro h
      rw [← h] at hconf
      simp [optimisticMessage] at hconf
    simp [List.count_cons, hne]
  | incoming data =>
    simp only [TimelineEvent.isSendOrConfirmed, Bool.and_eq_true, beq_iff_eq,
      Bool.not_eq_true'] at he
    simp only [applyEvent, handleNewMessage, he.1, Option.map_some', if_true]
    unfold receiveMessage
    simp only []
    have hcount := count_filter_not_twin m data.message prev hconf
    split
    · rename_i hex
      rw [(perm_sortByCreatedAt _).count_eq, List.count_append, hcount, hprev]
      have hne : data.message ≠ m := by
        intro h
        have hmem : m ∈ prev.filter (fun msg => !isOptimisticTwin data.message msg) := by
          rw [← List.count_pos_iff, hcount, hprev]
          exact Nat.one_pos
        have hany : (prev.filter (fun msg => !isOptimisticTwin data.message msg)).any
            (fun msg => msg._id == data.message._id) = true :=
          List.any_eq_true.mpr ⟨m, hmem, by simp [h]⟩
        rw [hany] at hex
        exact Bool.noConfusion hex
      simp [List.count_cons, hne]
    · rw [hcount, hprev]
  | watchdog optimistic => simp [TimelineEvent.isSendOrConfirmed] at he

theorem count_runEvents (user : User) (selected : Match) (m : Message)
    (hconf : m.isOptimistic = false) (events : List TimelineEvent) :
    ∀ (prev : List Message),
      (∀ e ∈ events, e.isSendOrConfirmed selected = true) →
      prev.count m = 1 →
      (runEvents user (some selected) prev events).count m = 1 := by
  induction events with
  | nil => intro prev _ hprev; exact hprev
  | cons e es ih =>
    intro prev hev hprev
    rw [runEvents_cons]
    apply ih
    · intro e' he'
      exact hev e' (List.mem_cons_of_mem _ he')
    · exact count_applyEvent user selected m e prev hconf (hev e (List.mem_cons_self _ _)) hprev

/-! ### The watchdog -/

theorem cleanup_of_real (optimistic : Message) (prev : List Message)
    (h : hasRealMessage optimistic prev = true) :
    cleanup optimistic prev = prev.filter (fun msg => msg._id != optimistic._id) := by
  simp only [cleanup, h, if_true]

theorem cleanup_of_no_real (optimistic : Message) (prev : List Message)
    (h : hasRealMessage optimistic prev = false) :
    cleanup optimistic prev =
      prev.map (fun msg => if msg._id == optimistic._id then markFailed msg else msg) := by
  simp only [cleanup, h, Bool.false_eq_true, if_false]

theorem cleanup_of_absent (optimistic : Message) (prev : List Message)
    (h : ∀ x ∈ prev, x._id ≠ optimistic._id) : cleanup optimistic prev = prev := by
  cases hreal : hasRealMessage optimistic prev
  · rw [cleanup_of_no_real optimistic prev hreal]
    conv_rhs => rw [← List.map_id prev]
    apply List.map_congr_left
    intro x hx
    simp [h x hx]
  · rw [cleanup_of_real optimistic prev hreal]
    exact filter_id_ne_of_absent _ _ h

theorem mem_cleanup_id {optimistic x : Message} {prev : List Message}
    (hx : x ∈ cleanup optimistic prev) : ∃ y ∈ prev, y._id = x._id := by
  cases hreal : hasRealMessage optimistic prev
  · rw [cleanup_of_no_real optimistic prev hreal, List.mem_map] at hx
    obtain ⟨y, hy, hyx⟩ := hx
    refine ⟨y, hy, ?_⟩
    split at hyx
    · rw [← hyx]; rfl
    · rw [hyx]
  · rw [cleanup_of_real optimistic prev hreal] at hx
    exact ⟨x, (List.mem_filter.mp hx).1, rfl⟩

theorem hasRealMessage_eq_false_iff (optimistic : Message) (tl : List Message) :
    hasRealMessage optimistic tl = false ↔
      ∀ x ∈ tl, x.isOptimistic = false →
        ¬ (x.content = optimistic.content ∧ x.sender._id = optimistic.sender._id) := by
  unfold hasRealMessage
  rw [List.any_eq_false]
  constructor
  · intro h x hx hopt hcs
    apply h x hx
    simp [hopt, hcs.1, hcs.2]
  · intro h x hx hall
    simp only [Bool.and_eq_true, Bool.not_eq_true', beq_iff_eq] at hall
    exact h x hx hall.1.1 ⟨hall.1.2, hall.2⟩

theorem awaitsConfirmation_applyEvent (user : User) (selectedMatch : Option Match)
    (messageText : String) (idNow createdNow : Int) (e : TimelineEvent) (tl : List Message)
    (he : e.isUnrelated user messageText = true)
    (h : AwaitsConfirmation (optimisticMessage user messageText idNow createdNow) tl) :
    AwaitsConfirmation (optimisticMessage user messageText idNow createdNow)
      (applyEvent user selectedMatch e tl) := by
  obtain ⟨hmem, hreal⟩ := h
  rw [hasRealMessage_eq_false_iff] at hreal
  unfold AwaitsConfirmation
  rw [hasRealMessage_eq_false_iff]
  cases e with
  | localSend text2 idNow2 createdNow2 =>
    simp only [applyEvent, insertOptimistic, mem_sortByCreatedAt, List.mem_append,
      List.mem_singleton]
    refine ⟨Or.inl hmem, ?_⟩
    intro x hx hopt
    rcases hx with hx | hx
    · exact hreal x hx hopt
    · subst hx
      simp [optimisticMessage] at hopt
  | incoming data =>
    simp only [TimelineEvent.isUnrelated, Bool.not_eq_true', Bool.and_eq_false_iff,
      beq_eq_false_iff_ne, ne_eq] at he
    simp only [applyEvent, handleNewMessage]
    split
    · constructor
      · unfold receiveMessage
        simp only []
        have hkeep : optimisticMessage user messageText idNow createdNow ∈
            tl.filter (fun msg => !isOptimisticTwin data.message msg) := by
          rw [List.mem_filter]
          refine ⟨hmem, ?_⟩
          simp only [isOptimisticTwin, optimisticMessage, Bool.true_and, Bool.not_eq_true',
            Bool.and_eq_false_iff, beq_eq_false_iff_ne, ne_eq]
          rcases he with he | he
          · exact Or.inl (fun h => he h.symm)
          · exact Or.inr (fun h => he h.symm)
        split
        · exact mem_sortByCreatedAt.mpr (List.mem_append_left _ hkeep)
        · exact hkeep
      · intro x hx hopt
        rcases mem_receiveMessage hx with h | h
        · subst h
          simp only [optimisticMessage]
          rintro ⟨h1, h2⟩
          rcases he with he | he
          · exact he h1
          · exact he h2
        · exact hreal x h.1 hopt
    · exact ⟨hmem, hreal⟩
  | watchdog optimistic => simp [TimelineEvent.isUnrelated] at he

theorem awaitsConfirmation_runEvents (user : User) (selectedMatch : Option Match)
    (messageText : String) (idNow createdNow : Int) (events : List TimelineEvent) :
    ∀ (tl : List Message),
      (∀ e ∈ events, e.isUnrelated user messageText = true) →
      AwaitsConfirmation (optimisticMessage user messageText idNow createdNow) tl →
      AwaitsConfirmation (optimisticMessage user messageText idNow createdNow)
        (runEvents user selectedMatch tl events) := by
  induction events with
  | nil => intro tl _ h; exact h
  | cons e es ih =>
    intro tl hev h
    rw [runEvents_cons]
    apply ih
    · intro e' he'
      exact hev e' (List.mem_cons_of_mem _ he')
    · exact awaitsConfirmation_applyEvent user selectedMatch messageText idNow createdNow e tl
        (hev e (List.mem_cons_self _ _)) h

/-! ### Entries carrying the temporary id of a send -/

theorem IdAbsent.onlyOwner {optimistic : Message} {tl : List Message}
    (h : IdAbsent optimistic._id tl) : OnlyOwner optimistic tl :=
  fun x hx hid => absurd hid (h x hx)

theorem idAbsent_applyEvent (user : User) (selectedMatch : Option Match) (id : String)
    (e : TimelineEvent) (tl : List Message) (he : e.avoidsId id = true)
    (h : IdAbsent id tl) : IdAbsent id (applyEvent user selectedMatch e tl) := by
  intro x hx
  cases e with
  | localSend messageText idNow createdNow =>
    simp only [applyEvent, insertOptimistic, mem_sortByCreatedAt, List.mem_append,
      List.mem_singleton] at hx
    rcases hx with hx | hx
    · exact h x hx
    · subst hx
      simpa [TimelineEvent.avoidsId, optimisticMessage] using he
  | incoming data =>
    simp only [applyEvent, handleNewMessage] at hx
    split at hx
    · rcases mem_receiveMessage hx with hm | hm
      · subst hm
        simpa [TimelineEvent.avoidsId] using he
      · exact h x hm.1
    · exact h x hx
  | watchdog optimistic =>
    simp only [applyEvent] at hx
    obtain ⟨y, hy, hyx⟩ := mem_cleanup_id hx
    rw [← hyx]
    exact h y hy

theorem idAbsent_cleanup (optimistic : Message) (id : String) (tl : List Message)
    (h : IdAbsent id tl) : IdAbsent id (cleanup optimistic tl) := by
  intro x hx
  obtain ⟨y, hy, hyx⟩ := mem_cleanup_id hx
  rw [← hyx]
  exact h y hy

theorem onlyOwner_applyEvent (user : User) (selectedMatch : Option Match)
    (optimistic : Message) (e : TimelineEvent) (tl : List Message)
    (he : e.avoidsId optimistic._id = true) (h : OnlyOwner optimistic tl) :
    OnlyOwner optimistic (applyEvent user selectedMatch e tl) := by
  intro x hx hid
  cases e with
  | localSend messageText idNow createdNow =>
    simp only [applyEvent, insertOptimistic, mem_sortByCreatedAt, List.mem_append,
      List.mem_singleton] at hx
    rcases hx with hx | hx
    · exact h x hx hid
    · subst hx
      simp [TimelineEvent.avoidsId, optimisticMessage] at he hid
      exact absurd hid he
  | incoming data =>
    simp only [applyEvent, handleNewMessage] at hx
    split at hx
    · rcases mem_receiveMessage hx with hm | hm
      · subst hm
        simp [TimelineEvent.avoidsId] at he
        exact absurd hid he
      · exact h x hm.1 hid
    · exact h x hx hid
  | watchdog other =>
    simp only [TimelineEvent.avoidsId, bne_iff_ne, ne_eq] at he
    simp only [applyEvent] at hx
    cases hreal : hasRealMessage other tl
    · rw [cleanup_of_no_real other tl hreal, List.mem_map] at hx
      obtain ⟨y, hy, hyx⟩ := hx
      by_cases hyo : y._id = other._id
      · simp only [hyo, beq_self_eq_true, if_true] at hyx
        have : x._id = other._id := by rw [← hyx]; exact hyo
        exact absurd (this.symm.trans hid) he
      · have hb : (y._id == other._id) = false := by simpa using hyo
        simp only [hb, Bool.false_eq_true, if_false] at hyx
        subst hyx
        exact h y hy hid
    · rw [cleanup_of_real other tl hreal] at hx
      exact h x (List.mem_filter.mp hx).1 hid

/-- The arrival of a message with the content and the sender of `optimistic`, but another id,
removes the only entry that can carry the id of `optimistic`. -/
theorem idAbsent_receive_counterpart (optimistic m : Message) (tl : List Message)
    (hopt : optimistic.isOptimistic = true)
    (hcontent : m.content = optimistic.content)
    (hsender : m.sender._id = optimistic.sender._id) (hid : m._id ≠ optimistic._id)
    (h : OnlyOwner optimistic tl) : IdAbsent optimistic._id (receiveMessage m tl) := by
  intro x hx hxid
  rcases mem_receiveMessage hx with hm | hm
  · subst hm
    exact hid hxid
  · have := h x hm.1 hxid
    subst this
    have htwin := hm.2
    simp [isOptimisticTwin, hopt, hcontent, hsender] at htwin

theorem runEvents_take_preserves (user : User) (selectedMatch : Option Match)
    (P : List Message → Prop) (events : List TimelineEvent)
    (hstep : ∀ e ∈ events, ∀ tl, P tl → P (applyEvent user selectedMatch e tl)) :
    ∀ (start : List Message), P start → ∀ k,
      P (runEvents user selectedMatch start (events.take k)) := by
  induction events with
  | nil => intro start h k; simpa [runEvents_nil] using h
  | cons e es ih =>
    intro start h k
    cases k with
    | zero => simpa [runEvents_nil] using h
    | succ k =>
      rw [List.take_succ_cons, runEvents_cons]
      exact ih (fun e' he' => hstep e' (List.mem_cons_of_mem _ he')) _
        (hstep e (List.mem_cons_self _ _) start h) k

theorem runEvents_preserves (user : User) (selectedMatch : Option Match)
    (P : List Message → Prop) (events : List TimelineEvent)
    (hstep : ∀ e ∈ events, ∀ tl, P tl → P (applyEvent user selectedMatch e tl))
    (start : List Message) (h : P start) : P (runEvents user selectedMatch start events) := by
  have := runEvents_take_preserves user selectedMatch P events hstep start h events.length
  simpa using this

/-! ## Claims -/

/-- C1 (as stated, refuted): the local user sends "hello", the confirmation `m1` arrives, and
the user sends "hello" again.  The final timeline holds two entries with that sender and
content, the confirmed `m1` together with an optimistic one. -/
theorem resent_text_counterexample :
    runEvents alice (some c123) []
        [.localSend "hello" 1000 1000, .incoming { matchId := "C123", message := helloConfirmed },
          .localSend "hello" 3000 3000] =
      [helloConfirmed, optimisticMessage alice "hello" 3000 3000] ∧
    helloConfirmed.isOptimistic = false ∧
    (optimisticMessage alice "hello" 3000 3000).isOptimistic = true ∧
    (optimisticMessage alice "hello" 3000 3000).content = helloConfirmed.content ∧
    (optimisticMessage alice "hello" 3000 3000).sender._id = helloConfirmed.sender._id := by
  decide

/-- C1 (amended): take any timeline and any events before a confirmed message `m` arrives for
the open conversation, followed by local sends and confirmed `new_message` events of the open
conversation.  In every state from the arrival on, every optimistic entry with the sender id
and the content of `m` was inserted by a local send made after the arrival, so none is left
of the sends made before, and none is there at all if that content was not sent again by that
author; and, if no entry had the id of `m` when it arrived, the timeline holds `m` exactly
once. -/
theorem confirmed_replaces_optimistic (user : User) (selected : Match) (start : List Message)
    (pre post : List TimelineEvent) (m : Message) (k : Nat)
    (hconf : m.isOptimistic = false)
    (hpost : ∀ e ∈ post, e.isSendOrConfirmed selected = true) :
    (∀ x ∈ runEvents user (some selected) start
          (pre ++ TimelineEvent.incoming { matchId := selected._id, message := m } ::
            post.take k),
        x.isOptimistic = true ∧ x.content = m.content ∧ x.sender._id = m.sender._id →
          x ∈ sendsOf user (post.take k)) ∧
      ((∀ e ∈ post, e.resends user m = false) →
        ∀ x ∈ runEvents user (some selected) start
          (pre ++ TimelineEvent.incoming { matchId := selected._id, message := m } ::
            post.take k),
        ¬ (x.isOptimistic = true ∧ x.content = m.content ∧ x.sender._id = m.sender._id)) ∧
      ((∀ x ∈ runEvents user (some selected) start pre, x._id ≠ m._id) →
        (runEvents user (some selected) start
          (pre ++ TimelineEvent.incoming { matchId := selected._id, message := m } ::
            post.take k)).count m = 1) := by
  have hpostk : ∀ e ∈ post.take k, e.isSendOrConfirmed selected = true :=
    fun e he => hpost e (List.mem_of_mem_take he)
  have htwins : ∀ x ∈ runEvents user (some selected) start
      (pre ++ TimelineEvent.incoming { matchId := selected._id, message := m } :: post.take k),
      isOptimisticTwin m x = true → x ∈ sendsOf user (post.take k) := by
    intro x hx htwin
    rw [runEvents_append, runEvents_cons] at hx
    simp only [applyEvent, handleNewMessage_open] at hx
    have hnone : ∀ y ∈ receiveMessage m (runEvents user (some selected) start pre),
        isOptimisticTwin m y = true → False := by
      intro y hy hty
      rw [no_twin_after_receiveMessage m _ hconf y hy] at hty
      exact Bool.noConfusion hty
    rcases twin_runEvents user selected m (post.take k) _ (fun _ => False) hpostk hnone x hx
      htwin with h | h
    · exact h.elim
    · exact h
  refine ⟨?_, ?_, ?_⟩
  · intro x hx h
    exact htwins x hx (by simp [isOptimisticTwin, h.1, h.2.1, h.2.2])
  · intro hre x hx h
    have htwin : isOptimisticTwin m x = true := by simp [isOptimisticTwin, h.1, h.2.1, h.2.2]
    obtain ⟨e, he, hres⟩ := mem_sendsOf_resends (htwins x hx htwin) htwin
    rw [hre e (List.mem_of_mem_take he)] at hres
    exact Bool.noConfusion hres
  · intro hfresh
    rw [runEvents_append, runEvents_cons]
    simp only [applyEvent, handleNewMessage_open]
    exact count_runEvents user selected m hconf (post.take k) _ hpostk
      (count_receiveMessage_fresh m _ hfresh)

/-- C1 (amended), on an example: "hello" is sent, confirmed by `m1`, and followed by a reply and
another send. -/
theorem confirmed_replaces_optimistic_witness :
    helloConfirmed.isOptimistic = false ∧
    (∀ x ∈ runEvents alice (some c123) []
      ([.localSend "hello" 1000 1000] ++
        TimelineEvent.incoming { matchId := c123._id, message := helloConfirmed } ::
          List.take 2 [.incoming { matchId := "C123", message := replyConfirmed },
            .localSend "bye" 3000 3000]),
      ¬ (x.isOptimistic = true ∧ x.content = helloConfirmed.content ∧
        x.sender._id = helloConfirmed.sender._id)) ∧
    (runEvents alice (some c123) []
      ([.localSend "hello" 1000 1000] ++
        TimelineEvent.incoming { matchId := c123._id, message := helloConfirmed } ::
          List.take 2 [.incoming { matchId := "C123", message := replyConfirmed },
            .localSend "bye" 3000 3000])).count helloConfirmed = 1 :=
  have h := confirmed_replaces_optimistic alice c123 [] [.localSend "hello" 1000 1000]
    [.incoming { matchId := "C123", message := replyConfirmed }, .localSend "bye" 3000 3000]
    helloConfirmed 2 rfl (by decide)
  ⟨rfl, h.2.1 (by decide), h.2.2 (by decide)⟩

/-- C2: whatever the timeline was (sorted or not), after `handleNewMessage` inserts an incoming
message whose id is not yet present, and after the optimistic insert of `sendMessage`, the
timeline is sorted in non-decreasing order of `createdAt`. -/
theorem timeline_sorted_after_insert (selectedMatch : Option Match) (data : NewMessageData)
    (prev : List Message) (w : World) (selected : Match) (sock : Socket)
    (idNow createdNow : Int) :
    (some data.matchId = selectedMatch.map (fun m => m._id) →
        (∀ x ∈ prev, x._id ≠ data.message._id) →
        data.message ∈ handleNewMessage selectedMatch data prev ∧
        (handleNewMessage selectedMatch data prev).Sorted createdAtLE) ∧
      (∀ optimistic : Message,
        optimistic ∈ insertOptimistic optimistic prev ∧
        (insertOptimistic optimistic prev).Sorted createdAtLE) ∧
      (CanSend w selected sock →
        optimisticMessage w.user (jsTrim w.newMessage) idNow createdNow ∈
          (sendMessage idNow createdNow w).messages ∧
        (sendMessage idNow createdNow w).messages.Sorted createdAtLE) := by
  refine ⟨?_, ?_, ?_⟩
  · intro hopen hfresh
    have hrec := receiveMessage_of_fresh data.message prev hfresh
    simp only [handleNewMessage, hopen, if_true, hrec]
    exact ⟨mem_sortByCreatedAt.mpr (by simp), sorted_sortByCreatedAt _⟩
  · intro optimistic
    exact ⟨mem_sortByCreatedAt.mpr (by simp), sorted_insertOptimistic optimistic prev⟩
  · intro hcan
    rw [sendMessage_of_canSend idNow createdNow w selected sock hcan]
    exact ⟨mem_sortByCreatedAt.mpr (by simp), sorted_insertOptimistic _ _⟩

/-- C2, on an example: a confirmed message arrives in an unsorted timeline, and a send succeeds
on a page whose timeline is unsorted. -/
theorem timeline_sorted_after_insert_witness :
    (some "C123" = (some c123).map (fun m => m._id) ∧
      ∀ x ∈ [laterConfirmed, replyConfirmed], x._id ≠ helloConfirmed._id) ∧
    CanSend connectedWorld c123 freshSocket ∧
    (handleNewMessage (some c123) { matchId := "C123", message := helloConfirmed }
      [laterConfirmed, replyConfirmed]).Sorted createdAtLE ∧
    (sendMessage 3000 3000 connectedWorld).messages.Sorted createdAtLE :=
  have hcan : CanSend connectedWorld c123 freshSocket := ⟨rfl, by decide, rfl, rfl⟩
  have h := timeline_sorted_after_insert (some c123)
    { matchId := "C123", message := helloConfirmed } [laterConfirmed, replyConfirmed]
    connectedWorld c123 freshSocket 3000 3000
  ⟨⟨by decide, by decide⟩, hcan, (h.1 (by decide) (by decide)).2, (h.2.2 hcan).2⟩

/-- C3 (as stated, refuted): two confirmed messages with distinct ids and the same creation
time end up in the order in which they arrived, so the two arrival orders give different
timelines. -/
theorem same_time_arrivals_counterexample :
    helloConfirmed._id ≠ sameTimeConfirmed._id ∧
    helloConfirmed.isOptimistic = false ∧ sameTimeConfirmed.isOptimistic = false ∧
    [sameTimeConfirmed, helloConfirmed].Perm [helloConfirmed, sameTimeConfirmed] ∧
    sortByCreatedAt [helloConfirmed, sameTimeConfirmed] = [helloConfirmed, sameTimeConfirmed] ∧
    feed alice c123 [helloConfirmed, sameTimeConfirmed] = [helloConfirmed, sameTimeConfirmed] ∧
    feed alice c123 [sameTimeConfirmed, helloConfirmed] = [sameTimeConfirmed, helloConfirmed] ∧
    feed alice c123 [sameTimeConfirmed, helloConfirmed] ≠
      feed alice c123 (sortByCreatedAt [helloConfirmed, sameTimeConfirmed]) := by
  refine ⟨by decide, rfl, rfl, List.Perm.swap _ _ _, by decide, by decide, by decide, by decide⟩

/-- C3 (amended): for confirmed messages with pairwise distinct ids and pairwise distinct
creation times, feeding them through `handleNewMessage` from the empty timeline gives, for
every arrival order, the timeline obtained by feeding them in creation-time order, which is
the list of these messages sorted by creation time. -/
theorem feed_order_independent (user : User) (selected : Match)
    (arrivals shuffled : List Message)
    (hconf : ∀ m ∈ arrivals, m.isOptimistic = false)
    (hids : (arrivals.map (fun m => m._id)).Nodup)
    (htimes : (arrivals.map (fun m => m.createdAt)).Nodup)
    (hperm : shuffled.Perm arrivals) :
    feed user selected shuffled = feed user selected (sortByCreatedAt arrivals) ∧
      feed user selected shuffled = sortByCreatedAt arrivals := by
  have hmain : ∀ l : List Message, l.Perm arrivals →
      feed user selected l = sortByCreatedAt arrivals := by
    intro l hl
    have hconf' : ∀ m ∈ l, m.isOptimistic = false := fun m hm => hconf m (hl.mem_iff.mp hm)
    have hids' : (l.map (fun m => m._id)).Nodup := ((hl.map _).nodup_iff).mpr hids
    obtain ⟨hp, hs⟩ := feed_perm_sorted user selected l hconf' hids'
    have htimes' : ((sortByCreatedAt arrivals).map (fun m => m.createdAt)).Nodup :=
      (((perm_sortByCreatedAt arrivals).map _).nodup_iff).mpr htimes
    exact sorted_perm_unique hs (sorted_sortByCreatedAt arrivals)
      ((hp.trans hl).trans (perm_sortByCreatedAt arrivals).symm) htimes'
  exact ⟨(hmain shuffled hperm).trans (hmain _ (perm_sortByCreatedAt arrivals)).symm,
    hmain shuffled hperm⟩

/-- C3 (amended), on an example: three confirmed messages arriving newest first. -/
theorem feed_order_independent_witness :
    (∀ m ∈ [helloConfirmed, replyConfirmed, laterConfirmed], m.isOptimistic = false) ∧
    ([helloConfirmed, replyConfirmed, laterConfirmed].map (fun m => m._id)).Nodup ∧
    ([helloConfirmed, replyConfirmed, laterConfirmed].map (fun m => m.createdAt)).Nodup ∧
    [laterConfirmed, replyConfirmed, helloConfirmed].Perm
      [helloConfirmed, replyConfirmed, laterConfirmed] ∧
    feed alice c123 [laterConfirmed, replyConfirmed, helloConfirmed] =
      sortByCreatedAt [helloConfirmed, replyConfirmed, laterConfirmed] :=
  have hperm : [laterConfirmed, replyConfirmed, helloConfirmed].Perm
      [helloConfirmed, replyConfirmed, laterConfirmed] := by decide
  ⟨by decide, by decide, by decide, hperm,
    (feed_order_independent alice c123 [helloConfirmed, replyConfirmed, laterConfirmed]
      [laterConfirmed, replyConfirmed, helloConfirmed] (by decide) (by decide) (by decide)
      hperm).2⟩

/-- C4 (as stated, refuted): " hello " is submitted while the service reports no connection.
The input then holds "hello", the text without its surrounding white space, not the text that
was typed. -/
theorem trimmed_input_counterexample :
    disconnectedWorld.selectedMatch = some c123 ∧
    disconnectedWorld.socketService.getConnectionStatus = false ∧
    disconnectedWorld.newMessage = " hello " ∧
    (sendMessage 3000 3000 disconnectedWorld).newMessage = "hello" ∧
    (sendMessage 3000 3000 disconnectedWorld).newMessage ≠ disconnectedWorld.newMessage := by
  decide

/-- C4 (amended): with a conversation selected and a non-blank input, `sendMessage` called while
`getConnectionStatus()` is false leaves the timeline unchanged, emits nothing (the socket service
and the pending timers are unchanged), shows the connection-lost notice, and puts the message
text, that is the input without its leading and trailing white space, back into the input. -/
theorem sendMessage_while_disconnected (idNow createdNow : Int) (w : World) (selected : Match)
    (hsel : w.selectedMatch = some selected)
    (htext : ∃ c ∈ w.newMessage.data, isWhiteSpace c = false)
    (hconn : w.socketService.getConnectionStatus = false) :
    (sendMessage idNow createdNow w).messages = w.messages ∧
      (sendMessage idNow createdNow w).socketService = w.socketService ∧
      (sendMessage idNow createdNow w).timers = w.timers ∧
      (sendMessage idNow createdNow w).toasts =
        w.toasts ++ ["Connection lost. Please refresh the page."] ∧
      (sendMessage idNow createdNow w).newMessage = jsTrim w.newMessage ∧
      (sendMessage idNow createdNow w).newMessage ≠ "" := by
  have hne : jsTrim w.newMessage ≠ "" := (jsTrim_ne_empty_iff _).mpr htext
  simp [sendMessage, hsel, hne, hconn]

/-- C4 (amended), on an example: " hello " submitted while the service reports no connection;
the input ends as "hello". -/
theorem sendMessage_while_disconnected_witness :
    disconnectedWorld.selectedMatch = some c123 ∧
    (∃ c ∈ disconnectedWorld.newMessage.data, isWhiteSpace c = false) ∧
    disconnectedWorld.socketService.getConnectionStatus = false ∧
    (sendMessage 3000 3000 disconnectedWorld).messages = disconnectedWorld.messages ∧
    (sendMessage 3000 3000 disconnectedWorld).socketService = disconnectedWorld.socketService ∧
    (sendMessage 3000 3000 disconnectedWorld).timers = disconnectedWorld.timers ∧
    (sendMessage 3000 3000 disconnectedWorld).toasts =
      ["Connection lost. Please refresh the page."] ∧
    (sendMessage 3000 3000 disconnectedWorld).newMessage = "hello" :=
  have h := sendMessage_while_disconnected 3000 3000 disconnectedWorld c123 rfl (by decide) rfl
  have htrim : jsTrim disconnectedWorld.newMessage = "hello" := by decide
  ⟨rfl, by decide, rfl, h.1, h.2.1, h.2.2.1, h.2.2.2.1, h.2.2.2.2.1.trans htrim⟩

/-- C5: an input that is empty or holds only white space is rejected by `sendMessage` before
anything else happens: the whole state is unchanged, in particular nothing is emitted, and the
timeline and the input text are as before. -/
theorem sendMessage_blank_input (idNow createdNow : Int) (w : World)
    (hblank : ∀ c ∈ w.newMessage.data, isWhiteSpace c = true) :
    sendMessage idNow createdNow w = w ∧
      (sendMessage idNow createdNow w).socketService.emissions = w.socketService.emissions ∧
      (sendMessage idNow createdNow w).messages = w.messages ∧
      (sendMessage idNow createdNow w).newMessage = w.newMessage := by
  have he : jsTrim w.newMessage = "" := (jsTrim_eq_empty_iff _).mpr hblank
  have h : sendMessage idNow createdNow w = w := by
    unfold sendMessage
    cases w.selectedMatch <;> simp [he]
  simp [h]

/-- C5, on an example: a space, a tab and a line feed are submitted. -/
theorem sendMessage_blank_input_witness :
    (∀ c ∈ blankWorld.newMessage.data, isWhiteSpace c = true) ∧
    sendMessage 3000 3000 blankWorld = blankWorld :=
  ⟨by decide, (sendMessage_blank_input 3000 3000 blankWorld (by decide)).1⟩

/-- C7 (as stated, refuted): the timeline already holds a confirmed "hello" of the local user
when "hello" is sent again.  No confirmation arrives, and when the watchdog fires the
provisional message is removed instead of being marked as failed. -/
theorem watchdog_removes_counterexample :
    insertOptimistic (optimisticMessage alice "hello" 3000 3000) [helloConfirmed] =
      [helloConfirmed, optimisticMessage alice "hello" 3000 3000] ∧
    cleanup (optimisticMessage alice "hello" 3000 3000)
      (insertOptimistic (optimisticMessage alice "hello" 3000 3000) [helloConfirmed]) =
      [helloConfirmed] ∧
    ∀ x ∈ cleanup (optimisticMessage alice "hello" 3000 3000)
      (insertOptimistic (optimisticMessage alice "hello" 3000 3000) [helloConfirmed]),
      x.failed = false := by
  decide

/-- C7 (amended): let the timeline hold no entry that is not optimistic and has the local user
as sender and `messageText` as content when `messageText` is sent, and let only local sends and
`new_message` events with another sender or another content follow.  Then the provisional
message is still in the timeline when its watchdog fires, and the watchdog removes nothing: it
replaces the entries with the temporary id by their copies marked `failed` and no longer
optimistic, among them the provisional message. -/
theorem watchdog_marks_failed (user : User) (selectedMatch : Option Match)
    (start : List Message) (messageText : String) (idNow createdNow : Int)
    (events : List TimelineEvent)
    (hstart : ∀ x ∈ start, x.isOptimistic = false →
      ¬ (x.content = messageText ∧ x.sender._id = user.id))
    (hevents : ∀ e ∈ events, e.isUnrelated user messageText = true) :
    optimisticMessage user messageText idNow createdNow ∈
        runEvents user selectedMatch
          (insertOptimistic (optimisticMessage user messageText idNow createdNow) start)
          events ∧
      markFailed (optimisticMessage user messageText idNow createdNow) ∈
        cleanup (optimisticMessage user messageText idNow createdNow)
          (runEvents user selectedMatch
            (insertOptimistic (optimisticMessage user messageText idNow createdNow) start)
            events) ∧
      cleanup (optimisticMessage user messageText idNow createdNow)
          (runEvents user selectedMatch
            (insertOptimistic (optimisticMessage user messageText idNow createdNow) start)
            events) =
        (runEvents user selectedMatch
          (insertOptimistic (optimisticMessage user messageText idNow createdNow) start)
          events).map
          (fun msg => if msg._id == "temp_" ++ toString idNow then markFailed msg else msg) ∧
      (markFailed (optimisticMessage user messageText idNow createdNow)).failed = true ∧
      (markFailed (optimisticMessage user messageText idNow createdNow)).isOptimistic = false := by
  have h0 : AwaitsConfirmation (optimisticMessage user messageText idNow createdNow)
      (insertOptimistic (optimisticMessage user messageText idNow createdNow) start) := by
    constructor
    · exact mem_sortByCreatedAt.mpr (by simp)
    · rw [hasRealMessage_eq_false_iff]
      intro x hx hopt
      simp only [insertOptimistic, mem_sortByCreatedAt, List.mem_append,
        List.mem_singleton] at hx
      rcases hx with hx | hx
      · exact hstart x hx hopt
      · subst hx
        simp [optimisticMessage] at hopt
  obtain ⟨hmem, hreal⟩ := awaitsConfirmation_runEvents user selectedMatch messageText idNow
    createdNow events _ hevents h0
  have hclean := cleanup_of_no_real _ _ hreal
  refine ⟨hmem, ?_, hclean, rfl, rfl⟩
  rw [hclean, List.mem_map]
  exact ⟨_, hmem, by simp⟩

/-- C7 (amended), on an example: "hello" is sent, a reply arrives and "bye" is sent before the
watchdog of "hello" fires. -/
theorem watchdog_marks_failed_witness :
    (∀ x ∈ [replyConfirmed], x.isOptimistic = false →
      ¬ (x.content = "hello" ∧ x.sender._id = alice.id)) ∧
    markFailed (optimisticMessage alice "hello" 3000 3000) ∈
      cleanup (optimisticMessage alice "hello" 3000 3000)
        (runEvents alice (some c123)
          (insertOptimistic (optimisticMessage alice "hello" 3000 3000) [replyConfirmed])
          [.incoming { matchId := "C123", message := laterConfirmed },
            .localSend "bye" 5000 5000]) :=
  ⟨by decide, (watchdog_marks_failed alice (some c123) [replyConfirmed] "hello" 3000 3000
    [.incoming { matchId := "C123", message := laterConfirmed }, .localSend "bye" 5000 5000]
    (by decide) (by decide)).2.1⟩

/-- C8 (as stated, refuted): "hello" and "bye" are sent within the same millisecond, so both
provisional messages get the id `temp_5000`.  The confirmation of "hello" arrives, and when the
watchdog of "hello" fires it removes the provisional "bye": the firing is not a no-op. -/
theorem shared_temp_id_counterexample :
    helloConfirmed.content = "hello" ∧ helloConfirmed.sender._id = alice.id ∧
    runEvents alice (some c123) []
        [.localSend "hello" 5000 5000, .localSend "bye" 5000 5000,
          .incoming { matchId := "C123", message := helloConfirmed }] =
      [helloConfirmed, optimisticMessage alice "bye" 5000 5000] ∧
    cleanup (optimisticMessage alice "hello" 5000 5000)
        (runEvents alice (some c123) []
          [.localSend "hello" 5000 5000, .localSend "bye" 5000 5000,
            .incoming { matchId := "C123", message := helloConfirmed }]) =
      [helloConfirmed] ∧
    cleanup (optimisticMessage alice "hello" 5000 5000)
        (runEvents alice (some c123) []
          [.localSend "hello" 5000 5000, .localSend "bye" 5000 5000,
            .incoming { matchId := "C123", message := helloConfirmed }]) ≠
      runEvents alice (some c123) []
        [.localSend "hello" 5000 5000, .localSend "bye" 5000 5000,
          .incoming { matchId := "C123", message := helloConfirmed }] := by
  decide

/-- C8 (amended): let no entry of the timeline carry the temporary id of a send, and let no
other event insert or address an entry with that id.  If a `new_message` event of the open
conversation with the sender, the content and another id arrives before the watchdog fires,
then the firing leaves the timeline unchanged, and no state of the run, before or after the
firing, holds an entry with the temporary id that is marked `failed`. -/
theorem watchdog_noop_after_confirmation (user : User) (selected : Match)
    (start : List Message) (messageText : String) (idNow createdNow : Int)
    (pre post later : List TimelineEvent) (m : Message)
    (hstart : ∀ x ∈ start, x._id ≠ "temp_" ++ toString idNow)
    (hpre : ∀ e ∈ pre, e.avoidsId ("temp_" ++ toString idNow) = true)
    (hpost : ∀ e ∈ post, e.avoidsId ("temp_" ++ toString idNow) = true)
    (hlater : ∀ e ∈ later, e.avoidsId ("temp_" ++ toString idNow) = true)
    (hcontent : m.content = messageText) (hsender : m.sender._id = user.id)
    (hid : m._id ≠ "temp_" ++ toString idNow) :
    cleanup (optimisticMessage user messageText idNow createdNow)
        (runEvents user (some selected) start
          (TimelineEvent.localSend messageText idNow createdNow :: pre ++
            TimelineEvent.incoming { matchId := selected._id, message := m } :: post)) =
      runEvents user (some selected) start
        (TimelineEvent.localSend messageText idNow createdNow :: pre ++
          TimelineEvent.incoming { matchId := selected._id, message := m } :: post) ∧
    ∀ k, ∀ x ∈ runEvents user (some selected) start
        ((TimelineEvent.localSend messageText idNow createdNow :: pre ++
          TimelineEvent.incoming { matchId := selected._id, message := m } ::
            (post ++ TimelineEvent.watchdog (optimisticMessage user messageText idNow createdNow)
              :: later)).take k),
      x._id = "temp_" ++ toString idNow → x.failed = false := by
  have hown0 : OnlyOwner (optimisticMessage user messageText idNow createdNow) start :=
    IdAbsent.onlyOwner (fun x hx => hstart x hx)
  have hsend : ∀ tl, OnlyOwner (optimisticMessage user messageText idNow createdNow) tl →
      OnlyOwner (optimisticMessage user messageText idNow createdNow)
        (applyEvent user (some selected)
          (TimelineEvent.localSend messageText idNow createdNow) tl) := by
    intro tl htl x hx hxid
    simp only [applyEvent, insertOptimistic, mem_sortByCreatedAt, List.mem_append,
      List.mem_singleton] at hx
    rcases hx with hx | hx
    · exact htl x hx hxid
    · exact hx
  have hF : ∀ e ∈ TimelineEvent.localSend messageText idNow createdNow :: pre, ∀ tl,
      OnlyOwner (optimisticMessage user messageText idNow createdNow) tl →
      OnlyOwner (optimisticMessage user messageText idNow createdNow)
        (applyEvent user (some selected) e tl) := by
    intro e he tl htl
    rcases List.mem_cons.mp he with he | he
    · subst he
      exact hsend tl htl
    · exact onlyOwner_applyEvent user (some selected) _ e tl (hpre e he) htl
  have harrive : ∀ tl, OnlyOwner (optimisticMessage user messageText idNow createdNow) tl →
      IdAbsent ("temp_" ++ toString idNow) (applyEvent user (some selected)
        (TimelineEvent.incoming { matchId := selected._id, message := m }) tl) := by
    intro tl htl
    simp only [applyEvent, handleNewMessage_open]
    exact idAbsent_receive_counterpart (optimisticMessage user messageText idNow createdNow) m
      tl rfl hcontent hsender hid htl
  have hrest : ∀ e ∈ post ++ TimelineEvent.watchdog
      (optimisticMessage user messageText idNow createdNow) :: later, ∀ tl,
      IdAbsent ("temp_" ++ toString idNow) tl →
      IdAbsent ("temp_" ++ toString idNow) (applyEvent user (some selected) e tl) := by
    intro e he tl htl
    rcases List.mem_append.mp he with he | he
    · exact idAbsent_applyEvent user (some selected) _ e tl (hpost e he) htl
    · rcases List.mem_cons.mp he with he | he
      · subst he
        exact idAbsent_cleanup _ _ tl htl
      · exact idAbsent_applyEvent user (some selected) _ e tl (hlater e he) htl
  constructor
  · apply cleanup_of_absent
    rw [runEvents_append, runEvents_cons]
    have hs1 := runEvents_preserves user (some selected) _ _ hF start hown0
    exact runEvents_preserves user (some selected) (IdAbsent ("temp_" ++ toString idNow)) post
      (fun e he tl htl => idAbsent_applyEvent user (some selected) _ e tl (hpost e he) htl) _
      (harrive _ hs1)
  · intro k x hx hxid
    rw [List.take_append_eq_append_take, runEvents_append] at hx
    have hs1 := runEvents_take_preserves user (some selected) _ _ hF start hown0 k
    have hown : OnlyOwner (optimisticMessage user messageText idNow createdNow)
        (runEvents user (some selected)
          (runEvents user (some selected) start
            ((TimelineEvent.localSend messageText idNow createdNow :: pre).take k))
          ((TimelineEvent.incoming { matchId := selected._id, message := m } ::
            (post ++ TimelineEvent.watchdog
              (optimisticMessage user messageText idNow createdNow) :: later)).take
            (k - (TimelineEvent.localSend messageText idNow createdNow :: pre).length))) := by
      cases (k - (TimelineEvent.localSend messageText idNow createdNow :: pre).length) with
      | zero => simpa [runEvents_nil] using hs1
      | succ j =>
        rw [List.take_succ_cons, runEvents_cons]
        exact IdAbsent.onlyOwner (runEvents_take_preserves user (some selected)
          (IdAbsent ("temp_" ++ toString idNow)) _ hrest _ (harrive _ hs1) j)
    have := hown x hx hxid
    rw [this]
    rfl

/-- C8 (amended), on an example: "hello" is sent, a reply arrives, "hello" is confirmed, "bye" is
sent, and the watchdog of "hello" fires. -/
theorem watchdog_noop_after_confirmation_witness :
    (∀ x ∈ [laterConfirmed], x._id ≠ "temp_" ++ toString (3000 : Int)) ∧
    helloConfirmed.content = "hello" ∧ helloConfirmed.sender._id = alice.id ∧
    cleanup (optimisticMessage alice "hello" 3000 3000)
        (runEvents alice (some c123) [laterConfirmed]
          (TimelineEvent.localSend "hello" 3000 3000 ::
            [.incoming { matchId := "C123", message := replyConfirmed }] ++
            TimelineEvent.incoming { matchId := c123._id, message := helloConfirmed } ::
              [.localSend "bye" 5000 5000])) =
      runEvents alice (some c123) [laterConfirmed]
        (TimelineEvent.localSend "hello" 3000 3000 ::
          [.incoming { matchId := "C123", message := replyConfirmed }] ++
          TimelineEvent.incoming { matchId := c123._id, message := helloConfirmed } ::
            [.localSend "bye" 5000 5000]) :=
  ⟨by decide, rfl, rfl,
    (watchdog_noop_after_confirmation alice c123 [laterConfirmed] "hello" 3000 3000
      [.incoming { matchId := "C123", message := replyConfirmed }] [.localSend "bye" 5000 5000]
      [] helloConfirmed (by decide) (by decide) (by decide) (by decide) rfl rfl
      (by decide)).1⟩

/-- C9 (as stated, refuted): the timeline holds two entries with the id `m1` when the
`new_message` event of `m1` is handled; the id occurs twice in the result. -/
theorem duplicate_id_counterexample :
    handleNewMessage (some c123) { matchId := "C123", message := helloConfirmed }
        [helloConfirmed, helloDuplicate] = [helloConfirmed, helloDuplicate] ∧
    idCount helloConfirmed._id
        (handleNewMessage (some c123) { matchId := "C123", message := helloConfirmed }
          [helloConfirmed, helloDuplicate]) = 2 := by
  decide

/-- C9 (amended): handling the same `new_message` event twice gives the timeline that handling
it once gives; for an event of the open conversation the id of its message occurs at least
once in the result, and exactly once if it occurred at most once in the timeline before. -/
theorem handleNewMessage_idempotent (selectedMatch : Option Match) (data : NewMessageData)
    (prev : List Message) :
    handleNewMessage selectedMatch data (handleNewMessage selectedMatch data prev) =
        handleNewMessage selectedMatch data prev ∧
      (some data.matchId = selectedMatch.map (fun m => m._id) →
        1 ≤ idCount data.message._id (handleNewMessage selectedMatch data prev) ∧
        (idCount data.message._id prev ≤ 1 →
          idCount data.message._id (handleNewMessage selectedMatch data prev) = 1)) := by
  constructor
  · unfold handleNewMessage
    split
    · exact receiveMessage_idem _ _
    · rfl
  · intro hopen
    simp only [handleNewMessage, hopen, if_true]
    have h1 := one_le_idCount_receiveMessage data.message prev
    have h2 := idCount_receiveMessage_le data.message prev
    refine ⟨h1, fun hle => ?_⟩
    have : max 1 (idCount data.message._id prev) = 1 := max_eq_left hle
    omega

/-- C9 (amended), on an example: the confirmation of "hello" is delivered twice while the
provisional "hello" is in the timeline. -/
theorem handleNewMessage_idempotent_witness :
    some "C123" = (some c123).map (fun m => m._id) ∧
    idCount helloConfirmed._id [optimisticMessage alice "hello" 1000 1000] ≤ 1 ∧
    idCount helloConfirmed._id
      (handleNewMessage (some c123) { matchId := "C123", message := helloConfirmed }
        [optimisticMessage alice "hello" 1000 1000]) = 1 :=
  ⟨by decide, by decide,
    ((handleNewMessage_idempotent (some c123) { matchId := "C123", message := helloConfirmed }
      [optimisticMessage alice "hello" 1000 1000]).2 (by decide)).2 (by decide)⟩

/-- C10: a `new_message` event whose `matchId` is not the id of the selected conversation, which
includes every event received while no conversation is selected, leaves the timeline unchanged. -/
theorem handleNewMessage_other_conversation (selectedMatch : Option Match)
    (data : NewMessageData) (prev : List Message)
    (hother : ∀ selected, selectedMatch = some selected → data.matchId ≠ selected._id) :
    handleNewMessage selectedMatch data prev = prev := by
  unfold handleNewMessage
  cases hs : selectedMatch with
  | none => simp
  | some selected =>
    have := hother selected hs
    simp [this]

/-- C10, on two examples: an event of another conversation, and an event received while no
conversation is selected. -/
theorem handleNewMessage_other_conversation_witness :
    (∀ selected, some c123 = some selected → "C999" ≠ selected._id) ∧
    handleNewMessage (some c123) { matchId := "C999", message := helloConfirmed }
      [replyConfirmed] = [replyConfirmed] ∧
    handleNewMessage none { matchId := "C123", message := helloConfirmed }
      [replyConfirmed] = [replyConfirmed] :=
  have h : ∀ selected, some c123 = some selected → "C999" ≠ selected._id := by
    intro selected hs
    rw [← Option.some.inj hs]
    decide
  ⟨h, handleNewMessage_other_conversation (some c123)
      { matchId := "C999", message := helloConfirmed } [replyConfirmed] h,
    handleNewMessage_other_conversation none
      { matchId := "C123", message := helloConfirmed } [replyConfirmed]
      (fun _ hs => Option.noConfusion hs)⟩

/-! ## Lemmas on the socket service and its sessions -/

namespace ConnectionManager

theorem runListener_frame (event : String) (l : Listener) (m : ConnectionManager) :
    (runListener event l m).socket = m.socket ∧ (runListener event l m).released = m.released ∧
      (runListener event l m).calls = m.calls := by
  cases l <;> simp [runListener]

theorem dispatch_frame (event : String) (listeners : List (String × Listener))
    (m : ConnectionManager) :
    (dispatch event listeners m).socket = m.socket ∧
      (dispatch event listeners m).released = m.released ∧
      (dispatch event listeners m).calls = m.calls := by
  unfold dispatch
  generalize listeners.filter (fun l => l.1 == event) = ls
  induction ls generalizing m with
  | nil => simp
  | cons l ls ih =>
    simp only [List.foldl_cons]
    obtain ⟨h1, h2, h3⟩ := ih (runListener event l.2 m)
    obtain ⟨g1, g2, g3⟩ := runListener_frame event l.2 m
    exact ⟨h1.trans g1, h2.trans g2, h3.trans g3⟩

theorem closeSocket_frame (sock : ClientSocket) (m : ConnectionManager) :
    (closeSocket sock m).2.socket = m.socket ∧ (closeSocket sock m).2.released = m.released ∧
      (closeSocket sock m).2.calls = m.calls ++ [.closeSocket sock.token] ∧
      (closeSocket sock m).1 = { sock with connected := false, destroyed := true } := by
  unfold closeSocket
  split
  · obtain ⟨h1, h2, h3⟩ := dispatch_frame "disconnect" sock.listeners
      { m with calls := m.calls ++ [.closeSocket sock.token] }
    exact ⟨h1, h2, h3, rfl⟩
  · exact ⟨rfl, rfl, rfl, rfl⟩

/-- Callbacks of callers leave `isConnected` as it is. -/
theorem foldl_callbacks_isConnected (event : String) (ls : List (String × Listener))
    (h : ∀ l ∈ ls, ∃ name, l.2 = Listener.callback name) (m : ConnectionManager) :
    (ls.foldl (fun acc l => runListener event l.2 acc) m).isConnected = m.isConnected := by
  induction ls generalizing m with
  | nil => rfl
  | cons l ls ih =>
    simp only [List.foldl_cons]
    rw [ih (fun l' hl' => h l' (List.mem_cons_of_mem _ hl'))]
    obtain ⟨name, hname⟩ := h l (List.mem_cons_self _ _)
    simp [hname, runListener]

theorem dispatch_isConnected_of_callbacks (event : String) (ls : List (String × Listener))
    (h : ∀ l ∈ ls, ∃ name, l.2 = Listener.callback name) (m : ConnectionManager) :
    (dispatch event ls m).isConnected = m.isConnected := by
  unfold dispatch
  exact foldl_callbacks_isConnected event _
    (fun l hl => h l (List.mem_filter.mp hl).1) m

theorem dispatch_append (event : String) (ls ks : List (String × Listener))
    (m : ConnectionManager) :
    dispatch event (ls ++ ks) m = dispatch event ks (dispatch event ls m) := by
  unfold dispatch
  rw [List.filter_append, List.foldl_append]

theorem consistent_initial : Consistent initial := by
  refine ⟨?_, ?_, ?_⟩ <;> simp [initial]

theorem consistent_step (m : ConnectionManager) (e : ManagerEvent) (h : Consistent m) :
    Consistent (m.step e) := by
  obtain ⟨hrel, hsock, hconn⟩ := h
  cases hs : m.socket with
  | none =>
    have hfalse : m.isConnected = false := by
      cases hc : m.isConnected with
      | false => rfl
      | true => have := hconn hc; simp [hs] at this
    cases e with
    | connect token =>
      simp only [step, connect, hs]
      refine ⟨hrel, ?_, fun _ => rfl⟩
      intro sock hsk
      simp only [Option.some.injEq] at hsk
      rw [← hsk]; rfl
    | disconnect => simpa [step, disconnect, hs] using ⟨hrel, hsock, hconn⟩
    | register event name => simpa [step, register, hs] using ⟨hrel, hsock, hconn⟩
    | removeListener event => simpa [step, removeListener, hs] using ⟨hrel, hsock, hconn⟩
    | removeAllListeners => simpa [step, removeAllListeners, hs] using ⟨hrel, hsock, hconn⟩
    | emit e => simpa [step, emit, hs] using ⟨hrel, hsock, hconn⟩
    | socketConnects => simpa [step, socketConnects, hs] using ⟨hrel, hsock, hconn⟩
    | socketConnectError => simpa [step, socketConnectError, hs] using ⟨hrel, hsock, hconn⟩
    | socketDrops => simpa [step, socketDrops, hs] using ⟨hrel, hsock, hconn⟩
    | receive event => simpa [step, receive, hs] using ⟨hrel, hsock, hconn⟩
  | some sock0 =>
    have hlive : sock0.destroyed = false := hsock sock0 hs
    cases e with
    | connect token =>
      simp only [step, connect, hs]
      obtain ⟨f1, f2, f3, f4⟩ := closeSocket_frame sock0 m
      refine ⟨?_, ?_, fun _ => rfl⟩
      · intro r hr
        simp only [List.mem_append, List.mem_singleton] at hr
        rcases hr with hr | hr
        · rw [f2] at hr; exact hrel r hr
        · rw [hr, f4]
      · intro sock hsk
        simp only [Option.some.injEq] at hsk
        rw [← hsk]; rfl
    | disconnect =>
      simp only [step, disconnect, hs]
      obtain ⟨f1, f2, f3, f4⟩ := closeSocket_frame sock0 m
      refine ⟨?_, ?_, ?_⟩
      · intro r hr
        simp only [List.mem_append, List.mem_singleton] at hr
        rcases hr with hr | hr
        · rw [f2] at hr; exact hrel r hr
        · rw [hr, f4]
      · intro sock hsk
        simp at hsk
      · intro hc
        simp at hc
    | register event name =>
      simp only [step, register, hs]
      refine ⟨hrel, ?_, fun _ => rfl⟩
      intro sock hsk
      simp only [Option.some.injEq] at hsk
      rw [← hsk]
      exact hlive
    | removeListener event =>
      simp only [step, removeListener, hs]
      refine ⟨hrel, ?_, fun _ => rfl⟩
      intro sock hsk
      simp only [Option.some.injEq] at hsk
      rw [← hsk]
      exact hlive
    | removeAllListeners =>
      simp only [step, removeAllListeners, hs]
      refine ⟨hrel, ?_, fun _ => rfl⟩
      intro sock hsk
      simp only [Option.some.injEq] at hsk
      rw [← hsk]
      exact hlive
    | emit e =>
      simp only [step, emit, hs]
      split
      · refine ⟨hrel, ?_, fun _ => rfl⟩
        intro sock hsk
        simp only [Option.some.injEq] at hsk
        rw [← hsk]
        exact hlive
      · exact ⟨hrel, hsock, hconn⟩
    | socketConnects =>
      simp only [step, socketConnects, hs]
      obtain ⟨f1, f2, _⟩ := dispatch_frame "connect" sock0.listeners
        { m with socket := some { sock0 with connected := true } }
      refine ⟨?_, ?_, ?_⟩
      · rw [f2]; exact hrel
      · intro sock hsk
        rw [f1] at hsk
        simp only [Option.some.injEq] at hsk
        rw [← hsk]
        exact hlive
      · intro _
        rw [f1]; rfl
    | socketConnectError =>
      simp only [step, socketConnectError, hs]
      obtain ⟨f1, f2, _⟩ := dispatch_frame "connect_error" sock0.listeners m
      refine ⟨?_, ?_, ?_⟩
      · rw [f2]; exact hrel
      · intro sock hsk
        rw [f1] at hsk
        exact hsock sock hsk
      · intro _
        rw [f1, hs]; rfl
    | socketDrops =>
      simp only [step, socketDrops, hs]
      obtain ⟨f1, f2, _⟩ := dispatch_frame "disconnect" sock0.listeners
        { m with socket := some { sock0 with connected := false } }
      refine ⟨?_, ?_, ?_⟩
      · rw [f2]; exact hrel
      · intro sock hsk
        rw [f1] at hsk
        simp only [Option.some.injEq] at hsk
        rw [← hsk]
        exact hlive
      · intro _
        rw [f1]; rfl
    | receive event =>
      simp only [step, receive, hs]
      obtain ⟨f1, f2, _⟩ := dispatch_frame event sock0.listeners m
      refine ⟨?_, ?_, ?_⟩
      · rw [f2]; exact hrel
      · intro sock hsk
        rw [f1] at hsk
        exact hsock sock hsk
      · intro _
        rw [f1, hs]; rfl

theorem consistent_run (events : List ManagerEvent) :
    ∀ m : ConnectionManager, Consistent m → Consistent (m.run events) := by
  induction events with
  | nil => intro m h; exact h
  | cons e es ih =>
    intro m h
    exact ih (m.step e) (consistent_step m e h)

theorem consistent_of_reachable {m : ConnectionManager} (h : Reachable m) : Consistent m := by
  obtain ⟨events, rfl⟩ := h
  exact consistent_run events initial consistent_initial

end ConnectionManager

namespace ConnectionManager

theorem reachable_run {m : ConnectionManager} (h : Reachable m) (events : List ManagerEvent) :
    Reachable (m.run events) := by
  obtain ⟨before, rfl⟩ := h
  exact ⟨before ++ events, by simp [run, List.foldl_append]⟩

theorem run_append (m : ConnectionManager) (es fs : List ManagerEvent) :
    m.run (es ++ fs) = (m.run es).run fs := by
  simp [run, List.foldl_append]

theorem dispatch_base_connect (token : String) (m : ConnectionManager) :
    dispatch "connect" (newSocket token).listeners m = { m with isConnected := true } := by
  simp [dispatch, newSocket, runListener]

theorem dispatch_base_disconnect (token : String) (m : ConnectionManager) :
    dispatch "disconnect" (newSocket token).listeners m = { m with isConnected := false } := by
  simp [dispatch, newSocket, runListener]

theorem dispatch_base_connect_error (token : String) (m : ConnectionManager) :
    dispatch "connect_error" (newSocket token).listeners m =
      { m with isConnected := false } := by
  simp [dispatch, newSocket, runListener]

theorem wired_connect (token : String) (m : ConnectionManager) : Wired (m.connect token) :=
  ⟨newSocket token, [], by simp [connect], by simp [newSocket], by simp⟩

theorem wired_step (m : ConnectionManager) (e : ManagerEvent) (h : Wired m)
    (he : e.keepsListeners = true) : Wired (m.step e) := by
  obtain ⟨sock, extra, hs, hl, hextra⟩ := h
  cases e with
  | connect token => simp [ManagerEvent.keepsListeners] at he
  | disconnect => simp [ManagerEvent.keepsListeners] at he
  | removeListener event => simp [ManagerEvent.keepsListeners] at he
  | removeAllListeners => simp [ManagerEvent.keepsListeners] at he
  | register event name =>
    refine ⟨{ sock with listeners := sock.listeners ++ [(event, .callback name)] },
      extra ++ [(event, .callback name)], by simp [step, register, hs], ?_, ?_⟩
    · simp only [hl, List.append_assoc]
    · intro l hl'
      rcases List.mem_append.mp hl' with h1 | h1
      · exact hextra l h1
      · simp only [List.mem_singleton] at h1
        exact ⟨name, by rw [h1]⟩
  | emit e =>
    simp only [step, emit, hs]
    split
    · exact ⟨{ sock with emitted := sock.emitted ++ [e] }, extra, rfl, hl, hextra⟩
    · exact ⟨sock, extra, hs, hl, hextra⟩
  | socketConnects =>
    refine ⟨{ sock with connected := true }, extra, ?_, hl, hextra⟩
    simp only [step, socketConnects, hs]
    exact (dispatch_frame _ _ _).1
  | socketConnectError =>
    refine ⟨sock, extra, ?_, hl, hextra⟩
    simp only [step, socketConnectError, hs]
    exact (dispatch_frame _ _ _).1.trans hs
  | socketDrops =>
    refine ⟨{ sock with connected := false }, extra, ?_, hl, hextra⟩
    simp only [step, socketDrops, hs]
    exact (dispatch_frame _ _ _).1
  | receive event =>
    refine ⟨sock, extra, ?_, hl, hextra⟩
    simp only [step, receive, hs]
    exact (dispatch_frame _ _ _).1.trans hs

theorem wired_run (events : List ManagerEvent) :
    ∀ m : ConnectionManager, Wired m → (∀ e ∈ events, e.keepsListeners = true) →
      Wired (m.run events) := by
  induction events with
  | nil => intro m h _; exact h
  | cons e es ih =>
    intro m h hev
    exact ih (m.step e) (wired_step m e h (hev e (List.mem_cons_self _ _)))
      (fun e' he' => hev e' (List.mem_cons_of_mem _ he'))

theorem wired_status (m : ConnectionManager) (h : Wired m) :
    (m.step .socketConnects).isConnected = true ∧
      (m.step .socketConnectError).isConnected = false ∧
      (m.step .socketDrops).isConnected = false := by
  obtain ⟨sock, extra, hs, hl, hextra⟩ := h
  refine ⟨?_, ?_, ?_⟩
  · simp only [step, socketConnects, hs, hl, dispatch_append, dispatch_base_connect]
    rw [dispatch_isConnected_of_callbacks _ _ hextra]
  · simp only [step, socketConnectError, hs, hl, dispatch_append, dispatch_base_connect_error]
    rw [dispatch_isConnected_of_callbacks _ _ hextra]
  · simp only [step, socketDrops, hs, hl, dispatch_append, dispatch_base_disconnect]
    rw [dispatch_isConnected_of_callbacks _ _ hextra]

theorem foldl_runListener_invoked (event : String) (ls : List (String × Listener))
    (m : ConnectionManager) :
    (ls.foldl (fun acc l => runListener event l.2 acc) m).invoked =
      m.invoked ++ ls.filterMap (fun l =>
        match l.2 with
        | .callback name => some (event, name)
        | _ => none) := by
  induction ls generalizing m with
  | nil => simp
  | cons l ls ih =>
    simp only [List.foldl_cons]
    rw [ih]
    cases hl : l.2 <;> simp [runListener, hl, List.filterMap_cons]

/-- An event appends the callbacks registered for it, in the order of registration, to the
callbacks invoked so far. -/
theorem receive_invoked (m : ConnectionManager) (sock : ClientSocket) (event : String)
    (hs : m.socket = some sock) :
    (m.receive event).invoked =
      m.invoked ++ (sock.listeners.filter (fun l => l.1 == event)).filterMap (fun l =>
        match l.2 with
        | .callback name => some (event, name)
        | _ => none) := by
  simp only [receive, hs, dispatch]
  exact foldl_runListener_invoked event _ m

end ConnectionManager

/-! ## Lemmas on timers -/

namespace Session

theorem elapse_add (a b : Nat) : ∀ s : Session, elapse (a + b) s = elapse b (elapse a s) := by
  induction a with
  | zero => intro s; simp [elapse]
  | succ a ih =>
    intro s
    rw [Nat.succ_add]
    simp only [elapse]
    exact ih (tick s)

theorem elapse_succ (d : Nat) (s : Session) : elapse (d + 1) s = tick (elapse d s) := by
  rw [elapse_add]
  rfl

theorem tick_idle (s : Session) (h : ∀ t ∈ s.timers, s.now + 1 < t.due) :
    tick s = { s with now := s.now + 1 } := by
  have hnone : s.timers.filter (fun t => decide (t.due ≤ s.now + 1)) = [] := by
    rw [List.filter_eq_nil_iff]
    intro t ht
    have := h t ht
    simp only [decide_eq_true_eq]
    omega
  simp [tick, fireDue, hnone]

theorem elapse_idle (d : Nat) : ∀ s : Session, (∀ t ∈ s.timers, s.now + d < t.due) →
    elapse d s = { s with now := s.now + d } := by
  induction d with
  | zero => intro s _; rfl
  | succ d ih =>
    intro s h
    simp only [elapse]
    rw [tick_idle s (fun t ht => by have := h t ht; omega)]
    rw [ih _ (fun t ht => by have := h t ht; simp only at ht ⊢; omega)]
    simp only [Nat.add_assoc, Nat.add_comm 1 d]

theorem elapse_no_timers (d : Nat) (s : Session) (h : s.timers = []) :
    elapse d s = { s with now := s.now + d } :=
  elapse_idle d s (by simp [h])

/-- A single pending timeout fires when it is due. -/
theorem tick_fire_single (s : Session) (t : Timer) (ht : s.timers = [t])
    (hp : t.period = none) (hdue : t.due = s.now + 1) :
    tick s = runCallback t.callback { s with now := s.now + 1, timers := [] } := by
  simp [tick, fireDue, ht, hdue, fire, hp, clearTimer]

theorem elapse_fire_single (s : Session) (t : Timer) (d : Nat) (ht : s.timers = [t])
    (hp : t.period = none) (hdue : t.due = s.now + d + 1) :
    elapse (d + 1) s = runCallback t.callback { s with now := s.now + d + 1, timers := [] } := by
  rw [elapse_succ, elapse_idle d s (by intro u hu; rw [ht] at hu; simp at hu; rw [hu]; omega)]
  exact tick_fire_single { s with now := s.now + d } t ht hp (by simpa using hdue)

end Session

namespace SocketService

theorem Ready.emit {s : SocketService} (h : s.Ready) (e : Emission) :
    ∃ s', s.emitWhenReady e = some s' ∧ s'.emissions = s.emissions ++ [e] ∧ s'.Ready := by
  obtain ⟨hc, hs⟩ := h
  cases hsock : s.socket with
  | none => simp [hsock] at hs
  | some sock =>
    refine ⟨{ s with socket := some { sock with emitted := sock.emitted ++ [e] } }, ?_, ?_, ?_⟩
    · simp [emitWhenReady, hsock, hc]
    · simp [emissions, hsock]
    · exact ⟨hc, rfl⟩

theorem Ready.startTyping {s : SocketService} (h : s.Ready) (matchId : String) :
    (s.startTyping matchId).emissions = s.emissions ++ [Emission.typing_start matchId] ∧
      (s.startTyping matchId).Ready := by
  obtain ⟨s', h1, h2, h3⟩ := h.emit (Emission.typing_start matchId)
  simp [SocketService.startTyping, h1, h2, h3]

theorem Ready.stopTyping {s : SocketService} (h : s.Ready) (matchId : String) :
    (s.stopTyping matchId).emissions = s.emissions ++ [Emission.typing_stop matchId] ∧
      (s.stopTyping matchId).Ready := by
  obtain ⟨s', h1, h2, h3⟩ := h.emit (Emission.typing_stop matchId)
  simp [SocketService.stopTyping, h1, h2, h3]

theorem Ready.joinMatch {s : SocketService} (h : s.Ready) (matchId : String) :
    (s.joinMatch matchId).emissions = s.emissions ++ [Emission.join_match matchId] ∧
      (s.joinMatch matchId).Ready := by
  obtain ⟨s', h1, h2, h3⟩ := h.emit (Emission.join_match matchId)
  simp [SocketService.joinMatch, h1, h2, h3]

theorem emitWhenReady_of_disconnected {s : SocketService} (h : s.isConnected = false)
    (e : Emission) : s.emitWhenReady e = none := by
  unfold emitWhenReady
  cases s.socket <;> simp [h]

end SocketService

namespace Session

/-- A pending stop timer of `handleTyping` that is alone: until it is due nothing happens, then
`stopTyping` runs once and no timer is left. -/
theorem elapse_stop_timer (s : Session) (t : Timer) (matchId : String) (d : Nat)
    (ht : s.timers = [t]) (hp : t.period = none) (hcb : t.callback = Callback.stopTyping matchId)
    (hdue : s.now < t.due) :
    elapse d s =
      if s.now + d < t.due then { s with now := s.now + d }
      else { s with now := s.now + d, timers := [],
                    socketService := s.socketService.stopTyping matchId } := by
  split
  · rename_i hlt
    exact elapse_idle d s (by intro u hu; rw [ht] at hu; simp at hu; rw [hu]; exact hlt)
  · rename_i hge
    obtain ⟨g, hg⟩ : ∃ g, t.due = s.now + g + 1 := ⟨t.due - s.now - 1, by omega⟩
    obtain ⟨r, hr⟩ : ∃ r, d = (g + 1) + r := ⟨d - (g + 1), by omega⟩
    rw [hr, elapse_add, elapse_fire_single s t g ht hp hg, hcb]
    simp only [runCallback]
    rw [elapse_no_timers r _ rfl]
    simp only [Nat.add_assoc]

/-- A pending expiry timer of `handleUserTyping` that is alone: until it is due nothing happens,
then the typing state is cleared and no timer is left. -/
theorem elapse_expiry_timer (s : Session) (t : Timer) (d : Nat)
    (ht : s.timers = [t]) (hp : t.period = none) (hcb : t.callback = Callback.clearTyping)
    (hdue : s.now < t.due) :
    elapse d s =
      if s.now + d < t.due then { s with now := s.now + d }
      else { s with now := s.now + d, timers := [], typing := none } := by
  split
  · rename_i hlt
    exact elapse_idle d s (by intro u hu; rw [ht] at hu; simp at hu; rw [hu]; exact hlt)
  · rename_i hge
    obtain ⟨g, hg⟩ : ∃ g, t.due = s.now + g + 1 := ⟨t.due - s.now - 1, by omega⟩
    obtain ⟨r, hr⟩ : ∃ r, d = (g + 1) + r := ⟨d - (g + 1), by omega⟩
    rw [hr, elapse_add, elapse_fire_single s t g ht hp hg, hcb]
    simp only [runCallback]
    rw [elapse_no_timers r _ rfl]
    simp only [Nat.add_assoc]

/-- What a keystroke does while composing. -/
theorem handleTyping_of_composing (selected : Match) (s : Session) (h : s.Composing selected) :
    s.handleTyping =
      { s with
        socketService := s.socketService.startTyping selected._id
        timers := [{ id := s.nextTimerId, due := s.now + 1000, period := none,
                     callback := Callback.stopTyping selected._id }]
        nextTimerId := s.nextTimerId + 1
        typingTimeoutRef := some s.nextTimerId } := by
  obtain ⟨hsel, _, _, htimers⟩ := h
  rcases htimers with hnil | ⟨t, ht, href, hid, _, _, _⟩
  · unfold handleTyping
    simp only [hsel]
    cases href : s.typingTimeoutRef with
    | none => simp [clearTypingTimeout, href, setTimeout, hnil]
    | some id =>
      by_cases hz : id = 0
      · simp [clearTypingTimeout, href, setTimeout, hnil, hz]
      · simp [clearTypingTimeout, href, setTimeout, hnil, hz, clearTimer]
  · unfold handleTyping
    simp [hsel, clearTypingTimeout, href, hid, clearTimer, ht, setTimeout]

theorem composing_handleTyping (selected : Match) (s : Session) (h : s.Composing selected) :
    (s.handleTyping).Composing selected := by
  rw [handleTyping_of_composing selected s h]
  obtain ⟨hsel, hready, hpos, _⟩ := h
  refine ⟨hsel, (hready.startTyping _).2, Nat.succ_pos _, Or.inr ⟨_, rfl, rfl, ?_, rfl, rfl, ?_⟩⟩
  · simp only; omega
  · simp only; omega

theorem composing_elapse (selected : Match) (s : Session) (gap : Nat)
    (h : s.Composing selected) (hgap : gap < 1000) :
    (s.handleTyping.elapse gap).Composing selected ∧
      (s.handleTyping.elapse gap).socketService = s.handleTyping.socketService := by
  have hk := composing_handleTyping selected s h
  have heq := handleTyping_of_composing selected s h
  have hidle : elapse gap s.handleTyping = { s.handleTyping with now := s.handleTyping.now + gap } := by
    apply elapse_idle
    intro t ht
    rw [heq] at ht ⊢
    simp only [List.mem_singleton] at ht
    rw [ht]
    simp only
    omega
  rw [hidle]
  refine ⟨?_, rfl⟩
  obtain ⟨hsel, hready, hpos, htimers⟩ := hk
  refine ⟨hsel, hready, hpos, ?_⟩
  rcases htimers with hnil | ⟨t, ht, href, hid, hp, hcb, hdue⟩
  · rw [heq] at hnil
    simp at hnil
  · refine Or.inr ⟨t, ht, href, hid, hp, hcb, ?_⟩
    have : t.due = s.now + 1000 := by
      rw [heq] at ht
      simp only [List.cons.injEq, and_true] at ht
      rw [← ht]
    rw [heq]
    simp only
    omega

end Session

namespace Session

theorem typeBurst_spec (selected : Match) (gaps : List Nat) :
    ∀ s : Session, s.Composing selected → (∀ g ∈ gaps, g < 1000) →
      (typeBurst gaps s).Composing selected ∧
      (typeBurst gaps s).timers =
        [{ id := (typeBurst gaps s).nextTimerId - 1, due := (typeBurst gaps s).now + 1000,
           period := none, callback := Callback.stopTyping selected._id }] ∧
      (typeBurst gaps s).socketService.emissions =
        s.socketService.emissions ++
          List.replicate (gaps.length + 1) (Emission.typing_start selected._id) := by
  induction gaps with
  | nil =>
    intro s h _
    refine ⟨composing_handleTyping selected s h, ?_, ?_⟩
    · simp only [typeBurst]
      rw [handleTyping_of_composing selected s h]
      simp
    · simp only [typeBurst]
      rw [handleTyping_of_composing selected s h]
      simpa using (h.2.1.startTyping selected._id).1
  | cons gap gaps ih =>
    intro s h hg
    obtain ⟨hc, hsvc⟩ := composing_elapse selected s gap h (hg gap (List.mem_cons_self _ _))
    obtain ⟨i1, i2, i3⟩ := ih (s.handleTyping.elapse gap) hc
      (fun g hg' => hg g (List.mem_cons_of_mem _ hg'))
    refine ⟨i1, i2, ?_⟩
    simp only [typeBurst]
    rw [i3, hsvc, handleTyping_of_composing selected s h]
    simp only
    rw [(h.2.1.startTyping selected._id).1, List.length_cons, List.replicate_succ (n := gaps.length + 1)]
    simp

theorem typeBurst_then_elapse (selected : Match) (gaps : List Nat) (s : Session) (d : Nat)
    (h : s.Composing selected) (hg : ∀ g ∈ gaps, g < 1000) :
    ((typeBurst gaps s).elapse d).socketService.emissions =
      if d < 1000 then (typeBurst gaps s).socketService.emissions
      else (typeBurst gaps s).socketService.emissions ++ [Emission.typing_stop selected._id] := by
  obtain ⟨hc, ht, _⟩ := typeBurst_spec selected gaps s h hg
  rw [elapse_stop_timer (typeBurst gaps s) _ selected._id d ht rfl rfl (by simp)]
  by_cases hd : d < 1000
  · simp [hd]
  · simp only [hd, if_false]
    have : ¬ ((typeBurst gaps s).now + d < (typeBurst gaps s).now + 1000) := by omega
    simp only [this, if_false]
    exact (hc.2.1.stopTyping selected._id).1

theorem composing_chatSession : chatSession.Composing c123 :=
  ⟨rfl, ⟨rfl, rfl⟩, by decide, Or.inl rfl⟩

end Session

namespace Session

/-- What opening a conversation does while the service reports no connection. -/
theorem openConversation_disconnected (s : Session) (clicked : Match)
    (hconn : s.socketService.isConnected = false) (htimers : s.timers = []) :
    ∃ o : Session, s.openConversation clicked = o.polling clicked._id s.nextTimerId s.now 0 ∧
      o.socketService = s.socketService ∧ o.toasts = s.toasts ∧
      o.reverseTies = s.reverseTies := by
  refine ⟨s.openConversation clicked, ?_, ?_, ?_, ?_⟩
  · unfold openConversation joinOrPoll fetchMessages setInterval setTimeout polling
    by_cases hl : s.lastFetchedMatch = some clicked._id <;>
      simp [hl, hconn, SocketService.getConnectionStatus, htimers]
  all_goals
    unfold openConversation joinOrPoll fetchMessages setInterval setTimeout
    by_cases hl : s.lastFetchedMatch = some clicked._id <;>
      simp [hl, hconn, SocketService.getConnectionStatus]

theorem selectConversation_disconnected (s : Session) (clicked : Match)
    (hconn : s.socketService.isConnected = false) :
    s.selectConversation clicked = s.openConversation clicked := by
  have hleave : ∀ id, s.socketService.leaveMatch id = s.socketService := by
    intro id
    simp [SocketService.leaveMatch, SocketService.emitWhenReady_of_disconnected hconn]
  unfold selectConversation
  split
  · split
    · simp only [hleave]
    · rfl
  · rfl

theorem fireDue_nil (s : Session)
    (h : s.timers.filter (fun t => decide (t.due ≤ s.now)) = []) : fireDue s = s := by
  simp [fireDue, h]

theorem fireDue_single (s : Session) (t : Timer)
    (h : s.timers.filter (fun t => decide (t.due ≤ s.now)) = [t]) : fireDue s = fire t s := by
  have hmem : t ∈ s.timers := by
    have : t ∈ s.timers.filter (fun t => decide (t.due ≤ s.now)) := by rw [h]; simp
    exact (List.mem_filter.mp this).1
  have hex : ∃ x ∈ s.timers, x.id = t.id := ⟨t, hmem, rfl⟩
  simp [fireDue, h, hex]

theorem fireDue_pair (s : Session) (t u : Timer)
    (h : s.timers.filter (fun t => decide (t.due ≤ s.now)) = [t, u]) :
    fireDue s =
      if s.reverseTies then
        (if (fire u s).timers.any (fun v => v.id == t.id) then fire t (fire u s) else fire u s)
      else
        (if (fire t s).timers.any (fun v => v.id == u.id) then fire u (fire t s) else fire t s) := by
  have hmem : ∀ x, x ∈ [t, u] → ∃ v ∈ s.timers, v.id = x.id := by
    intro x hx
    have : x ∈ s.timers.filter (fun t => decide (t.due ≤ s.now)) := by rw [h]; exact hx
    exact ⟨x, (List.mem_filter.mp this).1, rfl⟩
  have ht := hmem t (by simp)
  have hu := hmem u (by simp)
  cases hr : s.reverseTies <;> simp [fireDue, h, hr, ht, hu]

/-- While the service reports no connection and the cut-off is not reached, a tick of the poll
changes nothing but the time of the next tick. -/
theorem elapse_polling (o : Session) (matchId : String) (interval start : Nat)
    (hconn : o.socketService.isConnected = false) :
    ∀ d, d < 5000 →
      elapse d (o.polling matchId interval start 0) = o.polling matchId interval start d := by
  intro d
  induction d with
  | zero => intro _; rfl
  | succ d ih =>
    intro hd
    rw [elapse_succ, ih (by omega)]
    have hcut : ¬ (start + 5000 ≤ start + d + 1) := by omega
    by_cases hmod : (d + 1) % 100 = 0
    · have hdue : start + 100 * (d / 100 + 1) ≤ start + d + 1 := by omega
      have hnext : start + d + 1 + 100 = start + 100 * ((d + 1) / 100 + 1) := by omega
      unfold tick
      rw [fireDue_single _
        { id := interval, due := start + 100 * (d / 100 + 1), period := some 100,
          callback := Callback.pollJoin matchId interval }
        (by simp [polling, List.filter_cons, hdue, hcut])]
      simp [fire, runCallback, polling, SocketService.getConnectionStatus, hconn, hnext]
      omega
    · have hdue : ¬ (start + 100 * (d / 100 + 1) ≤ start + d + 1) := by omega
      have hnext : d / 100 = (d + 1) / 100 := by omega
      unfold tick
      rw [fireDue_nil _ (by simp [polling, List.filter_cons, hdue, hcut])]
      simp [polling, hnext, Nat.add_assoc]

end Session
namespace Session

/-- A pending cut-off of a join poll that is alone: until it is due nothing happens, then it only
leaves the pending timers. -/
theorem elapse_cutoff_timer (s : Session) (t : Timer) (interval d : Nat)
    (ht : s.timers = [t]) (hp : t.period = none)
    (hcb : t.callback = Callback.stopPolling interval) (hdue : s.now < t.due) :
    elapse d s =
      if s.now + d < t.due then { s with now := s.now + d }
      else { s with now := s.now + d, timers := [] } := by
  split
  · rename_i hlt
    exact elapse_idle d s (by intro u hu; rw [ht] at hu; simp at hu; rw [hu]; exact hlt)
  · rename_i hge
    obtain ⟨g, hg⟩ : ∃ g, t.due = s.now + g + 1 := ⟨t.due - s.now - 1, by omega⟩
    obtain ⟨r, hr⟩ : ∃ r, d = (g + 1) + r := ⟨d - (g + 1), by omega⟩
    rw [hr, elapse_add, elapse_fire_single s t g ht hp hg, hcb]
    simp only [runCallback, clearTimer, List.filter_nil]
    rw [elapse_no_timers r _ rfl]
    simp only [Nat.add_assoc]

/-- The millisecond in which the 50th tick of the poll and the cut-off are both due: a join is
emitted only if the service reports a connection and the tick comes first; in every case no
timer is left. -/
theorem tick_cutoff (o : Session) (matchId : String) (interval start : Nat) :
    tick (o.polling matchId interval start 4999) =
      if o.socketService.getConnectionStatus = true ∧ o.reverseTies = false then
        { o with
          now := start + 5000, timers := []
          socketService := o.socketService.joinMatch matchId }
      else { o with now := start + 5000, timers := [] } := by
  unfold tick
  rw [fireDue_pair _
    { id := interval, due := start + 100 * (4999 / 100 + 1), period := some 100,
      callback := Callback.pollJoin matchId interval }
    { id := interval + 1, due := start + 5000, period := none,
      callback := Callback.stopPolling interval }
    (by simp [polling, List.filter_cons])]
  cases hr : o.reverseTies <;> cases hc : o.socketService.isConnected <;>
    simp [polling, fire, runCallback, clearTimer, SocketService.getConnectionStatus, hr, hc,
      List.filter_cons]

/-- The first tick of the poll after the service became ready, when it comes before the cut-off:
`join_match` is emitted and the poll ends; the cut-off stays pending. -/
theorem elapse_polling_ready (o : Session) (matchId : String) (interval start t : Nat)
    (hconn : o.socketService.getConnectionStatus = true) (ht : t < 4900) :
    elapse (100 * (t / 100 + 1) - t) (o.polling matchId interval start t) =
      { o with
        now := start + 100 * (t / 100 + 1)
        socketService := o.socketService.joinMatch matchId
        timers := [{ id := interval + 1, due := start + 5000, period := none,
                     callback := Callback.stopPolling interval }] } := by
  obtain ⟨g, hg⟩ : ∃ g, 100 * (t / 100 + 1) - t = g + 1 :=
    ⟨100 * (t / 100 + 1) - t - 1, by omega⟩
  rw [hg, elapse_succ, elapse_idle g _ (by
    intro u hu
    simp only [polling, List.mem_cons, List.mem_singleton, List.not_mem_nil, or_false] at hu ⊢
    rcases hu with hu | hu <;> rw [hu] <;> simp only <;> omega)]
  have hdue : start + 100 * (t / 100 + 1) ≤ start + t + g + 1 := by omega
  have hcut : ¬ (start + 5000 ≤ start + t + g + 1) := by omega
  have hnow : start + t + g + 1 = start + 100 * (t / 100 + 1) := by omega
  unfold tick
  rw [fireDue_single _
    { id := interval, due := start + 100 * (t / 100 + 1), period := some 100,
      callback := Callback.pollJoin matchId interval }
    (by simp [polling, List.filter_cons, hdue, hcut])]
  simp [fire, runCallback, polling, clearTimer, hconn, List.filter_cons, hnow]

end Session

namespace Session

/-- A poll that never sees a connection: nothing but the clock and the timers changes, and after
the cut-off no timer is left. -/
theorem elapse_polling_never (o : Session) (matchId : String) (interval start d : Nat)
    (hconn : o.socketService.isConnected = false) :
    ∃ timers, elapse d (o.polling matchId interval start 0) =
        { o with now := start + d, timers := timers } ∧ (5000 ≤ d → timers = []) := by
  by_cases hd : d < 5000
  · exact ⟨_, elapse_polling o matchId interval start hconn d hd, fun h => absurd h (by omega)⟩
  · obtain ⟨r, hr⟩ : ∃ r, d = (4999 + 1) + r := ⟨d - 5000, by omega⟩
    refine ⟨[], ?_, fun _ => rfl⟩
    rw [hr, elapse_add, elapse_succ, elapse_polling o matchId interval start hconn 4999 (by omega),
      tick_cutoff]
    simp only [SocketService.getConnectionStatus, hconn, Bool.false_eq_true, false_and, if_false]
    rw [elapse_no_timers r _ rfl]
    have h5 : 4999 + (1 + r) = 5000 + r := by omega
    simp only [Nat.add_assoc, h5]

theorem polling_socketConnected (o : Session) (matchId : String) (interval start d : Nat) :
    (o.polling matchId interval start d).socketConnected =
      o.socketConnected.polling matchId interval start d := rfl

/-- The service becomes ready `t` ms after the poll started, early enough for a tick before the
cut-off: from the next tick on, `join_match` has been emitted exactly once. -/
theorem elapse_polling_connect_early (o : Session) (matchId : String) (interval start t d : Nat)
    (hconn : o.socketService.isConnected = false) (ht : t < 4900) (hd : 100 ≤ d) :
    (((o.polling matchId interval start 0).elapse t).socketConnected.elapse d).socketService =
      o.socketConnected.socketService.joinMatch matchId := by
  rw [elapse_polling o matchId interval start hconn t (by omega), polling_socketConnected]
  obtain ⟨r, hr⟩ : ∃ r, d = (100 * (t / 100 + 1) - t) + r :=
    ⟨d - (100 * (t / 100 + 1) - t), by omega⟩
  rw [hr, elapse_add, elapse_polling_ready o.socketConnected matchId interval start t rfl ht]
  rw [elapse_cutoff_timer _ _ interval r rfl rfl rfl (by simp only; omega)]
  split <;> rfl

/-- The service becomes ready only after the cut-off: no `join_match` is emitted any more. -/
theorem elapse_polling_connect_late (o : Session) (matchId : String) (interval start t d : Nat)
    (hconn : o.socketService.isConnected = false) (ht : 5000 ≤ t) :
    ((o.polling matchId interval start 0).elapse t).socketConnected.elapse d =
      { o.socketConnected with now := start + t + d, timers := [] } := by
  obtain ⟨timers, h1, h2⟩ := elapse_polling_never o matchId interval start t hconn
  rw [h1, h2 ht]
  exact elapse_no_timers d _ rfl

/-- The service becomes ready in the last 100 ms before the cut-off: whether `join_match` is
emitted depends on whether the last tick or the cut-off comes first. -/
theorem elapse_polling_connect_edge (o : Session) (matchId : String) (interval start t d : Nat)
    (hconn : o.socketService.isConnected = false) (ht : 4900 ≤ t) (ht' : t < 5000)
    (hd : 100 ≤ d) :
    (((o.polling matchId interval start 0).elapse t).socketConnected.elapse d).socketService =
      if o.reverseTies = false then o.socketConnected.socketService.joinMatch matchId
      else o.socketConnected.socketService := by
  rw [elapse_polling o matchId interval start hconn t ht', polling_socketConnected]
  obtain ⟨g, hg⟩ : ∃ g, t + g = 4999 := ⟨4999 - t, by omega⟩
  obtain ⟨r, hr⟩ : ∃ r, d = (g + 1) + r := ⟨d - (g + 1), by omega⟩
  have hidle : elapse g (o.socketConnected.polling matchId interval start t) =
      o.socketConnected.polling matchId interval start 4999 := by
    rw [elapse_idle g _ (by
      intro u hu
      simp only [polling, List.mem_cons, List.mem_singleton, List.not_mem_nil, or_false] at hu ⊢
      rcases hu with hu | hu <;> rw [hu] <;> simp only <;> omega)]
    have h1 : t / 100 = 49 := by omega
    simp [polling, h1, hg, Nat.add_assoc]
  rw [hr, elapse_add, elapse_succ, hidle, tick_cutoff]
  cases hrev : o.reverseTies
  · have : (o.socketConnected.socketService.getConnectionStatus = true ∧
        o.socketConnected.reverseTies = false) := ⟨rfl, hrev⟩
    rw [if_pos this, elapse_no_timers r _ rfl]
    simp
  · have : ¬ (o.socketConnected.socketService.getConnectionStatus = true ∧
        o.socketConnected.reverseTies = false) := by
      intro h
      have := h.2
      simp only [socketConnected] at this
      rw [hrev] at this
      exact Bool.noConfusion this
    rw [if_neg this, elapse_no_timers r _ rfl]
    simp

theorem emissions_joinMatch_of_connected (svc : SocketService) (sock : Socket)
    (matchId : String) (hsock : svc.socket = some sock) :
    (({ svc with isConnected := true } : SocketService).joinMatch matchId).emissions =
      sock.emitted ++ [Emission.join_match matchId] := by
  have hready : ({ svc with isConnected := true } : SocketService).Ready :=
    ⟨rfl, by simp [hsock]⟩
  rw [(hready.joinMatch matchId).1]
  simp [SocketService.emissions, hsock]

end Session

/-! ## Claims on conversations, typing, timers and sessions -/

/-- C11 (failing run): on the connected page conversation `C123` is opened and its history
arrives, `C456` is opened and its history arrives, and `C123` is opened again.  The ref
`lastFetchedMatch` holds `C456` by then, so a second history request for `C123` is issued
although its history was fetched before, and the timeline shows the history of `C456`, not the
messages shown after the first load of `C123`. -/
theorem reopen_fetches_history_again :
    (((((onlineSession.selectConversation c123).resolveFetch
        { matchId := "C123", shouldOverwrite := true } [helloConfirmed]).selectConversation
        c456).resolveFetch { matchId := "C456", shouldOverwrite := true }
        [laterConfirmed]).selectConversation c123).fetchLog = ["C123", "C456", "C123"] ∧
    ((onlineSession.selectConversation c123).resolveFetch
        { matchId := "C123", shouldOverwrite := true } [helloConfirmed]).messages =
      [helloConfirmed] ∧
    (((((onlineSession.selectConversation c123).resolveFetch
        { matchId := "C123", shouldOverwrite := true } [helloConfirmed]).selectConversation
        c456).resolveFetch { matchId := "C456", shouldOverwrite := true }
        [laterConfirmed]).selectConversation c123).messages = [laterConfirmed] := by
  decide

/-- C12 (as stated, refuted): `C123` is opened, then `C456` before the history of `C123` has
arrived.  The history of `C456` arrives, then that of `C123`, and the timeline shows the
messages of `C123` while `C456` is the open conversation. -/
theorem stale_history_counterexample :
    ((((onlineSession.selectConversation c123).selectConversation c456).resolveFetch
        { matchId := "C456", shouldOverwrite := true } [laterConfirmed]).resolveFetch
        { matchId := "C123", shouldOverwrite := true } [helloConfirmed]).selectedMatch =
      some c456 ∧
    ((((onlineSession.selectConversation c123).selectConversation c456).resolveFetch
        { matchId := "C456", shouldOverwrite := true } [laterConfirmed]).resolveFetch
        { matchId := "C123", shouldOverwrite := true } [helloConfirmed]).messages =
      [helloConfirmed] := by
  decide

/-- C12 (amended): when a history request issued on opening a conversation is answered, the
timeline is replaced by the messages of the answer, whichever conversation is open at that time;
the open conversation is not consulted and stays as it is. -/
theorem history_answer_overwrites (s : Session) (req : FetchRequest) (fetched : List Message)
    (hreq : req ∈ s.inFlight) (hover : req.shouldOverwrite = true) :
    (s.resolveFetch req fetched).messages = fetched ∧
      (s.resolveFetch req fetched).selectedMatch = s.selectedMatch ∧
      (s.resolveFetch req fetched).inFlight = s.inFlight.erase req := by
  simp [Session.resolveFetch, hreq, hover]

/-- C12 (amended), on the example of the counterexample. -/
theorem history_answer_overwrites_witness :
    ({ matchId := "C123", shouldOverwrite := true } : FetchRequest) ∈
      (((onlineSession.selectConversation c123).selectConversation c456).resolveFetch
        { matchId := "C456", shouldOverwrite := true } [laterConfirmed]).inFlight ∧
    ((((onlineSession.selectConversation c123).selectConversation c456).resolveFetch
        { matchId := "C456", shouldOverwrite := true } [laterConfirmed]).resolveFetch
        { matchId := "C123", shouldOverwrite := true } [helloConfirmed]).messages =
      [helloConfirmed] :=
  ⟨by decide,
    (history_answer_overwrites _ { matchId := "C123", shouldOverwrite := true }
      [helloConfirmed] (by decide) rfl).1⟩

/-- C13: a `user_typing` event of the local user, or of a conversation that is not the open one,
leaves the whole state as it is: the typing state, the timer ref and the pending timers. -/
theorem typing_event_ignored (data : UserTypingData) (s : Session)
    (hignore : data.userId = s.user.id ∨
      some data.matchId ≠ s.selectedMatch.map (fun m => m._id)) :
    s.handleUserTyping data = s ∧ (s.handleUserTyping data).typing = s.typing ∧
      (s.handleUserTyping data).timers = s.timers ∧
      (s.handleUserTyping data).typingTimeoutRef = s.typingTimeoutRef := by
  have h : s.handleUserTyping data = s := by
    unfold Session.handleUserTyping
    rcases hignore with h | h
    · simp [h]
    · simp [h]
  simp [h]

/-- C13, on an example: the echo of the local user's own typing arrives while Bob is shown as
typing. -/
theorem typing_event_ignored_witness :
    (ownTyping.userId = typingShown.user.id ∨
      some ownTyping.matchId ≠ typingShown.selectedMatch.map (fun m => m._id)) ∧
    typingShown.handleUserTyping ownTyping = typingShown :=
  ⟨Or.inl rfl, (typing_event_ignored ownTyping typingShown (Or.inl rfl)).1⟩

/-- C14 (the code at the failing input): Bob's typing event is handled, and left alone the
typing state is cleared 3 seconds later.  With one local keystroke a second after the event,
the typing state still shows Bob 3 seconds after the event and at every later time: the
keystroke cleared the expiry timer, which it found in `typingTimeoutRef`. -/
theorem keystroke_cancels_typing_expiry :
    chatSession.handleUserTyping bobTyping = typingShown ∧
    (typingShown.elapse 3000).typing = none ∧
    (typingShown.elapse 1000).handleTyping = typingStuck ∧
    (typingStuck.elapse 2000).typing = some "Bob" ∧
    ∀ d, (typingStuck.elapse d).typing = some "Bob" := by
  have hshown : ∀ d, typingShown.elapse d =
      if typingShown.now + d < 3000 then { typingShown with now := typingShown.now + d }
      else { typingShown with now := typingShown.now + d, timers := [], typing := none } :=
    fun d => Session.elapse_expiry_timer typingShown _ d rfl rfl rfl (by decide)
  have hstuck : ∀ d, (typingStuck.elapse d).typing = some "Bob" := by
    intro d
    rw [Session.elapse_stop_timer typingStuck _ "C123" d rfl rfl rfl (by decide)]
    split <;> rfl
  refine ⟨by decide, ?_, ?_, hstuck 2000, hstuck⟩
  · rw [hshown 3000]
    rfl
  · rw [hshown 1000]
    decide

/-- C15 (as stated, refuted): three keystrokes 200 ms apart put three `typing_start` events on
the transport, one per keystroke. -/
theorem typing_start_per_keystroke_counterexample :
    (∀ g ∈ [200, 200], g < 1000) ∧
    (chatSession.typeBurst [200, 200]).socketService.emissions =
      [Emission.typing_start "C123", Emission.typing_start "C123",
        Emission.typing_start "C123"] :=
  ⟨by decide,
    (Session.typeBurst_spec c123 [200, 200] chatSession Session.composing_chatSession
      (by decide)).2.2⟩

/-- C15 (amended): let a burst of keystrokes, each less than a second after the previous one,
start in an open conversation on a ready service with no timer pending, and let nothing but the
keystrokes and the passing of time happen from its first keystroke on (no message is submitted,
no typing event of the other participant is handled, the connection stays up).  Then after the
burst exactly one timer is pending, the stop timer of the last keystroke, due a second after
it; every keystroke emitted one `typing_start`; and `typing_stop` is emitted once, a second
after the last keystroke and not before. -/
theorem typing_stop_debounced (s : Session) (selected : Match) (gaps : List Nat) (d : Nat)
    (hsel : s.selectedMatch = some selected) (hready : s.socketService.Ready)
    (hid : 0 < s.nextTimerId) (htimers : s.timers = [])
    (hgaps : ∀ g ∈ gaps, g < 1000) :
    (s.typeBurst gaps).timers =
        [{ id := (s.typeBurst gaps).nextTimerId - 1, due := (s.typeBurst gaps).now + 1000,
           period := none, callback := Callback.stopTyping selected._id }] ∧
      (s.typeBurst gaps).socketService.emissions =
        s.socketService.emissions ++
          List.replicate (gaps.length + 1) (Emission.typing_start selected._id) ∧
      (d < 1000 → ((s.typeBurst gaps).elapse d).socketService.emissions =
        (s.typeBurst gaps).socketService.emissions) ∧
      (1000 ≤ d → ((s.typeBurst gaps).elapse d).socketService.emissions =
        (s.typeBurst gaps).socketService.emissions ++
          [Emission.typing_stop selected._id]) := by
  have hc : s.Composing selected := ⟨hsel, hready, hid, Or.inl htimers⟩
  obtain ⟨_, h2, h3⟩ := Session.typeBurst_spec selected gaps s hc hgaps
  have h4 := Session.typeBurst_then_elapse selected gaps s d hc hgaps
  refine ⟨h2, h3, ?_, ?_⟩
  · intro hd
    rw [h4, if_pos hd]
  · intro hd
    rw [h4, if_neg (by omega)]

/-- C15 (amended), on an example: three keystrokes 200 ms apart, then 1.5 seconds of silence. -/
theorem typing_stop_debounced_witness :
    chatSession.selectedMatch = some c123 ∧ chatSession.socketService.Ready ∧
    (∀ g ∈ [200, 200], g < 1000) ∧
    ((chatSession.typeBurst [200, 200]).elapse 1500).socketService.emissions =
      (chatSession.typeBurst [200, 200]).socketService.emissions ++
        [Emission.typing_stop "C123"] :=
  ⟨rfl, ⟨rfl, rfl⟩, by decide,
    (typing_stop_debounced chatSession c123 [200, 200] 1500 rfl ⟨rfl, rfl⟩ (by decide) rfl
      (by decide)).2.2.2 (by decide)⟩

/-- C16: in every state the service can reach in which it holds a socket, `connect(token)` first
calls `disconnect()` on that socket and only then creates the new one; afterwards the new
socket, created with the new token, is the socket of the service and the only socket that is not
closed, and the prior socket is among the closed ones. -/
theorem connect_replaces_session (m : ConnectionManager) (old : ClientSocket) (token : String)
    (hm : m.Reachable) (hold : m.socket = some old) :
    (m.connect token).calls =
        m.calls ++ [LibraryCall.closeSocket old.token, LibraryCall.createSocket token] ∧
      (m.connect token).socket = some (ConnectionManager.newSocket token) ∧
      (ConnectionManager.newSocket token).token = token ∧
      (m.connect token).liveSessions = [ConnectionManager.newSocket token] ∧
      { old with connected := false, destroyed := true } ∈ (m.connect token).released := by
  obtain ⟨hrel, _, _⟩ := ConnectionManager.consistent_of_reachable hm
  obtain ⟨f1, f2, f3, f4⟩ := ConnectionManager.closeSocket_frame old m
  have hreleased : (m.connect token).released = m.released ++
      [{ old with connected := false, destroyed := true }] := by
    simp only [ConnectionManager.connect, hold, f2, f4]
  refine ⟨?_, ?_, rfl, ?_, ?_⟩
  · simp only [ConnectionManager.connect, hold, f3, List.append_assoc, List.singleton_append]
  · simp only [ConnectionManager.connect, hold]
  · have hsock : (m.connect token).socket = some (ConnectionManager.newSocket token) := by
      simp only [ConnectionManager.connect, hold]
    unfold ConnectionManager.liveSessions
    rw [hreleased, hsock, List.filter_append, List.filter_append]
    have hnone : m.released.filter (fun sock => !sock.destroyed) = [] := by
      rw [List.filter_eq_nil_iff]
      intro r hr
      simp [hrel r hr]
    rw [hnone]
    simp [ConnectionManager.newSocket]
  · rw [hreleased]
    simp

/-- C16, on an example: the connected service of the examples is connected again with another
token. -/
theorem connect_replaces_session_witness :
    connectedManager.Reachable ∧
    (∃ old, connectedManager.socket = some old) ∧
    (connectedManager.connect "token-2").calls =
      [LibraryCall.createSocket "token-1", LibraryCall.closeSocket "token-1",
        LibraryCall.createSocket "token-2"] ∧
    (connectedManager.connect "token-2").liveSessions =
      [ConnectionManager.newSocket "token-2"] :=
  have hreach : connectedManager.Reachable := ⟨_, rfl⟩
  have hsock : connectedManager.socket = some
      { token := "token-1", connected := true, destroyed := false,
        listeners := (ConnectionManager.newSocket "token-1").listeners ++
          [("new_notification", .callback "logNotification"),
            ("new_message", .callback "handleNewMessage")],
        emitted := [] } := by decide
  have h := connect_replaces_session connectedManager _ "token-2" hreach hsock
  ⟨hreach, ⟨_, hsock⟩, by decide, h.2.2.2.1⟩

/-- C17: after `connect(token)`, whatever registrations, emissions and socket events follow as
long as no listener is removed and the socket is not replaced, `getConnectionStatus()` is `true`
right after a `connect` event of the socket and `false` right after a `connect_error` or a
`disconnect` event; so it is `false` after an attempt that fails. -/
theorem status_follows_socket_events (m : ConnectionManager) (token : String)
    (events : List ManagerEvent) (last : ManagerEvent)
    (hevents : ∀ e ∈ events, e.keepsListeners = true)
    (hlast : last.isStatusEvent = true) :
    ((((m.connect token).run events).step last).getConnectionStatus =
        decide (last = ManagerEvent.socketConnects)) ∧
      ((m.connect token).step ManagerEvent.socketConnectError).getConnectionStatus = false := by
  have hw := ConnectionManager.wired_run events _ (ConnectionManager.wired_connect token m) hevents
  obtain ⟨h1, h2, h3⟩ := ConnectionManager.wired_status _ hw
  obtain ⟨_, g2, _⟩ := ConnectionManager.wired_status _ (ConnectionManager.wired_connect token m)
  refine ⟨?_, g2⟩
  cases last <;> simp [ManagerEvent.isStatusEvent] at hlast
  · simpa [ConnectionManager.getConnectionStatus] using h1
  · simpa [ConnectionManager.getConnectionStatus] using h2
  · simpa [ConnectionManager.getConnectionStatus] using h3

/-- C17, on an example: a first attempt fails, a listener is registered, and the second attempt
succeeds. -/
theorem status_follows_socket_events_witness :
    (∀ e ∈ [ManagerEvent.socketConnectError, ManagerEvent.register "new_message" "handler"],
      e.keepsListeners = true) ∧
    ManagerEvent.socketConnects.isStatusEvent = true ∧
    ((((ConnectionManager.initial.connect "token-1").run
      [ManagerEvent.socketConnectError, ManagerEvent.register "new_message" "handler"]).step
        ManagerEvent.socketConnects).getConnectionStatus = true) :=
  ⟨by decide, rfl,
    by simpa using (status_follows_socket_events ConnectionManager.initial "token-1"
      [ManagerEvent.socketConnectError, ManagerEvent.register "new_message" "handler"]
      ManagerEvent.socketConnects (by decide) rfl).1⟩

/-- C18: `disconnect()` changes nothing on a service that holds no socket, in particular on the
service as constructed; in every state the service can reach it leaves `socket` null and
`isConnected` false; and a second call changes nothing. -/
theorem disconnect_idempotent (m : ConnectionManager) (hm : m.Reachable) :
    ConnectionManager.initial.disconnect = ConnectionManager.initial ∧
      (m.socket = none → m.disconnect = m) ∧
      m.disconnect.socket = none ∧ m.disconnect.isConnected = false ∧
      m.disconnect.disconnect = m.disconnect := by
  obtain ⟨_, _, hconn⟩ := ConnectionManager.consistent_of_reachable hm
  refine ⟨rfl, ?_, ?_, ?_, ?_⟩
  · intro hs
    simp [ConnectionManager.disconnect, hs]
  · cases hs : m.socket <;> simp [ConnectionManager.disconnect, hs]
  · cases hs : m.socket with
    | none =>
      simp only [ConnectionManager.disconnect, hs]
      cases hc : m.isConnected with
      | false => rfl
      | true => have := hconn hc; simp [hs] at this
    | some old => simp [ConnectionManager.disconnect, hs]
  · cases hs : m.socket with
    | none => simp [ConnectionManager.disconnect, hs]
    | some old => simp [ConnectionManager.disconnect, hs]

/-- C18, on an example: the connected service of the examples is disconnected. -/
theorem disconnect_idempotent_witness :
    connectedManager.Reachable ∧ connectedManager.isConnected = true ∧
    connectedManager.disconnect.socket = none ∧
    connectedManager.disconnect.isConnected = false ∧
    connectedManager.disconnect.disconnect = connectedManager.disconnect :=
  have hreach : connectedManager.Reachable := ⟨_, rfl⟩
  have h := disconnect_idempotent connectedManager hreach
  ⟨hreach, by decide, h.2.2.1, h.2.2.2.1, h.2.2.2.2⟩

/-- C19 (as stated, refuted): two handlers are registered with `onNewMessage`; a `new_message`
event invokes both, the first one first. -/
theorem second_registration_counterexample :
    ((((ConnectionManager.initial.connect "token-1").socketConnects.onNewMessage
      "first").onNewMessage "second").receive "new_message").invoked =
      [("new_message", "first"), ("new_message", "second")] := by
  decide

/-- C19 (amended): a second registration through `onNewMessage`, `onUserTyping` or
`onNewNotification` adds a listener and keeps the first: an inbound event of the category
invokes the callbacks registered before, then the first and then the second handler.  Only
`removeListener` makes a handler the only one: after it and one registration the event invokes
that handler alone. -/
theorem registrations_accumulate (m : ConnectionManager) (sock : ClientSocket)
    (first second : String) (hs : m.socket = some sock) :
    (((m.onNewMessage first).onNewMessage second).receive "new_message").invoked =
        (m.receive "new_message").invoked ++
          [("new_message", first), ("new_message", second)] ∧
      (((m.onUserTyping first).onUserTyping second).receive "user_typing").invoked =
        (m.receive "user_typing").invoked ++
          [("user_typing", first), ("user_typing", second)] ∧
      (((m.onNewNotification first).onNewNotification second).receive
          "new_notification").invoked =
        (m.receive "new_notification").invoked ++
          [("new_notification", first), ("new_notification", second)] ∧
      (((m.removeListener "new_message").onNewMessage second).receive "new_message").invoked =
        m.invoked ++ [("new_message", second)] := by
  have key : ∀ event : String,
      (((m.register event first).register event second).receive event).invoked =
        (m.receive event).invoked ++ [(event, first), (event, second)] := by
    intro event
    rw [ConnectionManager.receive_invoked m sock event hs,
      ConnectionManager.receive_invoked _
        { sock with listeners := sock.listeners ++ [(event, .callback first)] ++
          [(event, .callback second)] } event (by simp [ConnectionManager.register, hs])]
    simp [ConnectionManager.register, hs, List.filter_append, List.filterMap_append]
  refine ⟨key _, key _, key _, ?_⟩
  rw [ConnectionManager.receive_invoked _
    { sock with listeners := sock.listeners.filter (fun l => l.1 != "new_message") ++
      [("new_message", .callback second)] } "new_message"
    (by simp [ConnectionManager.onNewMessage, ConnectionManager.register,
      ConnectionManager.removeListener, hs])]
  simp [ConnectionManager.onNewMessage, ConnectionManager.register,
    ConnectionManager.removeListener, hs, List.filter_append, List.filter_filter]

/-- C19 (amended), on an example: the connected service of the examples, which already has a
`new_message` handler, gets two more. -/
theorem registrations_accumulate_witness :
    (∃ sock, connectedManager.socket = some sock) ∧
    (((connectedManager.onNewMessage "first").onNewMessage "second").receive
      "new_message").invoked =
      [("new_message", "handleNewMessage"), ("new_message", "first"),
        ("new_message", "second")] :=
  have hsock : connectedManager.socket = some
      { token := "token-1", connected := true, destroyed := false,
        listeners := (ConnectionManager.newSocket "token-1").listeners ++
          [("new_notification", .callback "logNotification"),
            ("new_message", .callback "handleNewMessage")],
        emitted := [] } := by decide
  ⟨⟨_, hsock⟩,
    ((registrations_accumulate connectedManager _ "first" "second" hsock).1).trans
      (by decide)⟩

/-- C20 (as stated, refuted): a conversation is opened while the socket is still connecting and
the connection is established only 6 seconds later.  No `join_match` is emitted then or
afterwards, no timer is left, and no notice was shown: the attempt is given up silently. -/
theorem silent_join_abandon_counterexample :
    freshSession.socketService.getConnectionStatus = false ∧
    (((freshSession.selectConversation c123).elapse 6000).socketConnected.elapse
      1000).socketService.emissions = [] ∧
    (((freshSession.selectConversation c123).elapse 6000).socketConnected.elapse
      1000).toasts = [] ∧
    (((freshSession.selectConversation c123).elapse 6000).socketConnected.elapse
      1000).timers = [] := by
  obtain ⟨o, ho, hsvc, htoasts, _⟩ :=
    Session.openConversation_disconnected freshSession c123 rfl rfl
  have hconn : o.socketService.isConnected = false := by rw [hsvc]; rfl
  rw [Session.selectConversation_disconnected freshSession c123 rfl, ho,
    Session.elapse_polling_connect_late o _ _ _ 6000 1000 hconn (by decide)]
  refine ⟨rfl, ?_, ?_, rfl⟩
  · simp only [Session.socketConnected, hsvc]
    rfl
  · simp only [Session.socketConnected, htoasts]
    rfl

/-- C20 (amended): a conversation is opened, from the list or from the route, while the service
holds a socket, reports no connection and no timer is pending.  As long as no connection is
reported nothing is emitted and no notice is shown, and 5 seconds after the opening no timer is
left.  If the connection is established less than 4.9 seconds after the opening, then from
100 ms later on `join_match` for the conversation has been emitted exactly once.  If it is
established 5 seconds after the opening or later, no `join_match` is emitted for the attempt,
and nothing is shown.  If it is established in the 100 ms before, it depends on the order of the
last tick and the cut-off, both due 5 seconds after the opening, whether the join is emitted. -/
theorem join_poll_outcome (s : Session) (clicked : Match) (sock : Socket) (t d : Nat)
    (hsock : s.socketService.socket = some sock)
    (hconn : s.socketService.getConnectionStatus = false) (htimers : s.timers = []) :
    s.selectConversation clicked = s.openConversation clicked ∧
      ((s.openConversation clicked).elapse d).socketService = s.socketService ∧
      ((s.openConversation clicked).elapse d).toasts = s.toasts ∧
      (5000 ≤ d → ((s.openConversation clicked).elapse d).timers = []) ∧
      (t < 4900 → 100 ≤ d →
        (((s.openConversation clicked).elapse t).socketConnected.elapse d).socketService.emissions
          = sock.emitted ++ [Emission.join_match clicked._id]) ∧
      (5000 ≤ t →
        (((s.openConversation clicked).elapse t).socketConnected.elapse d).socketService.emissions
          = sock.emitted ∧
        (((s.openConversation clicked).elapse t).socketConnected.elapse d).toasts = s.toasts) ∧
      (4900 ≤ t → t < 5000 → 100 ≤ d →
        (((s.openConversation clicked).elapse t).socketConnected.elapse d).socketService.emissions
          = if s.reverseTies = false then sock.emitted ++ [Emission.join_match clicked._id]
            else sock.emitted) := by
  have hc : s.socketService.isConnected = false := hconn
  obtain ⟨o, ho, hsvc, htoasts, hrev⟩ :=
    Session.openConversation_disconnected s clicked hc htimers
  have hoc : o.socketService.isConnected = false := by rw [hsvc]; exact hc
  have hjoin : (o.socketConnected.socketService.joinMatch clicked._id).emissions =
      sock.emitted ++ [Emission.join_match clicked._id] := by
    simp only [Session.socketConnected, hsvc]
    exact Session.emissions_joinMatch_of_connected s.socketService sock clicked._id hsock
  have hplain : o.socketConnected.socketService.emissions = sock.emitted := by
    simp [Session.socketConnected, hsvc, SocketService.emissions, hsock]
  obtain ⟨timers, hnever, hgone⟩ :=
    Session.elapse_polling_never o clicked._id s.nextTimerId s.now d hoc
  refine ⟨Session.selectConversation_disconnected s clicked hc, ?_, ?_, ?_, ?_, ?_, ?_⟩
  · rw [ho, hnever]; exact hsvc
  · rw [ho, hnever]; exact htoasts
  · intro hd
    rw [ho, hnever]
    exact hgone hd
  · intro ht hd
    rw [ho, Session.elapse_polling_connect_early o _ _ _ t d hoc ht hd]
    exact hjoin
  · intro ht
    rw [ho, Session.elapse_polling_connect_late o _ _ _ t d hoc ht]
    exact ⟨hplain, htoasts⟩
  · intro ht ht' hd
    rw [ho, Session.elapse_polling_connect_edge o _ _ _ t d hoc ht ht' hd, hrev]
    split
    · exact hjoin
    · exact hplain

/-- C20 (amended), on an example: the conversation is opened on the page whose socket is still
connecting, and the connection is established 2 seconds later. -/
theorem join_poll_outcome_witness :
    freshSession.socketService.socket = some freshSocket ∧
    freshSession.socketService.getConnectionStatus = false ∧ freshSession.timers = [] ∧
    (((freshSession.selectConversation c123).elapse 2000).socketConnected.elapse
      3000).socketService.emissions = [Emission.join_match "C123"] :=
  have h := join_poll_outcome freshSession c123 freshSocket 2000 3000 rfl rfl rfl
  ⟨rfl, rfl, rfl, by rw [h.1]; exact h.2.2.2.2.1 (by decide) (by decide)⟩

/-! ## Lemmas on temporary ids -/

theorem digitChar_value (k : Nat) (hk : k < 10) : (Nat.digitChar k).toNat - 48 = k := by
  interval_cases k <;> decide

theorem toDigitsCore_value : ∀ (fuel n : Nat) (ds : List Char), n < fuel →
    (Nat.toDigitsCore 10 fuel n ds).foldl (fun acc c => acc * 10 + (c.toNat - 48)) 0 =
      ds.foldl (fun acc c => acc * 10 + (c.toNat - 48)) n := by
  intro fuel
  induction fuel with
  | zero => intro n ds h; omega
  | succ fuel ih =>
    intro n ds h
    simp only [Nat.toDigitsCore]
    split
    · rename_i h0
      simp only [List.foldl_cons, Nat.zero_mul, Nat.zero_add]
      rw [digitChar_value _ (Nat.mod_lt _ (by decide))]
      congr 1
      omega
    · rename_i h0
      rw [ih (n / 10) _ (by omega)]
      simp only [List.foldl_cons]
      rw [digitChar_value _ (Nat.mod_lt _ (by decide))]
      congr 1
      omega

theorem repr_value (n : Nat) :
    (Nat.repr n).data.foldl (fun acc c => acc * 10 + (c.toNat - 48)) 0 = n := by
  simp only [Nat.repr, Nat.toDigits, List.asString]
  rw [toDigitsCore_value _ _ _ (Nat.lt_succ_self n)]
  rfl

theorem repr_injective (a b : Nat) (h : Nat.repr a = Nat.repr b) : a = b := by
  rw [← repr_value a, ← repr_value b, h]

theorem toString_int_injective (a b : Int) (h : toString a = toString b) : a = b := by
  cases a with
  | ofNat a =>
    cases b with
    | ofNat b =>
      have : Nat.repr a = Nat.repr b := h
      rw [repr_injective a b this]
    | negSucc b =>
      exfalso
      have h1 : Nat.repr a = "-" ++ Nat.repr (b + 1) := h
      have hv := congrArg (fun s : String =>
        s.data.foldl (fun acc c => acc * 10 + (c.toNat - 48)) 0) h1
      simp only [String.data_append, List.foldl_append] at hv
      rw [repr_value] at hv
      have hdash : ("-" : String).data.foldl (fun acc c => acc * 10 + (c.toNat - 48)) 0 = 0 := by
        decide
      rw [hdash, repr_value] at hv
      rw [hv] at h1
      have hl := congrArg String.length h1
      simp [String.length_append] at hl
      exact absurd hl (by decide)
  | negSucc a =>
    cases b with
    | ofNat b =>
      exfalso
      have h1 : "-" ++ Nat.repr (a + 1) = Nat.repr b := h
      have hv := congrArg (fun s : String =>
        s.data.foldl (fun acc c => acc * 10 + (c.toNat - 48)) 0) h1
      simp only [String.data_append, List.foldl_append] at hv
      have hdash : ("-" : String).data.foldl (fun acc c => acc * 10 + (c.toNat - 48)) 0 = 0 := by
        decide
      rw [hdash, repr_value, repr_value] at hv
      rw [← hv] at h1
      have hl := congrArg String.length h1
      simp [String.length_append] at hl
      exact absurd hl (by decide)
    | negSucc b =>
      have h1 : "-" ++ Nat.repr (a + 1) = "-" ++ Nat.repr (b + 1) := h
      have h2 : Nat.repr (a + 1) = Nat.repr (b + 1) := by
        have := congrArg String.data h1
        simp only [String.data_append, List.append_cancel_left_eq] at this
        exact String.ext this
      have h3 : a = b := by
        have := repr_injective _ _ h2
        omega
      rw [h3]

theorem temp_id_injective (a b : Int) (h : "temp_" ++ toString a = "temp_" ++ toString b) :
    a = b := by
  apply toString_int_injective
  have := congrArg String.data h
  simp only [String.data_append, List.append_cancel_left_eq] at this
  exact String.ext this
/-! ## Lemmas on `findIndex` -/

theorem findIndex_eq_none {α : Type} (p : α → Bool) (l : List α) :
    findIndex p l = none ↔ ∀ x ∈ l, p x = false := by
  induction l with
  | nil => simp [findIndex]
  | cons a l ih =>
    cases hp : p a
    · simp [findIndex, hp, ih]
    · simp [findIndex, hp]

theorem findIndex_of_split {α : Type} (p : α → Bool) (pre : List α) (c : α) (post : List α)
    (hpre : ∀ x ∈ pre, p x = false) (hc : p c = true) :
    findIndex p (pre ++ c :: post) = some pre.length := by
  induction pre with
  | nil => simp [findIndex, hc]
  | cons a pre ih =>
    have ha : p a = false := hpre a (List.mem_cons_self _ _)
    have ih' := ih (fun x hx => hpre x (List.mem_cons_of_mem _ hx))
    simp [findIndex, ha, ih']

theorem findIndex_split {α : Type} (p : α → Bool) :
    ∀ (l : List α) (i : Nat), findIndex p l = some i →
      ∃ pre c post, l = pre ++ c :: post ∧ pre.length = i ∧ (∀ x ∈ pre, p x = false) ∧
        p c = true := by
  intro l
  induction l with
  | nil => intro i h; simp [findIndex] at h
  | cons a l ih =>
    intro i h
    cases hp : p a
    · simp only [findIndex, hp, Bool.false_eq_true, if_false, Option.map_eq_some'] at h
      obtain ⟨j, hj, hji⟩ := h
      obtain ⟨pre, c, post, hl, hlen, hpre, hc⟩ := ih j hj
      refine ⟨a :: pre, c, post, by rw [hl]; rfl, by simp [hlen, hji], ?_, hc⟩
      intro x hx
      rcases List.mem_cons.mp hx with hx | hx
      · rw [hx]; exact hp
      · exact hpre x hx
    · simp only [findIndex, hp, if_true, Option.some.injEq] at h
      exact ⟨[], a, l, rfl, by simp [← h], by simp, hp⟩

theorem getElem?_split {α : Type} (pre : List α) (c : α) (post : List α) :
    (pre ++ c :: post)[pre.length]? = some c := by
  induction pre with
  | nil => simp
  | cons a pre ih => simpa using ih

theorem eraseIdx_split {α : Type} (pre : List α) (c : α) (post : List α) :
    (pre ++ c :: post).eraseIdx pre.length = pre ++ post := by
  induction pre with
  | nil => rfl
  | cons a pre ih => simpa using ih

/-! ## Lemmas on the slices -/

namespace MessagesState

theorem addMessage_currentMessages (state : MessagesState) (message : ChatMessage) :
    (state.addMessage message).currentMessages =
      if state.currentMatchId = some message.match_ then state.currentMessages ++ [message]
      else state.currentMessages := by
  unfold addMessage
  by_cases h : state.currentMatchId = some message.match_
  · simp only [h, if_true]
    split <;> (try split) <;> rfl
  · simp only [h, if_false]
    split <;> (try split) <;> rfl

theorem addMessage_conversations (state : MessagesState) (message : ChatMessage) :
    (state.addMessage message).conversations =
      match findIndex (fun conv => conv.match_._id == message.match_) state.conversations with
      | some conversationIndex =>
        match state.conversations[conversationIndex]? with
        | some found =>
          { found with
            lastMessage := some
              { content := message.content, createdAt := message.createdAt,
                sender := message.sender, type := message.type } } ::
            state.conversations.eraseIdx conversationIndex
        | none => state.conversations
      | none => state.conversations := by
  unfold addMessage
  by_cases h : state.currentMatchId = some message.match_
  · simp only [h, if_true]
    split <;> (try split) <;> rfl
  · simp only [h, if_false]
    split <;> (try split) <;> rfl

end MessagesState
/-! ## Lemmas on rooms -/

theorem roomMembership_append (xs : List Emission) (e : Emission) :
    roomMembership (xs ++ [e]) =
      match e with
      | .join_match matchId =>
        if matchId ∈ roomMembership xs then roomMembership xs
        else roomMembership xs ++ [matchId]
      | .leave_match matchId => (roomMembership xs).filter (fun room => room != matchId)
      | _ => roomMembership xs := by
  unfold roomMembership
  rw [List.foldl_append]
  cases e <;> rfl

theorem SocketService.Ready.leaveMatch {s : SocketService} (h : s.Ready) (matchId : String) :
    (s.leaveMatch matchId).emissions = s.emissions ++ [Emission.leave_match matchId] ∧
      (s.leaveMatch matchId).Ready := by
  obtain ⟨s', h1, h2, h3⟩ := h.emit (Emission.leave_match matchId)
  simp [SocketService.leaveMatch, h1, h2, h3]

/-- What opening a conversation emits on a ready service. -/
theorem Session.openConversation_ready (selected : Match) (s : Session)
    (h : s.socketService.Ready) :
    (s.openConversation selected).selectedMatch = some selected ∧
    (s.openConversation selected).socketService = s.socketService.joinMatch selected._id := by
  have hconn : s.socketService.getConnectionStatus = true := h.1
  unfold Session.openConversation
  simp only []
  split <;> simp [Session.joinOrPoll, Session.fetchMessages, hconn]

/-- What a click emits on a ready service. -/
theorem Session.selectConversation_ready (clicked : Match) (s : Session)
    (h : s.socketService.Ready) :
    (s.selectConversation clicked).selectedMatch = some clicked ∧
    (s.selectConversation clicked).socketService =
      (match s.selectedMatch with
        | some selected =>
          if selected._id ≠ clicked._id then s.socketService.leaveMatch selected._id
          else s.socketService
        | none => s.socketService).joinMatch clicked._id := by
  unfold Session.selectConversation
  cases hsel : s.selectedMatch with
  | none =>
    simp only []
    exact Session.openConversation_ready clicked s h
  | some selected =>
    simp only []
    split
    · exact Session.openConversation_ready clicked _ (h.leaveMatch selected._id).2
    · exact Session.openConversation_ready clicked s h

namespace Page

theorem listenerCleanup_frame (p : Page) :
    p.listenerCleanup.matchId = p.matchId ∧
    p.listenerCleanup.session.selectedMatch = p.session.selectedMatch := by
  unfold listenerCleanup
  split
  · split <;> exact ⟨rfl, rfl⟩
  · exact ⟨rfl, rfl⟩

theorem listenerEffect_frame (rendered : Option Match) (p : Page) :
    (p.listenerEffect rendered).matchId = p.matchId ∧
    (p.listenerEffect rendered).session = p.session := by
  unfold listenerEffect
  split <;> exact ⟨rfl, rfl⟩

/-- On the route `/messages` the route effect does nothing, so one commit settles the page. -/
theorem rerender_of_no_route (p : Page) (h : p.matchId = none) :
    p.rerender = p.listenerCleanup.listenerEffect p.session.selectedMatch := by
  have hcommit : p.commit = p.listenerCleanup.listenerEffect p.session.selectedMatch := by
    unfold commit
    have hr : p.listenerCleanup.session.routeEffect p.listenerCleanup.matchId =
        p.listenerCleanup.session := by
      rw [(listenerCleanup_frame p).1, h]
      rfl
    simp only [hr]
  unfold rerender
  simp only [hcommit, (listenerEffect_frame _ _).2, (listenerCleanup_frame p).2, if_true]

/-- The cleanup of the listener effect on a ready service when the ref holds the conversation
`old`: the service stays ready and the room of `old` is left if it was joined. -/
theorem listenerCleanup_ready (p : Page) (old : String) (h : p.session.socketService.Ready)
    (href : p.currentSocketMatch = some old) (rooms : List String)
    (hrooms : roomMembership p.session.socketService.emissions = rooms) (hold : old ∉ rooms) :
    p.listenerCleanup.session.socketService.Ready ∧
    roomMembership p.listenerCleanup.session.socketService.emissions = rooms := by
  by_cases hne : old = ""
  · have hclean : p.listenerCleanup = p := by
      simp [listenerCleanup, href, hne]
    rw [hclean]
    exact ⟨h, hrooms⟩
  · have hclean : p.listenerCleanup.session.socketService =
        p.session.socketService.leaveMatch old := by
      simp [listenerCleanup, href, hne]
    rw [hclean]
    refine ⟨(h.leaveMatch old).2, ?_⟩
    rw [(h.leaveMatch old).1, roomMembership_append]
    simp only [hrooms]
    rw [List.filter_eq_self]
    intro a ha
    simp only [bne_iff_ne, ne_eq]
    intro hao
    exact hold (hao ▸ ha)

/-- The body of the listener effect completes the invariant once the room of the conversation
it renders is the only one joined. -/
theorem singleRoom_listenerEffect (q : Page) (clicked : Match) (hroute : q.matchId = none)
    (hready : q.session.socketService.Ready)
    (hrooms : roomMembership q.session.socketService.emissions = [clicked._id])
    (hsel : q.session.selectedMatch = some clicked) :
    (q.listenerEffect (some clicked)).SingleRoom := by
  simp [SingleRoom, listenerEffect, Page.emissions, hroute, hready, hrooms, hsel]

theorem singleRoom_selectConversation (p : Page) (clicked : Match) (h : p.SingleRoom) :
    (p.selectConversation clicked).SingleRoom ∧
      (p.selectConversation clicked).session.selectedMatch = some clicked := by
  obtain ⟨hroute, hready, href, hrooms⟩ := h
  simp only [Page.emissions] at hrooms
  obtain ⟨hsel, hsvc⟩ := Session.selectConversation_ready clicked p.session hready
  have hdef : p.selectConversation clicked =
      if (p.session.selectConversation clicked).selectedMatch = p.session.selectedMatch then
        { p with session := p.session.selectConversation clicked }
      else ({ p with session := p.session.selectConversation clicked } : Page).rerender := rfl
  have hrer : ({ p with session := p.session.selectConversation clicked } : Page).rerender =
      (({ p with session := p.session.selectConversation clicked } :
        Page).listenerCleanup).listenerEffect (some clicked) := by
    have h := rerender_of_no_route
      ({ p with session := p.session.selectConversation clicked } : Page) hroute
    simp only [hsel] at h
    exact h
  cases hold : p.session.selectedMatch with
  | none =>
    rw [hold] at href hrooms hsvc
    simp only [Option.map_none', Option.toList_none] at href hrooms
    simp only [] at hsvc
    have hjoin := hready.joinMatch clicked._id
    have hroomsNew : roomMembership (p.session.selectConversation clicked).socketService.emissions
        = [clicked._id] := by
      rw [hsvc, hjoin.1, roomMembership_append]
      simp [hrooms]
    have hclean : ({ p with session := p.session.selectConversation clicked } :
        Page).listenerCleanup = { p with session := p.session.selectConversation clicked } := by
      simp [listenerCleanup, href]
    rw [hdef, hsel, hold, if_neg (by simp), hrer, hclean]
    refine ⟨singleRoom_listenerEffect _ clicked hroute ?_ hroomsNew hsel, ?_⟩
    · show (p.session.selectConversation clicked).socketService.Ready
      rw [hsvc]
      exact hjoin.2
    · rw [(listenerEffect_frame _ _).2]
      exact hsel
  | some selected =>
    rw [hold] at href hrooms hsvc
    simp only [Option.map_some', Option.toList_some] at href hrooms
    simp only [] at hsvc
    by_cases hsame : selected = clicked
    · subst hsame
      simp only [ne_eq, not_true_eq_false, if_false] at hsvc
      have hjoin := hready.joinMatch selected._id
      rw [hdef, hsel, hold, if_pos rfl]
      refine ⟨⟨hroute, ?_, ?_, ?_⟩, hsel⟩
      · show (p.session.selectConversation selected).socketService.Ready
        rw [hsvc]
        exact hjoin.2
      · show p.currentSocketMatch = (p.session.selectConversation selected).selectedMatch.map _
        rw [hsel, href]
        rfl
      · show roomMembership (p.session.selectConversation selected).socketService.emissions = _
        rw [hsvc, hjoin.1, roomMembership_append]
        simp [hrooms, hsel]
    · have hid : selected._id ≠ clicked._id := by
        intro hid
        apply hsame
        cases selected
        cases clicked
        simpa using hid
      simp only [ne_eq, hid, not_false_eq_true, if_true] at hsvc
      have hleave := hready.leaveMatch selected._id
      have hjoin := hleave.2.joinMatch clicked._id
      have hroomsNew :
          roomMembership (p.session.selectConversation clicked).socketService.emissions =
            [clicked._id] := by
        rw [hsvc, hjoin.1, roomMembership_append]
        simp only []
        rw [hleave.1, roomMembership_append]
        simp [hrooms]
      have hreadyNew : (p.session.selectConversation clicked).socketService.Ready := by
        rw [hsvc]
        exact hjoin.2
      have hclean := listenerCleanup_ready
        { p with session := p.session.selectConversation clicked } selected._id hreadyNew href
        [clicked._id] hroomsNew (by simpa using hid)
      have hframe := listenerCleanup_frame
        ({ p with session := p.session.selectConversation clicked } : Page)
      rw [hdef, hsel, hold, if_neg (by simpa using Ne.symm hsame), hrer]
      refine ⟨singleRoom_listenerEffect _ clicked ?_ hclean.1 hclean.2 ?_, ?_⟩
      · rw [hframe.1]
        exact hroute
      · rw [hframe.2]
        exact hsel
      · rw [(listenerEffect_frame _ _).2, hframe.2]
        exact hsel

/-- On a page that satisfies the invariant every sequence of clicks keeps it, and the open
conversation is the one clicked last. -/
theorem singleRoom_selectAll (clicks : List Match) :
    ∀ p : Page, p.SingleRoom →
      (p.selectAll clicks).SingleRoom ∧
        (p.selectAll clicks).session.selectedMatch =
          (match clicks.getLast? with
            | some clicked => some clicked
            | none => p.session.selectedMatch) := by
  induction clicks with
  | nil => intro p h; exact ⟨h, rfl⟩
  | cons c clicks ih =>
    intro p h
    obtain ⟨h1, h2⟩ := singleRoom_selectConversation p c h
    obtain ⟨g1, g2⟩ := ih _ h1
    refine ⟨g1, ?_⟩
    show ((p.selectConversation c).selectAll clicks).session.selectedMatch = _
    rw [g2, h2]
    cases clicks with
    | nil => rfl
    | cons d rest =>
      have hlast : (d :: rest).getLast? = some ((d :: rest).getLast (by simp)) :=
        List.getLast?_eq_getLast _ _
      simp [List.getLast?_cons_cons, hlast]

theorem singleRoom_onlinePage : onlinePage.SingleRoom :=
  ⟨rfl, ⟨rfl, rfl⟩, rfl, rfl⟩

/-- On the connected page, after any clicks, the only room joined is that of the conversation
clicked last. -/
theorem onlinePage_selectAll (clicks : List Match) :
    (onlinePage.selectAll clicks).session.selectedMatch = clicks.getLast? ∧
    roomMembership (onlinePage.selectAll clicks).emissions =
      (clicks.getLast?.map (fun m => m._id)).toList := by
  obtain ⟨h1, h2⟩ := singleRoom_selectAll clicks onlinePage singleRoom_onlinePage
  have hsel : (onlinePage.selectAll clicks).session.selectedMatch = clicks.getLast? := by
    rw [h2]
    cases clicks.getLast? <;> rfl
  refine ⟨hsel, ?_⟩
  rw [h1.2.2.2, hsel]

end Page
/-! ## Claims on rooms, temporary ids, failed fetches and the slices -/

/-- C21 (failing run): on the page whose socket is still connecting, the conversations `c123` and
`c456` are clicked one after the other.  Nothing is emitted and two join polls are pending, the
first one for the conversation that is no longer open.  When the connection is established both
polls emit their `join_match` at the next tick: 100 ms later, and still 10 s later, the rooms
joined and not left are those of both conversations while `c456` is the open one, and no
`leave_match` was emitted.  On the connected page the same two clicks leave the old room before
they join the new one and end in the room of `c456` alone, and after any sequence of clicks
there the only room joined is that of the conversation clicked last, which is the open one. -/
theorem stale_join_poll_joins_second_room :
    (freshPage.selectConversation c123).selectConversation c456 = twoPollsPage ∧
    twoPollsPage.emissions = [] ∧
    (twoPollsPage.socketConnected.elapse 100).emissions =
      [.join_match "C123", .join_match "C456"] ∧
    (twoPollsPage.socketConnected.elapse 100).session.selectedMatch = some c456 ∧
    roomMembership (twoPollsPage.socketConnected.elapse 100).emissions = ["C123", "C456"] ∧
    roomMembership ((twoPollsPage.socketConnected.elapse 100).elapse 10000).emissions =
      ["C123", "C456"] ∧
    ((onlinePage.selectConversation c123).selectConversation c456).emissions =
      [.join_match "C123", .leave_match "C123", .join_match "C456", .leave_match "C123"] ∧
    roomMembership ((onlinePage.selectConversation c123).selectConversation c456).emissions =
      ["C456"] ∧
    (∀ clicks : List Match,
      (onlinePage.selectAll clicks).session.selectedMatch = clicks.getLast? ∧
      roomMembership (onlinePage.selectAll clicks).emissions =
        (clicks.getLast?.map (fun m => m._id)).toList) := by
  have hrun : twoPollsPage.session.socketConnected.elapse 100 = bothJoinedSession := by
    have h := Session.elapse_succ 99 twoPollsPage.session.socketConnected
    rw [Session.elapse_idle 99 _ (by decide)] at h
    exact h.trans (by decide)
  have hcut : bothJoinedSession.elapse 4900 =
      { bothJoinedSession with now := 5000, timers := [] } := by
    have h := Session.elapse_succ 4899 bothJoinedSession
    rw [Session.elapse_idle 4899 _ (by decide)] at h
    exact h.trans (by decide)
  have hlater : bothJoinedSession.elapse 10000 =
      { bothJoinedSession with now := 10100, timers := [] } := by
    have h := Session.elapse_add 4900 5100 bothJoinedSession
    rw [hcut, Session.elapse_no_timers 5100
      { bothJoinedSession with now := 5000, timers := [] } rfl] at h
    exact h
  refine ⟨by decide, by decide, ?_, ?_, ?_, ?_, by decide, by decide,
    fun clicks => Page.onlinePage_selectAll clicks⟩
  · simp only [Page.emissions, Page.elapse, Page.socketConnected, hrun]
    rfl
  · simp only [Page.elapse, Page.socketConnected, hrun]
    rfl
  · simp only [Page.emissions, Page.elapse, Page.socketConnected, hrun]
    decide
  · simp only [Page.emissions, Page.elapse, Page.socketConnected, hrun, hlater]
    decide

/-- C22 (counterexample): two sends in the same millisecond get the same temporary id, and the
timeline then holds that id twice. -/
theorem same_millisecond_ids_counterexample :
    (optimisticMessage alice "hello" 5000 5000)._id =
      (optimisticMessage alice "bye" 5000 5000)._id ∧
    messageIds (runEvents alice (some c123) [replyConfirmed]
        [.localSend "hello" 5000 5000, .localSend "bye" 5000 5000]) =
      ["m2", "temp_5000", "temp_5000"] ∧
    ¬ (messageIds (runEvents alice (some c123) [replyConfirmed]
        [.localSend "hello" 5000 5000, .localSend "bye" 5000 5000])).Nodup := by
  decide

/-- C22 (amended): the temporary id is `temp_` followed by the clock reading, so two provisional
messages get different ids exactly when their clock readings differ, and after two sends the ids
of the timeline are pairwise distinct exactly when they were so before, no entry carried either
temporary id, and the two clock readings differ. -/
theorem temp_ids_distinct_iff_clock_differs (user : User) (selected : Option Match)
    (tl : List Message) (text1 text2 : String) (idNow1 idNow2 created1 created2 : Int) :
    ((optimisticMessage user text1 idNow1 created1)._id =
        (optimisticMessage user text2 idNow2 created2)._id ↔ idNow1 = idNow2) ∧
    ((messageIds (runEvents user selected tl
        [.localSend text1 idNow1 created1, .localSend text2 idNow2 created2])).Nodup ↔
      (messageIds tl).Nodup ∧ IdAbsent ("temp_" ++ toString idNow1) tl ∧
        IdAbsent ("temp_" ++ toString idNow2) tl ∧ idNow1 ≠ idNow2) := by
  have hid : ∀ (t : String) (i c : Int), (optimisticMessage user t i c)._id =
      "temp_" ++ toString i := fun _ _ _ => rfl
  have hinj : "temp_" ++ toString idNow1 = "temp_" ++ toString idNow2 ↔ idNow1 = idNow2 :=
    ⟨temp_id_injective idNow1 idNow2, fun h => by rw [h]⟩
  refine ⟨by rw [hid, hid]; exact hinj, ?_⟩
  have hperm : (messageIds (runEvents user selected tl
      [.localSend text1 idNow1 created1, .localSend text2 idNow2 created2])).Perm
      (messageIds tl ++ ["temp_" ++ toString idNow1, "temp_" ++ toString idNow2]) := by
    have h1 : (runEvents user selected tl
        [.localSend text1 idNow1 created1, .localSend text2 idNow2 created2]).Perm
        ((tl ++ [optimisticMessage user text1 idNow1 created1]) ++
          [optimisticMessage user text2 idNow2 created2]) := by
      simp only [runEvents, List.foldl_cons, List.foldl_nil, applyEvent, insertOptimistic]
      exact (perm_sortByCreatedAt _).trans ((perm_sortByCreatedAt _).append_right _)
    have h2 := h1.map (fun msg : Message => msg._id)
    simpa [messageIds, hid] using h2
  rw [hperm.nodup_iff, List.nodup_append]
  simp only [messageIds, IdAbsent, List.nodup_cons, List.mem_singleton, List.not_mem_nil,
    not_false_eq_true, List.nodup_nil, and_true, List.Disjoint, List.mem_map, List.mem_cons,
    hinj, forall_exists_index, and_imp, ne_eq, or_false]
  constructor
  · rintro ⟨hnd, hne, hdisj⟩
    refine ⟨hnd, ?_, ?_, hne⟩
    · intro x hx hxid
      exact hdisj x hx hxid (Or.inl rfl)
    · intro x hx hxid
      exact hdisj x hx hxid (Or.inr rfl)
  · rintro ⟨hnd, h1, h2, hne⟩
    refine ⟨hnd, hne, ?_⟩
    intro a x hx hxa ha
    rcases ha with ha | ha
    · exact h1 x hx (hxa.trans ha)
    · exact h2 x hx (hxa.trans ha)

/-- C23 (failing run): on the connected page the conversation `c123` is opened and its history
request fails.  The timeline is as it was and the notice is shown, but a second click on `c123`
issues no request: the request log still holds the one failed request and nothing is in flight.
A request for `c123` is issued again only after another conversation was opened. -/
theorem failed_fetch_not_retried_on_reopen :
    (onlineSession.selectConversation c123).fetchLog = ["C123"] ∧
    (onlineSession.selectConversation c123).inFlight =
      [{ matchId := "C123", shouldOverwrite := true }] ∧
    ((onlineSession.selectConversation c123).failFetch
      { matchId := "C123", shouldOverwrite := true }).messages = onlineSession.messages ∧
    ((onlineSession.selectConversation c123).failFetch
      { matchId := "C123", shouldOverwrite := true }).toasts = ["Failed to load messages"] ∧
    (((onlineSession.selectConversation c123).failFetch
      { matchId := "C123", shouldOverwrite := true }).selectConversation c123).fetchLog =
      ["C123"] ∧
    (((onlineSession.selectConversation c123).failFetch
      { matchId := "C123", shouldOverwrite := true }).selectConversation c123).inFlight = [] ∧
    ((((onlineSession.selectConversation c123).failFetch
      { matchId := "C123", shouldOverwrite := true }).selectConversation c456).selectConversation
        c123).fetchLog = ["C123", "C456", "C123"] := by
  decide

/-- C24: when a conversation is selected, the input is not blank and the socket exists and is
connected, `sendMessage` adds exactly one message to the timeline and keeps every entry that
was there: the timeline after the call is a rearrangement of the provisional message and the
timeline before.  The provisional message is tagged optimistic, its author is the local user
and its content is the trimmed input.  Exactly one `send_message` is emitted, carrying the id of
the open conversation, the trimmed text and the type `text`; the only other emission is the
`typing_stop` that follows it. -/
theorem successful_send_adds_one_optimistic (idNow createdNow : Int) (w : World)
    (selected : Match) (sock : Socket) (h : CanSend w selected sock) :
    (sendMessage idNow createdNow w).messages.Perm
      (optimisticMessage w.user (jsTrim w.newMessage) idNow createdNow :: w.messages) ∧
    (sendMessage idNow createdNow w).messages.length = w.messages.length + 1 ∧
    (∀ x ∈ w.messages, x ∈ (sendMessage idNow createdNow w).messages) ∧
    (optimisticMessage w.user (jsTrim w.newMessage) idNow createdNow).isOptimistic = true ∧
    (optimisticMessage w.user (jsTrim w.newMessage) idNow createdNow).sender._id = w.user.id ∧
    (optimisticMessage w.user (jsTrim w.newMessage) idNow createdNow).content =
      jsTrim w.newMessage ∧
    (sendMessage idNow createdNow w).socketService.emissions =
      sock.emitted ++
        [.send_message selected._id (jsTrim w.newMessage) "text", .typing_stop selected._id] := by
  have hmsgs := sendMessage_of_canSend idNow createdNow w selected sock h
  have hperm : (sendMessage idNow createdNow w).messages.Perm
      (optimisticMessage w.user (jsTrim w.newMessage) idNow createdNow :: w.messages) := by
    rw [hmsgs]
    unfold insertOptimistic
    exact (perm_sortByCreatedAt _).trans (List.perm_append_singleton _ _)
  refine ⟨hperm, ?_, ?_, rfl, rfl, rfl, ?_⟩
  · rw [hperm.length_eq, List.length_cons]
  · intro x hx
    exact hperm.symm.subset (List.mem_cons_of_mem _ hx)
  · obtain ⟨hsel, htext, hsock, hconn⟩ := h
    have hne : jsTrim w.newMessage ≠ "" := (jsTrim_ne_empty_iff _).mpr htext
    simp [sendMessage, hsel, hne, SocketService.getConnectionStatus, hconn,
      SocketService.sendMessage, SocketService.emitWhenReady, hsock, SocketService.stopTyping,
      SocketService.emissions]

/-- C24 (witness): the page `connectedWorld` with " hello " typed. -/
theorem successful_send_adds_one_optimistic_witness :
    CanSend connectedWorld c123 freshSocket ∧
    (sendMessage 5000 5000 connectedWorld).messages.Perm
      (optimisticMessage alice "hello" 5000 5000 :: [laterConfirmed, replyConfirmed]) ∧
    (sendMessage 5000 5000 connectedWorld).socketService.emissions =
      [.send_message "C123" "hello" "text", .typing_stop "C123"] := by
  have hcan : CanSend connectedWorld c123 freshSocket :=
    ⟨rfl, ⟨'h', by decide, by decide⟩, rfl, rfl⟩
  have h := successful_send_adds_one_optimistic 5000 5000 connectedWorld c123 freshSocket hcan
  have htrim : jsTrim connectedWorld.newMessage = "hello" := by decide
  rw [htrim] at h
  exact ⟨hcan, h.1, h.2.2.2.2.2.2⟩

/-- C25: `sendMessage(matchId, content, type)` of the service returns `true` exactly when the
socket is not `null` and `isConnected` is `true`.  When it returns `true` what was emitted is
what was emitted before followed by the one `send_message` with the payload
`{matchId, content, type}`; when it returns `false` the service is unchanged, so nothing was
emitted and nothing is kept for later.  In both cases `isConnected` is unchanged and the socket
stays the socket or stays `null`.  Called without `type`, it is the call with `'text'`. -/
theorem service_sendMessage_contract (s : SocketService) (matchId content type : String) :
    ((s.sendMessage matchId content type).2 = true ↔
      s.socket.isSome = true ∧ s.isConnected = true) ∧
    ((s.sendMessage matchId content type).2 = true →
      (s.sendMessage matchId content type).1.emissions =
        s.emissions ++ [.send_message matchId content type]) ∧
    ((s.sendMessage matchId content type).2 = false →
      (s.sendMessage matchId content type).1 = s) ∧
    (s.sendMessage matchId content type).1.isConnected = s.isConnected ∧
    (s.sendMessage matchId content type).1.socket.isSome = s.socket.isSome ∧
    s.sendMessageCall matchId content none = s.sendMessage matchId content "text" ∧
    s.sendMessageCall matchId content (some type) = s.sendMessage matchId content type := by
  refine ⟨?_, ?_, ?_, ?_, ?_, rfl, rfl⟩ <;>
    cases hs : s.socket <;> cases hc : s.isConnected <;>
    simp [SocketService.sendMessage, SocketService.emitWhenReady, SocketService.emissions, hs, hc]

/-- C25 (witness): on a connected socket the call returns `true` and emits once; without a
connection it returns `false` and the service is as before. -/
theorem service_sendMessage_contract_witness :
    (connectedWorld.socketService.sendMessage "C123" "hello" "text").2 = true ∧
    (connectedWorld.socketService.sendMessage "C123" "hello" "text").1.emissions =
      [.send_message "C123" "hello" "text"] ∧
    (disconnectedWorld.socketService.sendMessage "C123" "hello" "text").2 = false ∧
    (disconnectedWorld.socketService.sendMessage "C123" "hello" "text").1 =
      disconnectedWorld.socketService := by
  have hc := service_sendMessage_contract connectedWorld.socketService "C123" "hello" "text"
  have hd := service_sendMessage_contract disconnectedWorld.socketService "C123" "hello" "text"
  have h1 : (connectedWorld.socketService.sendMessage "C123" "hello" "text").2 = true := by
    decide
  have h2 : (disconnectedWorld.socketService.sendMessage "C123" "hello" "text").2 = false := by
    decide
  exact ⟨h1, hc.2.1 h1, h2, hd.2.2.1 h2⟩

/-- C26: in every state the service reaches from the constructed one through its methods and
the events of its socket, in particular through `connect`, `disconnect` and the `connect`,
`disconnect` and `connect_error` events, `isConnected = true` implies that `socket` is not
`null`. -/
theorem connected_implies_socket (events : List ManagerEvent)
    (h : (ConnectionManager.initial.run events).isConnected = true) :
    (ConnectionManager.initial.run events).socket.isSome = true :=
  (ConnectionManager.consistent_of_reachable ⟨events, rfl⟩).2.2 h

/-- C26 (witness): after `connect("token-1")` and the `connect` event the service counts as
connected and holds its socket. -/
theorem connected_implies_socket_witness :
    (ConnectionManager.initial.run [.connect "token-1", .socketConnects]).isConnected = true ∧
    (ConnectionManager.initial.run [.connect "token-1", .socketConnects]).socket.isSome = true :=
  ⟨by decide, connected_implies_socket [.connect "token-1", .socketConnects] (by decide)⟩

/-- C27: let the timeline hold a provisional message for which no confirmation is present when
its watchdog fires, so that the watchdog marks it failed and no longer optimistic.  A confirmed
message of the open conversation that arrives afterwards, whatever its author and content and
so also with those of the failed entry, leaves the failed entry in the timeline; and if no other
entry carries the id of the confirmed message, the timeline then holds both the failed entry and
the confirmed message. -/
theorem failed_entry_survives_confirmation (selected : Match) (optimistic m : Message)
    (tl : List Message) (hprov : optimistic.isOptimistic = true)
    (hawait : AwaitsConfirmation optimistic tl) (hconf : m.isOptimistic = false)
    (hid : ∀ x ∈ tl, x._id = m._id → x = m) :
    markFailed optimistic ∈ cleanup optimistic tl ∧
    (markFailed optimistic).isOptimistic = false ∧ (markFailed optimistic).failed = true ∧
    markFailed optimistic ∈
      handleNewMessage (some selected) { matchId := selected._id, message := m }
        (cleanup optimistic tl) ∧
    m ∈ handleNewMessage (some selected) { matchId := selected._id, message := m }
        (cleanup optimistic tl) := by
  obtain ⟨hmem, hnoreal⟩ := hawait
  have hfailed : markFailed optimistic ∈ cleanup optimistic tl := by
    rw [cleanup_of_no_real optimistic tl hnoreal, List.mem_map]
    exact ⟨optimistic, hmem, by simp⟩
  have hopen : handleNewMessage (some selected) { matchId := selected._id, message := m }
      (cleanup optimistic tl) = receiveMessage m (cleanup optimistic tl) := by
    simp [handleNewMessage]
  have hkeep : ∀ x ∈ cleanup optimistic tl, x.isOptimistic = false →
      x ∈ (cleanup optimistic tl).filter (fun msg => !isOptimisticTwin m msg) := by
    intro x hx hxo
    rw [List.mem_filter]
    exact ⟨hx, by simp [isOptimisticTwin, hxo]⟩
  have hsub : ∀ x ∈ (cleanup optimistic tl).filter (fun msg => !isOptimisticTwin m msg),
      x ∈ receiveMessage m (cleanup optimistic tl) := by
    intro x hx
    unfold receiveMessage
    simp only []
    split
    · rw [mem_sortByCreatedAt, List.mem_append]
      exact Or.inl hx
    · exact hx
  have hidc : ∀ x ∈ cleanup optimistic tl, x._id = m._id → x = m := by
    intro x hx hxid
    rw [cleanup_of_no_real optimistic tl hnoreal, List.mem_map] at hx
    obtain ⟨y, hy, hyx⟩ := hx
    by_cases hyo : y._id = optimistic._id
    · exfalso
      have hx' : x = markFailed y := by simpa [hyo] using hyx.symm
      have hym : y = m := hid y hy (by rw [← hxid, hx']; rfl)
      have hom : optimistic = m := hid optimistic hmem (by rw [← hyo, hym])
      rw [hom, hconf] at hprov
      exact absurd hprov (by decide)
    · have hx' : x = y := by simpa [hyo] using hyx.symm
      rw [hx']
      exact hid y hy (by rw [← hx']; exact hxid)
  refine ⟨hfailed, rfl, rfl, ?_, ?_⟩
  · rw [hopen]
    exact hsub _ (hkeep _ hfailed rfl)
  · rw [hopen]
    by_cases hex : ((cleanup optimistic tl).filter (fun msg => !isOptimisticTwin m msg)).any
        (fun msg => msg._id == m._id) = true
    · rw [List.any_eq_true] at hex
      obtain ⟨x, hx, hxid⟩ := hex
      have hxm : x = m := hidc x (List.mem_filter.mp hx).1 (by simpa using hxid)
      have hin := hsub x hx
      rw [hxm] at hin
      exact hin
    · unfold receiveMessage
      simp only [hex]
      simp [mem_sortByCreatedAt]

/-- C27 (witness): "hello" was sent at 5000 ms, its watchdog fired without a confirmation, and
the confirmation `helloConfirmed` arrives afterwards. -/
theorem failed_entry_survives_confirmation_witness :
    AwaitsConfirmation (optimisticMessage alice "hello" 5000 5000)
      [optimisticMessage alice "hello" 5000 5000, replyConfirmed] ∧
    helloConfirmed.content = (optimisticMessage alice "hello" 5000 5000).content ∧
    helloConfirmed.sender._id = (optimisticMessage alice "hello" 5000 5000).sender._id ∧
    markFailed (optimisticMessage alice "hello" 5000 5000) ∈
      handleNewMessage (some c123) { matchId := c123._id, message := helloConfirmed }
        (cleanup (optimisticMessage alice "hello" 5000 5000)
          [optimisticMessage alice "hello" 5000 5000, replyConfirmed]) ∧
    helloConfirmed ∈
      handleNewMessage (some c123) { matchId := c123._id, message := helloConfirmed }
        (cleanup (optimisticMessage alice "hello" 5000 5000)
          [optimisticMessage alice "hello" 5000 5000, replyConfirmed]) := by
  have hawait : AwaitsConfirmation (optimisticMessage alice "hello" 5000 5000)
      [optimisticMessage alice "hello" 5000 5000, replyConfirmed] := ⟨by decide, by decide⟩
  have h := failed_entry_survives_confirmation c123 (optimisticMessage alice "hello" 5000 5000)
    helloConfirmed [optimisticMessage alice "hello" 5000 5000, replyConfirmed] rfl hawait rfl
    (by decide)
  exact ⟨hawait, rfl, rfl, h.2.2.2.1, h.2.2.2.2⟩

/-- C28: the reducer `addMessage` keeps the entries of the conversation list.  If the list
splits into `pre`, a conversation `c` of the message and `post`, where no conversation of `pre`
is the conversation of the message, then afterwards `c` with `lastMessage` set to the content,
`createdAt`, sender and type of the message is at index 0, followed by `pre` and `post` in their
order; if no conversation is the conversation of the message the list is unchanged.  In both
cases the list has the length and, up to order, the conversation ids it had.
`currentMessages` gets the message appended exactly when `message.match` is `currentMatchId`,
and the other fields of the slice are unchanged. -/
theorem addMessage_moves_conversation_to_top (state : MessagesState) (message : ChatMessage) :
    (∀ pre c post, state.conversations = pre ++ c :: post →
      (∀ x ∈ pre, x.match_._id ≠ message.match_) → c.match_._id = message.match_ →
      (state.addMessage message).conversations =
        { c with
          lastMessage := some
            { content := message.content, createdAt := message.createdAt,
              sender := message.sender, type := message.type } } :: (pre ++ post)) ∧
    ((∀ x ∈ state.conversations, x.match_._id ≠ message.match_) →
      (state.addMessage message).conversations = state.conversations) ∧
    (state.addMessage message).conversations.length = state.conversations.length ∧
    (conversationIds (state.addMessage message).conversations).Perm
      (conversationIds state.conversations) ∧
    (state.addMessage message).currentMessages =
      (if state.currentMatchId = some message.match_ then state.currentMessages ++ [message]
        else state.currentMessages) ∧
    (state.addMessage message).currentMatchId = state.currentMatchId ∧
    (state.addMessage message).typingUsers = state.typingUsers ∧
    (state.addMessage message).isLoading = state.isLoading ∧
    (state.addMessage message).error = state.error ∧
    (state.addMessage message).pagination = state.pagination := by
  have hfound : ∀ pre c post, state.conversations = pre ++ c :: post →
      (∀ x ∈ pre, x.match_._id ≠ message.match_) → c.match_._id = message.match_ →
      (state.addMessage message).conversations =
        { c with
          lastMessage := some
            { content := message.content, createdAt := message.createdAt,
              sender := message.sender, type := message.type } } :: (pre ++ post) := by
    intro pre c post hsplit hpre hc
    rw [MessagesState.addMessage_conversations, hsplit,
      findIndex_of_split _ pre c post (by simpa using hpre) (by simpa using hc)]
    simp only [getElem?_split, eraseIdx_split]
  have hnone : (∀ x ∈ state.conversations, x.match_._id ≠ message.match_) →
      (state.addMessage message).conversations = state.conversations := by
    intro h
    rw [MessagesState.addMessage_conversations,
      (findIndex_eq_none _ _).mpr (by simpa using h)]
  have hcases : (∃ pre c post, state.conversations = pre ++ c :: post ∧
      (∀ x ∈ pre, x.match_._id ≠ message.match_) ∧ c.match_._id = message.match_) ∨
      ∀ x ∈ state.conversations, x.match_._id ≠ message.match_ := by
    cases hidx : findIndex (fun conv : Conversation => conv.match_._id == message.match_)
      state.conversations with
    | none =>
      right
      simpa using (findIndex_eq_none _ _).mp hidx
    | some i =>
      left
      obtain ⟨pre, c, post, hl, -, hpre, hc⟩ := findIndex_split _ _ i hidx
      exact ⟨pre, c, post, hl, by simpa using hpre, by simpa using hc⟩
  refine ⟨hfound, hnone, ?_, ?_, MessagesState.addMessage_currentMessages state message,
    ?_, ?_, ?_, ?_, ?_⟩
  · rcases hcases with ⟨pre, c, post, hl, hpre, hc⟩ | h
    · rw [hfound pre c post hl hpre hc, hl]
      simp
      omega
    · rw [hnone h]
  · rcases hcases with ⟨pre, c, post, hl, hpre, hc⟩ | h
    · rw [hfound pre c post hl hpre hc, hl]
      simp only [conversationIds, List.map_cons, List.map_append]
      exact List.perm_middle.symm
    · rw [hnone h]
  all_goals
    unfold MessagesState.addMessage
    by_cases h : state.currentMatchId = some message.match_
    · simp only [h, if_true]
      split <;> (try split) <;> rfl
    · simp only [h, if_false]
      split <;> (try split) <;> rfl

/-- C28 (witness): in `chatSlice` the conversation `c123` is second; the message "hello" moves
it to the top with its summary set and is appended to the open conversation. -/
theorem addMessage_moves_conversation_to_top_witness :
    chatSlice.conversations =
      [{ match_ := c456, lastMessage := none, unreadCount := 2 }] ++
        { match_ := c123, lastMessage := none, unreadCount := 0 } ::
          [{ match_ := c789, lastMessage := none, unreadCount := 0 }] ∧
    (chatSlice.addMessage helloStored).conversations =
      [{ match_ := c123,
         lastMessage := some
           { content := "hello", createdAt := "2024-01-01T00:00:02.000Z", sender := aliceSender,
             type := "text" },
         unreadCount := 0 },
       { match_ := c456, lastMessage := none, unreadCount := 2 },
       { match_ := c789, lastMessage := none, unreadCount := 0 }] ∧
    (chatSlice.addMessage helloStored).currentMessages = [helloStored] :=
  ⟨rfl,
    (addMessage_moves_conversation_to_top chatSlice helloStored).1
      [{ match_ := c456, lastMessage := none, unreadCount := 2 }]
      { match_ := c123, lastMessage := none, unreadCount := 0 }
      [{ match_ := c789, lastMessage := none, unreadCount := 0 }] rfl (by decide) rfl,
    by decide⟩

/-- C29: the reducer `addTypingUser` keeps the user ids of `typingUsers` pairwise distinct.
With `isTyping` true an entry with the user id is present afterwards, and it is the entry of the
payload at the end of the list if none was present before; with `isTyping` false no entry with
the user id remains; and applying the same payload twice gives the state of applying it
once. -/
theorem addTypingUser_keeps_users_unique (state : MessagesState) (payload : TypingPayload) :
    ((typingUserIds state.typingUsers).Nodup →
      (typingUserIds (state.addTypingUser payload).typingUsers).Nodup) ∧
    (payload.isTyping = true →
      payload.userId ∈ typingUserIds (state.addTypingUser payload).typingUsers) ∧
    (payload.isTyping = true → payload.userId ∉ typingUserIds state.typingUsers →
      (state.addTypingUser payload).typingUsers =
        state.typingUsers ++ [{ userId := payload.userId, userName := payload.userName }]) ∧
    (payload.isTyping = false →
      payload.userId ∉ typingUserIds (state.addTypingUser payload).typingUsers) ∧
    (state.addTypingUser payload).addTypingUser payload = state.addTypingUser payload := by
  have hnone : (state.typingUsers.find? (fun user => user.userId == payload.userId)).isNone =
      true ↔ payload.userId ∉ typingUserIds state.typingUsers := by
    rw [Option.isNone_iff_eq_none, List.find?_eq_none]
    simp only [typingUserIds, List.mem_map, not_exists, not_and, beq_iff_eq, Bool.not_eq_true]
  cases htyping : payload.isTyping
  · have hres : (state.addTypingUser payload).typingUsers =
        state.typingUsers.filter (fun user => user.userId != payload.userId) := by
      simp [MessagesState.addTypingUser, htyping]
    refine ⟨?_, by simp, by simp, ?_, ?_⟩
    · intro hnd
      rw [hres]
      exact (List.filter_sublist _).map _ |>.nodup hnd
    · intro _
      rw [hres]
      simp [typingUserIds]
    · simp [MessagesState.addTypingUser, htyping]
  · by_cases hin : payload.userId ∈ typingUserIds state.typingUsers
    · have hsome : (state.typingUsers.find? (fun user => user.userId == payload.userId)).isNone
          = false := by
        rw [Bool.eq_false_iff]
        intro h
        exact (hnone.mp h) hin
      have hres : state.addTypingUser payload = state := by
        simp [MessagesState.addTypingUser, htyping, hsome]
      refine ⟨?_, ?_, ?_, by simp, ?_⟩
      · intro hnd
        rw [hres]
        exact hnd
      · intro _
        rw [hres]
        exact hin
      · intro _ hnot
        exact absurd hin hnot
      · rw [hres, hres]
    · have hisnone := hnone.mpr hin
      have hres : state.addTypingUser payload =
          { state with
            typingUsers := state.typingUsers ++
              [{ userId := payload.userId, userName := payload.userName }] } := by
        simp [MessagesState.addTypingUser, htyping, hisnone]
      refine ⟨?_, ?_, ?_, by simp, ?_⟩
      · intro hnd
        rw [hres]
        simp only [typingUserIds, List.map_append, List.map_cons, List.map_nil]
        rw [List.nodup_append]
        refine ⟨hnd, by simp, ?_⟩
        intro a ha hb
        rw [List.mem_singleton] at hb
        rw [hb] at ha
        exact hin ha
      · intro _
        rw [hres]
        simp [typingUserIds]
      · intro _ _
        rw [hres]
      · rw [hres]
        simp [MessagesState.addTypingUser, htyping]

/-- C29 (witness): Bob is typing in `chatSlice`; a second notice of his typing changes nothing,
a notice that Ann types adds her, and the notice that Bob stopped removes him. -/
theorem addTypingUser_keeps_users_unique_witness :
    (typingUserIds chatSlice.typingUsers).Nodup ∧
    (typingUserIds (chatSlice.addTypingUser
      { userId := "A", userName := "Ann", isTyping := true }).typingUsers).Nodup ∧
    (chatSlice.addTypingUser { userId := "A", userName := "Ann", isTyping := true }).typingUsers =
      [{ userId := "B", userName := "Bob" }, { userId := "A", userName := "Ann" }] ∧
    "B" ∉ typingUserIds (chatSlice.addTypingUser
      { userId := "B", userName := "Bob", isTyping := false }).typingUsers := by
  have hnd : (typingUserIds chatSlice.typingUsers).Nodup := by decide
  have ha := addTypingUser_keeps_users_unique chatSlice
    { userId := "A", userName := "Ann", isTyping := true }
  have hb := addTypingUser_keeps_users_unique chatSlice
    { userId := "B", userName := "Bob", isTyping := false }
  exact ⟨hnd, ha.1 hnd, ha.2.2.1 rfl (by decide), hb.2.2.2.1 rfl⟩

/-- C30: from a state of the `notifications` slice whose `unreadCount` is not negative, none of
`addNotification`, `markNotificationAsRead.fulfilled`, `markAllNotificationsAsRead.fulfilled`,
`deleteNotification.fulfilled` and `clearNotifications` makes it negative.
`markNotificationAsRead.fulfilled` never raises it and lowers it by one at most, and it changes
it only when the list holds a notification with the id and the first such notification was
unread. -/
theorem unreadCount_stays_nonnegative (state : NotificationsState)
    (notification : Notification) (notificationId now : String)
    (h : 0 ≤ state.unreadCount) :
    0 ≤ (state.addNotification notification).unreadCount ∧
    0 ≤ (state.markNotificationAsRead_fulfilled notificationId now).unreadCount ∧
    0 ≤ (state.markAllNotificationsAsRead_fulfilled now).unreadCount ∧
    0 ≤ (state.deleteNotification_fulfilled notificationId).unreadCount ∧
    0 ≤ state.clearNotifications.unreadCount ∧
    (state.markNotificationAsRead_fulfilled notificationId now).unreadCount ≤
      state.unreadCount ∧
    state.unreadCount - 1 ≤
      (state.markNotificationAsRead_fulfilled notificationId now).unreadCount ∧
    ((state.markNotificationAsRead_fulfilled notificationId now).unreadCount ≠
        state.unreadCount →
      ∃ found, state.notifications.find? (fun n => n._id == notificationId) = some found ∧
        found ∈ state.notifications ∧ found._id = notificationId ∧ found.isRead = false) := by
  have hmark : (state.markNotificationAsRead_fulfilled notificationId now).unreadCount =
      match state.notifications.find? (fun n => n._id == notificationId) with
      | some found => if !found.isRead then max 0 (state.unreadCount - 1) else state.unreadCount
      | none => state.unreadCount := by
    unfold NotificationsState.markNotificationAsRead_fulfilled
    simp only []
    split
    · split <;> rfl
    · rfl
  refine ⟨?_, ?_, le_refl _, ?_, le_refl _, ?_, ?_, ?_⟩
  · unfold NotificationsState.addNotification
    simp only []
    split
    · show 0 ≤ state.unreadCount + 1
      omega
    · exact h
  · rw [hmark]
    split
    · split
      · exact le_max_left _ _
      · exact h
    · exact h
  · unfold NotificationsState.deleteNotification_fulfilled
    split
    · split
      · simp only []
        split
        · exact le_max_left _ _
        · exact h
      · exact h
    · exact h
  · rw [hmark]
    split
    · split
      · exact max_le h (by omega)
      · exact le_refl _
    · exact le_refl _
  · rw [hmark]
    split
    · split
      · exact le_max_right _ _
      · omega
    · omega
  · intro hne
    rw [hmark] at hne
    cases hfind : state.notifications.find? (fun n => n._id == notificationId) with
    | none =>
      rw [hfind] at hne
      exact absurd rfl hne
    | some found =>
      rw [hfind] at hne
      refine ⟨found, rfl, List.mem_of_find?_eq_some hfind, ?_, ?_⟩
      · simpa using List.find?_some hfind
      · cases hread : found.isRead
        · rfl
        · simp [hread] at hne

/-- C30 (witness): `noticeSlice` counts one unread notification; marking it read brings the
count to zero, and marking the notification that was read already leaves the count. -/
theorem unreadCount_stays_nonnegative_witness :
    0 ≤ noticeSlice.unreadCount ∧
    0 ≤ (noticeSlice.markNotificationAsRead_fulfilled "n1"
      "2024-01-02T00:00:00.000Z").unreadCount ∧
    0 ≤ (noticeSlice.deleteNotification_fulfilled "n1").unreadCount ∧
    (noticeSlice.markNotificationAsRead_fulfilled "n1" "2024-01-02T00:00:00.000Z").unreadCount
      = 0 ∧
    (noticeSlice.markNotificationAsRead_fulfilled "n2" "2024-01-02T00:00:00.000Z").unreadCount
      = 1 := by
  have h := unreadCount_stays_nonnegative noticeSlice matchNotice "n1"
    "2024-01-02T00:00:00.000Z" (by decide)
  exact ⟨by decide, h.2.1, h.2.2.2.1, by decide, by decide⟩

/-! ## The emission of a send on a service that reports a connection -/

/-- In every state the service reaches, a `sendMessage` made while `getConnectionStatus()` is
`true` finds the socket and returns `true`. -/
theorem ConnectionManager.service_send_succeeds (m : ConnectionManager) (hm : m.Reachable)
    (hconn : m.service.getConnectionStatus = true) (matchId content type : String) :
    ∃ sock, m.service.socket = some sock ∧
      (m.service.sendMessage matchId content type).2 = true := by
  have hsome := (ConnectionManager.consistent_of_reachable hm).2.2 hconn
  cases hs : m.socket with
  | none => simp [hs] at hsome
  | some sock =>
    have hc : m.isConnected = true := hconn
    refine ⟨{ emitted := sock.emitted }, by simp [ConnectionManager.service, hs], ?_⟩
    simp [ConnectionManager.service, hs, hc, SocketService.sendMessage,
      SocketService.emitWhenReady]

/-- C6 (as stated, refuted): the case of the claim does not occur.  In no state the service
reaches does `getConnectionStatus()` return `true` while `sendMessage` returns `false`.  On the
connected page `connectedWorld`, whose service is that of `connectedManager`, the emission of
"hello" returns `true`, the provisional message stays in the timeline, the input is cleared and
no notice is shown. -/
theorem emit_failure_excluded_counterexample :
    (¬ ∃ (events : List ManagerEvent) (matchId content type : String),
      (ConnectionManager.initial.run events).service.getConnectionStatus = true ∧
        ((ConnectionManager.initial.run events).service.sendMessage matchId content type).2 =
          false) ∧
    connectedWorld.socketService = connectedManager.service ∧
    connectedWorld.socketService.getConnectionStatus = true ∧
    (connectedWorld.socketService.sendMessage c123._id (jsTrim connectedWorld.newMessage)
      "text").2 = true ∧
    (sendMessage 3000 3000 connectedWorld).messages =
      [replyConfirmed, optimisticMessage alice "hello" 3000 3000, laterConfirmed] ∧
    (sendMessage 3000 3000 connectedWorld).newMessage = "" ∧
    (sendMessage 3000 3000 connectedWorld).toasts = [] := by
  refine ⟨?_, by decide, by decide, by decide, by decide, by decide, by decide⟩
  rintro ⟨events, matchId, content, type, hconn, hfail⟩
  obtain ⟨_, _, htrue⟩ := ConnectionManager.service_send_succeeds
    (ConnectionManager.initial.run events) ⟨events, rfl⟩ hconn matchId content type
  rw [htrue] at hfail
  exact absurd hfail (by decide)

/-- C6 (amended): let the service of the page be in a state the service reaches, a conversation
be selected and the input not be blank.  When `getConnectionStatus()` is `true`, the emission
cannot fail: `socketService.sendMessage` returns `true`, so the branch that removes the
provisional message and restores the input is not taken.  The call ends as a send: the timeline
is the timeline before with the provisional message inserted, which therefore is in it, the
input is cleared, no notice is shown, and the watchdog of the provisional message is started. -/
theorem sendMessage_emit_succeeds_when_connected (idNow createdNow : Int) (w : World)
    (selected : Match) (m : ConnectionManager) (hm : m.Reachable)
    (hsvc : w.socketService = m.service) (hsel : w.selectedMatch = some selected)
    (htext : ∃ c ∈ w.newMessage.data, isWhiteSpace c = false)
    (hconn : w.socketService.getConnectionStatus = true) :
    (w.socketService.sendMessage selected._id (jsTrim w.newMessage) "text").2 = true ∧
    (sendMessage idNow createdNow w).messages =
      insertOptimistic (optimisticMessage w.user (jsTrim w.newMessage) idNow createdNow)
        w.messages ∧
    optimisticMessage w.user (jsTrim w.newMessage) idNow createdNow ∈
      (sendMessage idNow createdNow w).messages ∧
    (sendMessage idNow createdNow w).newMessage = "" ∧
    (sendMessage idNow createdNow w).toasts = w.toasts ∧
    (sendMessage idNow createdNow w).timers =
      w.timers ++
        [(10000, optimisticMessage w.user (jsTrim w.newMessage) idNow createdNow)] := by
  rw [hsvc] at hconn
  obtain ⟨sock, hsock, htrue⟩ := ConnectionManager.service_send_succeeds m hm hconn
    selected._id (jsTrim w.newMessage) "text"
  rw [← hsvc] at hconn hsock htrue
  have hc : w.socketService.isConnected = true := hconn
  have hcan : CanSend w selected sock := ⟨hsel, htext, hsock, hc⟩
  have hmsgs := sendMessage_of_canSend idNow createdNow w selected sock hcan
  have hne : jsTrim w.newMessage ≠ "" := (jsTrim_ne_empty_iff _).mpr htext
  refine ⟨htrue, hmsgs, ?_, ?_, ?_, ?_⟩
  · rw [hmsgs]
    unfold insertOptimistic
    rw [mem_sortByCreatedAt]
    simp
  · simp [sendMessage, hsel, hne, SocketService.getConnectionStatus, hc,
      SocketService.sendMessage, SocketService.emitWhenReady, hsock]
  · simp [sendMessage, hsel, hne, SocketService.getConnectionStatus, hc,
      SocketService.sendMessage, SocketService.emitWhenReady, hsock]
  · simp [sendMessage, hsel, hne, SocketService.getConnectionStatus, hc,
      SocketService.sendMessage, SocketService.emitWhenReady, hsock]

/-- C6 (amended), on an example: " hello " is submitted on the connected page, whose service is
the one reached by `connect`, two registrations and the `connect` event. -/
theorem sendMessage_emit_succeeds_when_connected_witness :
    connectedManager.Reachable ∧ connectedWorld.socketService = connectedManager.service ∧
    connectedWorld.selectedMatch = some c123 ∧
    (∃ c ∈ connectedWorld.newMessage.data, isWhiteSpace c = false) ∧
    connectedWorld.socketService.getConnectionStatus = true ∧
    (connectedWorld.socketService.sendMessage c123._id (jsTrim connectedWorld.newMessage)
      "text").2 = true ∧
    (sendMessage 3000 3000 connectedWorld).newMessage = "" ∧
    (sendMessage 3000 3000 connectedWorld).toasts = connectedWorld.toasts := by
  have hreach : connectedManager.Reachable := ⟨_, rfl⟩
  have h := sendMessage_emit_succeeds_when_connected 3000 3000 connectedWorld c123
    connectedManager hreach (by decide) rfl ⟨'h', by decide, by decide⟩ rfl
  exact ⟨hreach, by decide, rfl, ⟨'h', by decide, by decide⟩, rfl, h.1, h.2.2.2.1,
    h.2.2.2.2.1⟩

end SkillSwap
